import Mathlib

/-!
FGOutputJsonSocket: destination parsing, emission guards and document assembly

A shallow embedding of `src/input_output/FGOutputJsonSocket.cpp`.

* C++ `std::string` values are `List Char`.
* `size_t` positions are natural numbers below `2 ^ w`, where `w` is the width of the
  machine word; `string::npos` is `2 ^ w - 1` and arithmetic on positions wraps modulo `2 ^ w`.
* `std::string::substr` raises `out_of_range` when its start position exceeds the length of
  the string; the embedding returns `none` there, so every function that extracts substrings
  is `Option`-valued.
-/

namespace JSBSim

/-! ## Machine words and `std::string` primitives -/

/-- The value of `string::npos`, the largest `size_t`, for a word of `w` bits. -/
def npos (w : Nat) : Nat := 2 ^ w - 1

/-- Addition of two `size_t` values. -/
def addW (w a b : Nat) : Nat := (a + b) % 2 ^ w

/-- Subtraction of two `size_t` values, both below `2 ^ w`. -/
def subW (w a b : Nat) : Nat := (a + 2 ^ w - b) % 2 ^ w

/-- Scan of `std::string::find`: the index of the first `c` at or after index `i`
(the list holds the characters from index `i` on), `npos` when there is none. -/
def findFrom (w : Nat) (c : Char) : List Char → Nat → Nat
  | [], _ => npos w
  | x :: xs, i => if x = c then i else findFrom w c xs (i + 1)

/-- The call `s.find(c, 0)`. -/
def find (w : Nat) (s : List Char) (c : Char) : Nat := findFrom w c s 0

/-- The call `s.substr(pos, n)`: `none` stands for the `out_of_range` exception raised when
`pos > s.size()`; otherwise the characters from `pos` on, at most `n` of them. -/
def substr (s : List Char) (pos n : Nat) : Option (List Char) :=
  if s.length < pos then none else some ((s.drop pos).take n)

/-- The predicate `isspace` of the C locale. -/
def isspace (c : Char) : Bool :=
  c = ' ' || (9 ≤ c.toNat && c.toNat ≤ 13)

/-- The predicate `isdigit`. -/
def isdigit (c : Char) : Bool :=
  48 ≤ c.toNat && c.toNat ≤ 57

/-- The digit loop of `atoi`: accumulate decimal digits, stop at the first other character. -/
def atoiDigits : Nat → List Char → Nat
  | acc, [] => acc
  | acc, c :: cs => if isdigit c then atoiDigits (acc * 10 + (c.toNat - 48)) cs else acc

/-- The number that a C numeral conversion reads from a text: skip leading white space, read
an optional sign, then the longest run of decimal digits; no digits give `0`. This is the
mathematical value, before any limit of a machine type. -/
def numeralValue (s : List Char) : Int :=
  match s.dropWhile isspace with
  | '-' :: cs => - (atoiDigits 0 cs : Int)
  | '+' :: cs => (atoiDigits 0 cs : Int)
  | cs => (atoiDigits 0 cs : Int)

/-- The C library function `strtol(s, 0, 10)` with a 64-bit `long`: the value read, clamped
to the range of `long`. -/
def strtol (s : List Char) : Int :=
  if numeralValue s < -(2 ^ 63) then -(2 ^ 63)
  else if 2 ^ 63 - 1 < numeralValue s then 2 ^ 63 - 1
  else numeralValue s

/-- The conversion of a `long` to the 32-bit `int`: the low 32 bits, read as a signed number. -/
def toInt32 (x : Int) : Int := (x + 2 ^ 31) % 2 ^ 32 - 2 ^ 31

/-- The C library function `atoi`, which the C library defines as `(int) strtol(s, 0, 10)`.
The C standard leaves the result open when the value read is not representable as an `int`;
the embedding follows the C library with a 64-bit `long` and a 32-bit `int`, so that for
instance `2147483648` reads as `-2147483648` and `99999999999` as `1215752191`. -/
def atoi (s : List Char) : Int := toInt32 (strtol s)

/-- The value of a numeral in positional notation: the reference against which `atoi` is
compared, each character contributing its digit times a power of ten. -/
def decimalValue : List Char → Nat
  | [] => 0
  | c :: cs => (c.toNat - 48) * 10 ^ cs.length + decimalValue cs

/-- Modelled from the spec: `to_upper` is declared in a header that is not part of the sources
here; the spec calls the comparison case-insensitive, so every character is mapped by the
`toupper` of the C locale. -/
def to_upper (s : List Char) : List Char := s.map Char.toUpper

/-! ## The emitter -/

/-- Modelled from the spec: `FGfdmSocket::ProtocolType` is declared in a header that is not
part of the sources here; the spec gives the two transports. -/
inductive ProtocolType where
  | ptUDP
  | ptTCP
  deriving DecidableEq, Repr

/-- Modelled from the spec: the transport channel `FGfdmSocket` is not part of the sources
here. The spec gives it as a capability: it is created from a host, a port and a protocol,
answers whether it is connected, and sends bytes. `sent` records the transmissions made. -/
structure FGfdmSocket where
  host : List Char
  port : Int
  proto : ProtocolType
  connected : Bool
  sent : List (List Char)
  deriving DecidableEq, Repr

/-- The call `socket->GetConnectStatus()`. -/
def FGfdmSocket.GetConnectStatus (s : FGfdmSocket) : Bool := s.connected

/-- The call `socket->Send(data, length)`: one transmission of `data`. -/
def FGfdmSocket.Send (s : FGfdmSocket) (data : List Char) : FGfdmSocket :=
  { s with sent := s.sent ++ [data] }

/-- The data members of `FGOutputJsonSocket` that the member functions read and write:
`Name` and `SubSystems` are inherited, `socket` is the owned channel pointer (`none` is the
null pointer). `SockPort` holds the 32-bit integer that `atoi` returns; the mask `SubSystems`
is taken non-negative. -/
structure FGOutputJsonSocket where
  Name : List Char
  SockName : List Char
  SockPort : Int
  SockProtocol : ProtocolType
  socket : Option FGfdmSocket
  SubSystems : Nat
  deriving DecidableEq, Repr

/-- The constructor: `socket(0), SockProtocol(FGfdmSocket::ptUDP)`; the strings start empty.
The constructor does not initialise `SockPort`, whose indeterminate value is `port0`, and the
subsystem mask is set up by the base class. -/
def FGOutputJsonSocket.new (SubSystems : Nat) (port0 : Int) : FGOutputJsonSocket :=
  { Name := [], SockName := [], SockPort := port0, SockProtocol := ProtocolType.ptUDP,
    socket := none, SubSystems := SubSystems }

/-- The three local strings of `SetOutputName` after tokenizing. -/
structure Tokens where
  name : List Char
  proto : List Char
  port : List Char
  deriving DecidableEq, Repr

/-- The local `dot_pos` of `SetOutputName`. -/
def dot_pos (w : Nat) (fname : List Char) : Nat := find w fname ':'

/-- The local `slash_pos` of `SetOutputName`. -/
def slash_pos (w : Nat) (fname : List Char) : Nat := find w fname '/'

/-- The test `dot_pos + 1 < slash_pos` guarding the extraction of the protocol token. -/
def protoExtracted (w : Nat) (fname : List Char) : Bool :=
  decide (addW w (dot_pos w fname) 1 < slash_pos w fname)

/-- The test `slash_pos < string::npos` guarding the extraction of the port token. -/
def portExtracted (w : Nat) (fname : List Char) : Bool :=
  decide (slash_pos w fname < npos w)

/-- The first part of `SetOutputName`, "tokenize the output name". -/
def tokenize (w : Nat) (fname : List Char) : Option Tokens := do
  let name ← substr fname 0 (dot_pos w fname)
  let proto ←
    (if protoExtracted w fname then
      substr fname (addW w (dot_pos w fname) 1)
        (subW w (subW w (slash_pos w fname) (dot_pos w fname)) 1)
    else
      some ['U', 'D', 'P'])
  let port ←
    (if portExtracted w fname then
      substr fname (addW w (slash_pos w fname) 1) (npos w)
    else
      some ['1', '1', '3', '8'])
  pure { name := name, proto := proto, port := port }

/-- The member function `SetOutputName`: tokenize, set the model name, set the socket
parameters. `SockProtocol` is assigned only when the protocol token is `UDP` in upper case;
the `else` branch is commented out in the source. -/
def SetOutputName (w : Nat) (self : FGOutputJsonSocket) (fname : List Char) :
    Option FGOutputJsonSocket := do
  let t ← tokenize w fname
  let self := { self with Name := t.name ++ [':'] ++ t.port ++ ['/'] ++ t.proto }
  let self := { self with SockName := t.name }
  let self := { self with SockPort := atoi t.port }
  if to_upper t.proto = ['U', 'D', 'P'] then
    pure { self with SockProtocol := ProtocolType.ptUDP }
  else
    pure self


/-- Modelled from the spec: the configuration element `Element` is not part of the sources
here; it supplies raw attribute strings, and an attribute that is not specified reads as the
empty string. -/
structure Element where
  attributes : List (List Char × List Char)
  deriving DecidableEq, Repr

/-- The call `el->GetAttributeValue(key)`. -/
def Element.GetAttributeValue (el : Element) (key : List Char) : List Char :=
  match el.attributes.lookup key with
  | some v => v
  | none => []

/-- The member function `Load`. The base-class `FGOutputType::Load` is not part of the sources
here and is the parameter `baseLoad`: it answers whether it succeeded and may update the
state. On success the output name is set from the three attributes. -/
def Load (w : Nat) (baseLoad : Element → FGOutputJsonSocket → Bool × FGOutputJsonSocket)
    (self : FGOutputJsonSocket) (el : Element) : Option (Bool × FGOutputJsonSocket) :=
  let r := baseLoad el self
  if !r.1 then
    some (false, r.2)
  else do
    let self ← SetOutputName w r.2
      (el.GetAttributeValue "name".toList ++ [':'] ++
        el.GetAttributeValue "protocol".toList ++ ['/'] ++
        el.GetAttributeValue "port".toList)
    pure (true, self)

/-- Whether a text, after optional leading white space and an optional sign, starts with a
decimal digit: the condition under which a port token counts as numeric. -/
def numericStart (s : List Char) : Bool :=
  match s.dropWhile isspace with
  | [] => false
  | c :: cs =>
    if c = '+' ∨ c = '-' then
      match cs with
      | [] => false
      | d :: _ => isdigit d
    else isdigit c

/-! ## The document built by `Print` -/

/-- Modelled from the spec: the subsystem flags are orthogonal bits of a flat integer. Their
declaration (`eSubSystems` in `FGOutputType.h`) is not part of the sources here; the values
are those of that declaration. -/
def ssSimulation : Nat := 1

/-- Modelled from the spec: subsystem flag of `FGOutputType.h`, see `ssSimulation`. -/
def ssAerosurfaces : Nat := 2

/-- Modelled from the spec: subsystem flag of `FGOutputType.h`, see `ssSimulation`. -/
def ssRates : Nat := 4

/-- Modelled from the spec: subsystem flag of `FGOutputType.h`, see `ssSimulation`. -/
def ssVelocities : Nat := 8

/-- Modelled from the spec: subsystem flag of `FGOutputType.h`, see `ssSimulation`. -/
def ssForces : Nat := 16

/-- Modelled from the spec: subsystem flag of `FGOutputType.h`, see `ssSimulation`. -/
def ssMoments : Nat := 32

/-- Modelled from the spec: subsystem flag of `FGOutputType.h`, see `ssSimulation`. -/
def ssAtmosphere : Nat := 64

/-- Modelled from the spec: subsystem flag of `FGOutputType.h`, see `ssSimulation`. -/
def ssMassProps : Nat := 128

/-- Modelled from the spec: subsystem flag of `FGOutputType.h`, see `ssSimulation`. -/
def ssAeroFunctions : Nat := 256

/-- Modelled from the spec: subsystem flag of `FGOutputType.h`, see `ssSimulation`. -/
def ssPropagate : Nat := 512

/-- Modelled from the spec: subsystem flag of `FGOutputType.h`, see `ssSimulation`. -/
def ssGroundReactions : Nat := 1024

/-- Modelled from the spec: subsystem flag of `FGOutputType.h`, see `ssSimulation`. -/
def ssFCS : Nat := 2048

/-- Modelled from the spec: subsystem flag of `FGOutputType.h`, see `ssSimulation`. -/
def ssPropulsion : Nat := 4096

/-- The numeric side of the output stream, for values of type `α` standing for `double`:
`put` is the text that `json << x` appends for a number, `radtodeg` the conversion constant
and `mul` the product of two numbers. -/
structure NumStream (α : Type) where
  put : α → List Char
  radtodeg : α
  mul : α → α → α

/-- Readings of the flight control system that `Print` takes. -/
structure FGFCS (α : Type) where
  GetTrimStatus : Bool
  GetDaCmd : α
  GetDeCmd : α
  GetDrCmd : α
  GetDfCmd : α
  GetDaLPos : α
  GetDaRPos : α
  GetDePos : α
  GetDrPos : α
  GetDfPos : α

/-- Readings of the state propagation model, one field for each call with its argument;
`GetLocation_GetLatitudeDeg` is `GetLocation().GetLatitudeDeg()`. -/
structure FGPropagate (α : Type) where
  GetPQR_eP : α
  GetPQR_eQ : α
  GetPQR_eR : α
  GetUVW_eU : α
  GetUVW_eV : α
  GetUVW_eW : α
  GetVel_eNorth : α
  GetVel_eEast : α
  GetVel_eDown : α
  GetAltitudeASL : α
  GetEuler_ePhi : α
  GetEuler_eTht : α
  GetEuler_ePsi : α
  GetLocation_GetLatitudeDeg : α
  GetLocation_GetLongitudeDeg : α

/-- Readings of the accelerations model. -/
structure FGAccelerations (α : Type) where
  GetPQRdot_eP : α
  GetPQRdot_eQ : α
  GetPQRdot_eR : α

/-- Readings of the auxiliary model. -/
structure FGAuxiliary (α : Type) where
  Getqbar : α
  GetVt : α
  GetAeroUVW_eU : α
  GetAeroUVW_eV : α
  GetAeroUVW_eW : α
  Getalpha_inDegrees : α
  Getbeta_inDegrees : α

/-- Readings of the aerodynamics model. -/
structure FGAerodynamics (α : Type) where
  GetvFw_eDrag : α
  GetvFw_eSide : α
  GetvFw_eLift : α
  GetLoD : α

/-- Readings of the aircraft model. -/
structure FGAircraft (α : Type) where
  GetName : List Char
  GetForces_eX : α
  GetForces_eY : α
  GetForces_eZ : α
  GetMoments_eL : α
  GetMoments_eM : α
  GetMoments_eN : α

/-- Readings of the atmosphere model. -/
structure FGAtmosphere (α : Type) where
  GetDensity : α
  GetPressureSL : α
  GetPressure : α

/-- Readings of the winds model. -/
structure FGWinds (α : Type) where
  GetTurbMagnitude : α
  GetTurbDirection : α
  GetTotalWindNED_eNorth : α
  GetTotalWindNED_eEast : α
  GetTotalWindNED_eDown : α

/-- Readings of the mass balance model; `GetJ_i_j` is `GetJ()(i,j)`. -/
structure FGMassBalance (α : Type) where
  GetJ_1_1 : α
  GetJ_1_2 : α
  GetJ_1_3 : α
  GetJ_2_1 : α
  GetJ_2_2 : α
  GetJ_2_3 : α
  GetJ_3_1 : α
  GetJ_3_2 : α
  GetJ_3_3 : α
  GetMass : α
  GetXYZcg_eX : α
  GetXYZcg_eY : α
  GetXYZcg_eZ : α

/-- The simulation models that `Print` reads through its back-references, at one tick. -/
structure Models (α : Type) where
  GetSimTime : α
  FCS : FGFCS α
  Propagate : FGPropagate α
  Accelerations : FGAccelerations α
  Auxiliary : FGAuxiliary α
  Aerodynamics : FGAerodynamics α
  Aircraft : FGAircraft α
  Atmosphere : FGAtmosphere α
  Winds : FGWinds α
  MassBalance : FGMassBalance α

/-- The statements of `Print` before the first subsystem test: root key and time stamp. -/
def Print_header {α : Type} (io : NumStream α) (m : Models α) (json : List Char) : List Char :=
  let json := json ++ "\x7b\n \"JSBSim_".toList
  let json := json ++ m.Aircraft.GetName
  let json := json ++ "\": \x7b\n".toList
  let json := json ++ "\"timestamp\" : ".toList
  let json := json ++ io.put m.GetSimTime
  json

/-- The body of `if (SubSystems & ssAerosurfaces)` in `Print`. -/
def Print_Aerosurfaces {α : Type} (io : NumStream α) (m : Models α) (json : List Char) : List Char :=
  let json := json ++ ",\n".toList
  let json := json ++ "\n\"ControlSurfaces\": \x7b ".toList
  let json := json ++ "\"AileronCommand\": ".toList
  let json := json ++ io.put m.FCS.GetDaCmd
  let json := json ++ ", \"ElevatorCommand\": ".toList
  let json := json ++ io.put m.FCS.GetDeCmd
  let json := json ++ ", \"RudderCommand\": ".toList
  let json := json ++ io.put m.FCS.GetDrCmd
  let json := json ++ ", \"FlapCommand\": ".toList
  let json := json ++ io.put m.FCS.GetDfCmd
  let json := json ++ ", \"LeftAileronPosition\": ".toList
  let json := json ++ io.put m.FCS.GetDaLPos
  let json := json ++ ", \"RightAileronPosition\": ".toList
  let json := json ++ io.put m.FCS.GetDaRPos
  let json := json ++ ", \"ElevatorPosition\": ".toList
  let json := json ++ io.put m.FCS.GetDePos
  let json := json ++ ", \"RudderPosition\": ".toList
  let json := json ++ io.put m.FCS.GetDrPos
  let json := json ++ ", \"FlapPosition\": ".toList
  let json := json ++ io.put m.FCS.GetDfPos
  let json := json ++ " \x7d".toList
  json

/-- The body of `if (SubSystems & ssRates)` in `Print`. -/
def Print_Rates {α : Type} (io : NumStream α) (m : Models α) (json : List Char) : List Char :=
  let json := json ++ ",\n".toList
  let json := json ++ "\"Rates\": \x7b ".toList
  let json := json ++ "\"P\": ".toList
  let json := json ++ io.put (io.mul io.radtodeg m.Propagate.GetPQR_eP)
  let json := json ++ ", \"Q\": ".toList
  let json := json ++ io.put (io.mul io.radtodeg m.Propagate.GetPQR_eQ)
  let json := json ++ ", \"R\": ".toList
  let json := json ++ io.put (io.mul io.radtodeg m.Propagate.GetPQR_eR)
  let json := json ++ ", \"PDot\": ".toList
  let json := json ++ io.put (io.mul io.radtodeg m.Accelerations.GetPQRdot_eP)
  let json := json ++ ", \"QDot\": ".toList
  let json := json ++ io.put (io.mul io.radtodeg m.Accelerations.GetPQRdot_eQ)
  let json := json ++ ", \"RDot\": ".toList
  let json := json ++ io.put (io.mul io.radtodeg m.Accelerations.GetPQRdot_eR)
  let json := json ++ " \x7d".toList
  json

/-- The body of `if (SubSystems & ssVelocities)` in `Print`. -/
def Print_Velocities {α : Type} (io : NumStream α) (m : Models α) (json : List Char) : List Char :=
  let json := json ++ ",\n".toList
  let json := json ++ "\"Velocities\": \x7b ".toList
  let json := json ++ "\"QBar\": ".toList
  let json := json ++ io.put m.Auxiliary.Getqbar
  let json := json ++ ", \"Vtotal\": ".toList
  let json := json ++ io.put m.Auxiliary.GetVt
  let json := json ++ ", \"UBody\": ".toList
  let json := json ++ io.put m.Propagate.GetUVW_eU
  let json := json ++ ", \"VBody\": ".toList
  let json := json ++ io.put m.Propagate.GetUVW_eV
  let json := json ++ ", \"WBody\": ".toList
  let json := json ++ io.put m.Propagate.GetUVW_eW
  let json := json ++ ", \"UAero\": ".toList
  let json := json ++ io.put m.Auxiliary.GetAeroUVW_eU
  let json := json ++ ", \"VAero\": ".toList
  let json := json ++ io.put m.Auxiliary.GetAeroUVW_eV
  let json := json ++ ", \"WAero\": ".toList
  let json := json ++ io.put m.Auxiliary.GetAeroUVW_eW
  let json := json ++ ", \"Vn\": ".toList
  let json := json ++ io.put m.Propagate.GetVel_eNorth
  let json := json ++ ", \"Ve\": ".toList
  let json := json ++ io.put m.Propagate.GetVel_eEast
  let json := json ++ ", \"Vd\": ".toList
  let json := json ++ io.put m.Propagate.GetVel_eDown
  let json := json ++ " \x7d".toList
  json

/-- The body of `if (SubSystems & ssForces)` in `Print`. -/
def Print_Forces {α : Type} (io : NumStream α) (m : Models α) (json : List Char) : List Char :=
  let json := json ++ ",\n".toList
  let json := json ++ "\"Forces\": \x7b ".toList
  let json := json ++ "\"F_Drag\": ".toList
  let json := json ++ io.put m.Aerodynamics.GetvFw_eDrag
  let json := json ++ ", \"F_Side\": ".toList
  let json := json ++ io.put m.Aerodynamics.GetvFw_eSide
  let json := json ++ ", \"F_Lift\": ".toList
  let json := json ++ io.put m.Aerodynamics.GetvFw_eLift
  let json := json ++ ", \"LoD\": ".toList
  let json := json ++ io.put m.Aerodynamics.GetLoD
  let json := json ++ ", \"Fx\": ".toList
  let json := json ++ io.put m.Aircraft.GetForces_eX
  let json := json ++ ", \"Fy\": ".toList
  let json := json ++ io.put m.Aircraft.GetForces_eY
  let json := json ++ ", \"Fz\": ".toList
  let json := json ++ io.put m.Aircraft.GetForces_eZ
  let json := json ++ " \x7d".toList
  json

/-- The body of `if (SubSystems & ssMoments)` in `Print`. -/
def Print_Moments {α : Type} (io : NumStream α) (m : Models α) (json : List Char) : List Char :=
  let json := json ++ ",\n".toList
  let json := json ++ "\"Moments\": \x7b ".toList
  let json := json ++ "\"L\": ".toList
  let json := json ++ io.put m.Aircraft.GetMoments_eL
  let json := json ++ ", \"M\": ".toList
  let json := json ++ io.put m.Aircraft.GetMoments_eM
  let json := json ++ ", \"N\": ".toList
  let json := json ++ io.put m.Aircraft.GetMoments_eN
  let json := json ++ " \x7d".toList
  json

/-- The body of `if (SubSystems & ssAtmosphere)` in `Print`. -/
def Print_Atmosphere {α : Type} (io : NumStream α) (m : Models α) (json : List Char) : List Char :=
  let json := json ++ ",\n".toList
  let json := json ++ "\"Atmosphere\": \x7b ".toList
  let json := json ++ "\"Rho\": ".toList
  let json := json ++ io.put m.Atmosphere.GetDensity
  let json := json ++ ", \"SL_pressure\": ".toList
  let json := json ++ io.put m.Atmosphere.GetPressureSL
  let json := json ++ ", \"Ambient_pressure\": ".toList
  let json := json ++ io.put m.Atmosphere.GetPressure
  let json := json ++ ", \"Turbulence_Magnitude\": ".toList
  let json := json ++ io.put m.Winds.GetTurbMagnitude
  let json := json ++ ", \"Turbulence_Direction\": ".toList
  let json := json ++ io.put m.Winds.GetTurbDirection
  let json := json ++ ", \"NWind\": ".toList
  let json := json ++ io.put m.Winds.GetTotalWindNED_eNorth
  let json := json ++ ", \"EWind\": ".toList
  let json := json ++ io.put m.Winds.GetTotalWindNED_eEast
  let json := json ++ ", \"DWind\": ".toList
  let json := json ++ io.put m.Winds.GetTotalWindNED_eDown
  let json := json ++ " \x7d".toList
  json

/-- The body of `if (SubSystems & ssMassProps)` in `Print`. -/
def Print_MassProps {α : Type} (io : NumStream α) (m : Models α) (json : List Char) : List Char :=
  let json := json ++ ",\n".toList
  let json := json ++ "\"MassProperties\": \x7b ".toList
  let json := json ++ "\"Ixx\": ".toList
  let json := json ++ io.put m.MassBalance.GetJ_1_1
  let json := json ++ ", \"Ixy\": ".toList
  let json := json ++ io.put m.MassBalance.GetJ_1_2
  let json := json ++ ", \"Ixz\": ".toList
  let json := json ++ io.put m.MassBalance.GetJ_1_3
  let json := json ++ ", \"Iyx\": ".toList
  let json := json ++ io.put m.MassBalance.GetJ_2_1
  let json := json ++ ", \"Iyy\": ".toList
  let json := json ++ io.put m.MassBalance.GetJ_2_2
  let json := json ++ ", \"Iyz\": ".toList
  let json := json ++ io.put m.MassBalance.GetJ_2_3
  let json := json ++ ", \"Izx\": ".toList
  let json := json ++ io.put m.MassBalance.GetJ_3_1
  let json := json ++ ", \"Izy\": ".toList
  let json := json ++ io.put m.MassBalance.GetJ_3_2
  let json := json ++ ", \"Izz\": ".toList
  let json := json ++ io.put m.MassBalance.GetJ_3_3
  let json := json ++ ", \"Mass\": ".toList
  let json := json ++ io.put m.MassBalance.GetMass
  let json := json ++ ", \"Xcg\": ".toList
  let json := json ++ io.put m.MassBalance.GetXYZcg_eX
  let json := json ++ ", \"Ycg\": ".toList
  let json := json ++ io.put m.MassBalance.GetXYZcg_eY
  let json := json ++ ", \"Zcg\": ".toList
  let json := json ++ io.put m.MassBalance.GetXYZcg_eZ
  let json := json ++ " \x7d".toList
  json

/-- The body of `if (SubSystems & ssPropagate)` in `Print`. -/
def Print_Propagate {α : Type} (io : NumStream α) (m : Models α) (json : List Char) : List Char :=
  let json := json ++ ",\n".toList
  let json := json ++ "\"Propagate\": \x7b ".toList
  let json := json ++ "\"Altitude\": ".toList
  let json := json ++ io.put m.Propagate.GetAltitudeASL
  let json := json ++ ", \"Phi_(deg)\": ".toList
  let json := json ++ io.put (io.mul io.radtodeg m.Propagate.GetEuler_ePhi)
  let json := json ++ ", \"Theta_(deg)\": ".toList
  let json := json ++ io.put (io.mul io.radtodeg m.Propagate.GetEuler_eTht)
  let json := json ++ ", \"Psi_(deg)\": ".toList
  let json := json ++ io.put (io.mul io.radtodeg m.Propagate.GetEuler_ePsi)
  let json := json ++ ", \"Alpha_(deg)\": ".toList
  let json := json ++ io.put m.Auxiliary.Getalpha_inDegrees
  let json := json ++ ", \"Beta_(deg)\": ".toList
  let json := json ++ io.put m.Auxiliary.Getbeta_inDegrees
  let json := json ++ ", \"Latitude_(deg)\": ".toList
  let json := json ++ io.put m.Propagate.GetLocation_GetLatitudeDeg
  let json := json ++ ", \"Longitude_(deg)\": ".toList
  let json := json ++ io.put m.Propagate.GetLocation_GetLongitudeDeg
  let json := json ++ " \x7d".toList
  json

/-- The text that `Print` assembles in `json` once the guards have passed: the header, the
eight subsystem tests in their order, the closing braces. The mask is taken non-negative. -/
def Print_json {α : Type} (io : NumStream α) (m : Models α) (SubSystems : Nat) : List Char :=
  let json : List Char := []
  let json := Print_header io m json
  let json := if SubSystems &&& ssAerosurfaces ≠ 0 then Print_Aerosurfaces io m json else json
  let json := if SubSystems &&& ssRates ≠ 0 then Print_Rates io m json else json
  let json := if SubSystems &&& ssVelocities ≠ 0 then Print_Velocities io m json else json
  let json := if SubSystems &&& ssForces ≠ 0 then Print_Forces io m json else json
  let json := if SubSystems &&& ssMoments ≠ 0 then Print_Moments io m json else json
  let json := if SubSystems &&& ssAtmosphere ≠ 0 then Print_Atmosphere io m json else json
  let json := if SubSystems &&& ssMassProps ≠ 0 then Print_MassProps io m json else json
  let json := if SubSystems &&& ssPropagate ≠ 0 then Print_Propagate io m json else json
  let json := json ++ "\n\x7d\n\x7d".toList
  json

/-- The member function `Print`: nothing happens without a channel, with a channel that is
not connected, or in trim state; otherwise the document is assembled and sent once. -/
def Print {α : Type} (io : NumStream α) (m : Models α) (self : FGOutputJsonSocket) :
    FGOutputJsonSocket :=
  match self.socket with
  | none => self
  | some socket =>
    if !socket.GetConnectStatus then self
    else if m.FCS.GetTrimStatus then self
    else { self with socket := some (socket.Send (Print_json io m self.SubSystems)) }

/-- The number of transmissions made so far on the channel that the emitter holds. -/
def transmissions (self : FGOutputJsonSocket) : Nat :=
  match self.socket with
  | none => 0
  | some socket => socket.sent.length

/-- The subsystems that gate a section of the document. -/
inductive Subsystem where
  | Aerosurfaces
  | Rates
  | Velocities
  | Forces
  | Moments
  | Atmosphere
  | MassProperties
  | Propagate
  deriving DecidableEq, Repr

/-- The flag that `Print` tests for a subsystem. -/
def Subsystem.bit : Subsystem → Nat
  | .Aerosurfaces => ssAerosurfaces
  | .Rates => ssRates
  | .Velocities => ssVelocities
  | .Forces => ssForces
  | .Moments => ssMoments
  | .Atmosphere => ssAtmosphere
  | .MassProperties => ssMassProps
  | .Propagate => ssPropagate

/-- The fixed order of the sections. -/
def sectionOrder : List Subsystem :=
  [.Aerosurfaces, .Rates, .Velocities, .Forces, .Moments, .Atmosphere, .MassProperties,
    .Propagate]

/-- The test `SubSystems & bit` of `Print` for a subsystem. -/
def Subsystem.enabled (SubSystems : Nat) (s : Subsystem) : Bool :=
  decide (SubSystems &&& s.bit ≠ 0)

/-- The text that the section of a subsystem adds to the document: what the body of its test
appends, separator included. -/
def sectionText {α : Type} (io : NumStream α) (m : Models α) : Subsystem → List Char
  | .Aerosurfaces => Print_Aerosurfaces io m []
  | .Rates => Print_Rates io m []
  | .Velocities => Print_Velocities io m []
  | .Forces => Print_Forces io m []
  | .Moments => Print_Moments io m []
  | .Atmosphere => Print_Atmosphere io m []
  | .MassProperties => Print_MassProps io m []
  | .Propagate => Print_Propagate io m []

/-- The key of a section: the text between the first two double quotes of its text. -/
def sectionKey (text : List Char) : List Char :=
  ((text.dropWhile (fun c => c != Char.ofNat 34)).tail).takeWhile (fun c => c != Char.ofNat 34)

/-- Readings that are all the same number, for evaluating `Print` on an example. -/
def Models.const {α : Type} (name : List Char) (trim : Bool) (x : α) : Models α :=
  { GetSimTime := x,
    FCS := ⟨trim, x, x, x, x, x, x, x, x, x⟩,
    Propagate := ⟨x, x, x, x, x, x, x, x, x, x, x, x, x, x, x⟩,
    Accelerations := ⟨x, x, x⟩,
    Auxiliary := ⟨x, x, x, x, x, x, x⟩,
    Aerodynamics := ⟨x, x, x, x⟩,
    Aircraft := ⟨name, x, x, x, x, x, x⟩,
    Atmosphere := ⟨x, x, x⟩,
    Winds := ⟨x, x, x, x, x⟩,
    MassBalance := ⟨x, x, x, x, x, x, x, x, x, x, x, x, x⟩ }

/-- A number stream on natural numbers that writes decimal numerals, for examples. -/
def NumStream.decimal : NumStream Nat :=
  { put := fun n => Nat.toDigits 10 n, radtodeg := 57, mul := fun a b => a * b }

/-- The name that the specification gives to a subsystem and, by the claim under test, to
its section. -/
def Subsystem.specName : Subsystem → List Char
  | .Aerosurfaces => "Aerosurfaces".toList
  | .Rates => "Rates".toList
  | .Velocities => "Velocities".toList
  | .Forces => "Forces".toList
  | .Moments => "Moments".toList
  | .Atmosphere => "Atmosphere".toList
  | .MassProperties => "MassProperties".toList
  | .Propagate => "Propagate".toList

/-- The object of a section: its text after the two characters of the separator. -/
def sectionObject {α : Type} (io : NumStream α) (m : Models α) (s : Subsystem) : List Char :=
  (sectionText io m s).drop 2

/-- The opening brace character. -/
def openBrace : Char := Char.ofNat 123

/-- The closing brace character. -/
def closeBrace : Char := Char.ofNat 125

/-- The eight flags that `Print` tests, in one mask. -/
def sectionBits : Nat :=
  ssAerosurfaces ||| ssRates ||| ssVelocities ||| ssForces ||| ssMoments ||| ssAtmosphere |||
    ssMassProps ||| ssPropagate

/-- A piece that a body of `Print` streams into the document: literal text or a number. -/
inductive Item (α : Type) where
  | lit (s : List Char)
  | num (x : α)

/-- The text that a piece adds to the document. -/
def Item.text {α : Type} (io : NumStream α) : Item α → List Char
  | .lit s => s
  | .num x => io.put x

/-- The pieces that the body of the test of a subsystem streams, in the order of the `<<`
chain of the source. -/
def sectionItems {α : Type} (io : NumStream α) (m : Models α) : Subsystem → List (Item α)
  | .Aerosurfaces =>
    [.lit ",\n".toList,
     .lit "\n\"ControlSurfaces\": \x7b ".toList,
     .lit "\"AileronCommand\": ".toList,
     .num (m.FCS.GetDaCmd),
     .lit ", \"ElevatorCommand\": ".toList,
     .num (m.FCS.GetDeCmd),
     .lit ", \"RudderCommand\": ".toList,
     .num (m.FCS.GetDrCmd),
     .lit ", \"FlapCommand\": ".toList,
     .num (m.FCS.GetDfCmd),
     .lit ", \"LeftAileronPosition\": ".toList,
     .num (m.FCS.GetDaLPos),
     .lit ", \"RightAileronPosition\": ".toList,
     .num (m.FCS.GetDaRPos),
     .lit ", \"ElevatorPosition\": ".toList,
     .num (m.FCS.GetDePos),
     .lit ", \"RudderPosition\": ".toList,
     .num (m.FCS.GetDrPos),
     .lit ", \"FlapPosition\": ".toList,
     .num (m.FCS.GetDfPos),
     .lit " \x7d".toList]
  | .Rates =>
    [.lit ",\n".toList,
     .lit "\"Rates\": \x7b ".toList,
     .lit "\"P\": ".toList,
     .num (io.mul io.radtodeg m.Propagate.GetPQR_eP),
     .lit ", \"Q\": ".toList,
     .num (io.mul io.radtodeg m.Propagate.GetPQR_eQ),
     .lit ", \"R\": ".toList,
     .num (io.mul io.radtodeg m.Propagate.GetPQR_eR),
     .lit ", \"PDot\": ".toList,
     .num (io.mul io.radtodeg m.Accelerations.GetPQRdot_eP),
     .lit ", \"QDot\": ".toList,
     .num (io.mul io.radtodeg m.Accelerations.GetPQRdot_eQ),
     .lit ", \"RDot\": ".toList,
     .num (io.mul io.radtodeg m.Accelerations.GetPQRdot_eR),
     .lit " \x7d".toList]
  | .Velocities =>
    [.lit ",\n".toList,
     .lit "\"Velocities\": \x7b ".toList,
     .lit "\"QBar\": ".toList,
     .num (m.Auxiliary.Getqbar),
     .lit ", \"Vtotal\": ".toList,
     .num (m.Auxiliary.GetVt),
     .lit ", \"UBody\": ".toList,
     .num (m.Propagate.GetUVW_eU),
     .lit ", \"VBody\": ".toList,
     .num (m.Propagate.GetUVW_eV),
     .lit ", \"WBody\": ".toList,
     .num (m.Propagate.GetUVW_eW),
     .lit ", \"UAero\": ".toList,
     .num (m.Auxiliary.GetAeroUVW_eU),
     .lit ", \"VAero\": ".toList,
     .num (m.Auxiliary.GetAeroUVW_eV),
     .lit ", \"WAero\": ".toList,
     .num (m.Auxiliary.GetAeroUVW_eW),
     .lit ", \"Vn\": ".toList,
     .num (m.Propagate.GetVel_eNorth),
     .lit ", \"Ve\": ".toList,
     .num (m.Propagate.GetVel_eEast),
     .lit ", \"Vd\": ".toList,
     .num (m.Propagate.GetVel_eDown),
     .lit " \x7d".toList]
  | .Forces =>
    [.lit ",\n".toList,
     .lit "\"Forces\": \x7b ".toList,
     .lit "\"F_Drag\": ".toList,
     .num (m.Aerodynamics.GetvFw_eDrag),
     .lit ", \"F_Side\": ".toList,
     .num (m.Aerodynamics.GetvFw_eSide),
     .lit ", \"F_Lift\": ".toList,
     .num (m.Aerodynamics.GetvFw_eLift),
     .lit ", \"LoD\": ".toList,
     .num (m.Aerodynamics.GetLoD),
     .lit ", \"Fx\": ".toList,
     .num (m.Aircraft.GetForces_eX),
     .lit ", \"Fy\": ".toList,
     .num (m.Aircraft.GetForces_eY),
     .lit ", \"Fz\": ".toList,
     .num (m.Aircraft.GetForces_eZ),
     .lit " \x7d".toList]
  | .Moments =>
    [.lit ",\n".toList,
     .lit "\"Moments\": \x7b ".toList,
     .lit "\"L\": ".toList,
     .num (m.Aircraft.GetMoments_eL),
     .lit ", \"M\": ".toList,
     .num (m.Aircraft.GetMoments_eM),
     .lit ", \"N\": ".toList,
     .num (m.Aircraft.GetMoments_eN),
     .lit " \x7d".toList]
  | .Atmosphere =>
    [.lit ",\n".toList,
     .lit "\"Atmosphere\": \x7b ".toList,
     .lit "\"Rho\": ".toList,
     .num (m.Atmosphere.GetDensity),
     .lit ", \"SL_pressure\": ".toList,
     .num (m.Atmosphere.GetPressureSL),
     .lit ", \"Ambient_pressure\": ".toList,
     .num (m.Atmosphere.GetPressure),
     .lit ", \"Turbulence_Magnitude\": ".toList,
     .num (m.Winds.GetTurbMagnitude),
     .lit ", \"Turbulence_Direction\": ".toList,
     .num (m.Winds.GetTurbDirection),
     .lit ", \"NWind\": ".toList,
     .num (m.Winds.GetTotalWindNED_eNorth),
     .lit ", \"EWind\": ".toList,
     .num (m.Winds.GetTotalWindNED_eEast),
     .lit ", \"DWind\": ".toList,
     .num (m.Winds.GetTotalWindNED_eDown),
     .lit " \x7d".toList]
  | .MassProperties =>
    [.lit ",\n".toList,
     .lit "\"MassProperties\": \x7b ".toList,
     .lit "\"Ixx\": ".toList,
     .num (m.MassBalance.GetJ_1_1),
     .lit ", \"Ixy\": ".toList,
     .num (m.MassBalance.GetJ_1_2),
     .lit ", \"Ixz\": ".toList,
     .num (m.MassBalance.GetJ_1_3),
     .lit ", \"Iyx\": ".toList,
     .num (m.MassBalance.GetJ_2_1),
     .lit ", \"Iyy\": ".toList,
     .num (m.MassBalance.GetJ_2_2),
     .lit ", \"Iyz\": ".toList,
     .num (m.MassBalance.GetJ_2_3),
     .lit ", \"Izx\": ".toList,
     .num (m.MassBalance.GetJ_3_1),
     .lit ", \"Izy\": ".toList,
     .num (m.MassBalance.GetJ_3_2),
     .lit ", \"Izz\": ".toList,
     .num (m.MassBalance.GetJ_3_3),
     .lit ", \"Mass\": ".toList,
     .num (m.MassBalance.GetMass),
     .lit ", \"Xcg\": ".toList,
     .num (m.MassBalance.GetXYZcg_eX),
     .lit ", \"Ycg\": ".toList,
     .num (m.MassBalance.GetXYZcg_eY),
     .lit ", \"Zcg\": ".toList,
     .num (m.MassBalance.GetXYZcg_eZ),
     .lit " \x7d".toList]
  | .Propagate =>
    [.lit ",\n".toList,
     .lit "\"Propagate\": \x7b ".toList,
     .lit "\"Altitude\": ".toList,
     .num (m.Propagate.GetAltitudeASL),
     .lit ", \"Phi_(deg)\": ".toList,
     .num (io.mul io.radtodeg m.Propagate.GetEuler_ePhi),
     .lit ", \"Theta_(deg)\": ".toList,
     .num (io.mul io.radtodeg m.Propagate.GetEuler_eTht),
     .lit ", \"Psi_(deg)\": ".toList,
     .num (io.mul io.radtodeg m.Propagate.GetEuler_ePsi),
     .lit ", \"Alpha_(deg)\": ".toList,
     .num (m.Auxiliary.Getalpha_inDegrees),
     .lit ", \"Beta_(deg)\": ".toList,
     .num (m.Auxiliary.Getbeta_inDegrees),
     .lit ", \"Latitude_(deg)\": ".toList,
     .num (m.Propagate.GetLocation_GetLatitudeDeg),
     .lit ", \"Longitude_(deg)\": ".toList,
     .num (m.Propagate.GetLocation_GetLongitudeDeg),
     .lit " \x7d".toList]

/-- The key under which the section of a subsystem is written. -/
def Subsystem.key : Subsystem → List Char
  | .Aerosurfaces => "ControlSurfaces".toList
  | .Rates => "Rates".toList
  | .Velocities => "Velocities".toList
  | .Forces => "Forces".toList
  | .Moments => "Moments".toList
  | .Atmosphere => "Atmosphere".toList
  | .MassProperties => "MassProperties".toList
  | .Propagate => "Propagate".toList

/-- The names of the numbers in the section of a subsystem, in the order written. -/
def Subsystem.fields : Subsystem → List (List Char)
  | .Aerosurfaces =>
    ["AileronCommand".toList, "ElevatorCommand".toList, "RudderCommand".toList,
     "FlapCommand".toList, "LeftAileronPosition".toList, "RightAileronPosition".toList,
     "ElevatorPosition".toList, "RudderPosition".toList, "FlapPosition".toList]
  | .Rates =>
    ["P".toList, "Q".toList, "R".toList, "PDot".toList, "QDot".toList, "RDot".toList]
  | .Velocities =>
    ["QBar".toList, "Vtotal".toList, "UBody".toList, "VBody".toList, "WBody".toList,
     "UAero".toList, "VAero".toList, "WAero".toList, "Vn".toList, "Ve".toList, "Vd".toList]
  | .Forces =>
    ["F_Drag".toList, "F_Side".toList, "F_Lift".toList, "LoD".toList, "Fx".toList, "Fy".toList,
     "Fz".toList]
  | .Moments =>
    ["L".toList, "M".toList, "N".toList]
  | .Atmosphere =>
    ["Rho".toList, "SL_pressure".toList, "Ambient_pressure".toList,
     "Turbulence_Magnitude".toList, "Turbulence_Direction".toList, "NWind".toList,
     "EWind".toList, "DWind".toList]
  | .MassProperties =>
    ["Ixx".toList, "Ixy".toList, "Ixz".toList, "Iyx".toList, "Iyy".toList, "Iyz".toList,
     "Izx".toList, "Izy".toList, "Izz".toList, "Mass".toList, "Xcg".toList, "Ycg".toList,
     "Zcg".toList]
  | .Propagate =>
    ["Altitude".toList, "Phi_(deg)".toList, "Theta_(deg)".toList, "Psi_(deg)".toList,
     "Alpha_(deg)".toList, "Beta_(deg)".toList, "Latitude_(deg)".toList, "Longitude_(deg)".toList]

/-- A lexical token of the document as a reader of JSON sees it: a quoted string or a
brace. -/
inductive Tok where
  | str (s : List Char)
  | lbrace
  | rbrace
  deriving DecidableEq, Repr

/-- The scanner of the document. The state is `none` between strings and, inside a string,
the characters read since its opening quote, last first. Braces inside a string are text. -/
def lexAux : Option (List Char) → List Char → List Tok
  | _, [] => []
  | none, c :: cs =>
    if c = Char.ofNat 34 then lexAux (some []) cs
    else if c = openBrace then Tok.lbrace :: lexAux none cs
    else if c = closeBrace then Tok.rbrace :: lexAux none cs
    else lexAux none cs
  | some acc, c :: cs =>
    if c = Char.ofNat 34 then Tok.str acc.reverse :: lexAux none cs
    else lexAux (some (c :: acc)) cs

/-- The state in which the scanner leaves a text. -/
def lexEnd : Option (List Char) → List Char → Option (List Char)
  | st, [] => st
  | none, c :: cs =>
    if c = Char.ofNat 34 then lexEnd (some []) cs else lexEnd none cs
  | some acc, c :: cs =>
    if c = Char.ofNat 34 then lexEnd none cs else lexEnd (some (c :: acc)) cs

/-- The strings and braces of a text, in the order read. -/
def tokens (text : List Char) : List Tok := lexAux none text

/-- The keys of the objects of a token sequence: the strings that an opening brace follows. -/
def objectKeys : List Tok → List (List Char)
  | [] => []
  | Tok.str k :: Tok.lbrace :: rest => k :: objectKeys rest
  | _ :: rest => objectKeys rest

/-- A text without quote or brace: it cannot start or end a string or an object. -/
def plain (s : List Char) : Prop :=
  ∀ c ∈ s, c ≠ Char.ofNat 34 ∧ c ≠ openBrace ∧ c ≠ closeBrace

/-- The tokens of a piece read between strings; a number is taken to be plain. -/
def Item.toks {α : Type} : Item α → List Tok
  | .lit s => lexAux none s
  | .num _ => []

/-- Whether a piece read between strings ends between strings. -/
def Item.closed {α : Type} : Item α → Bool
  | .lit s => (lexEnd none s).isNone
  | .num _ => true

/-- The names that the section of a subsystem is made of: its key, then its fields. -/
def Subsystem.names (s : Subsystem) : List (List Char) := s.key :: s.fields

/-- The tokens of the section of a subsystem: key, opening brace, field names, closing
brace. -/
def sectionTokens (s : Subsystem) : List Tok :=
  Tok.str s.key :: Tok.lbrace :: (s.fields.map Tok.str ++ [Tok.rbrace])

/-! ## Channel lifecycle -/

/-- The channel objects of the emitter on the free store: `live` counts those created and not
yet deleted, `peak` is the largest value that `live` has had. -/
structure Heap where
  live : Nat
  peak : Nat
  deriving DecidableEq, Repr

/-- The statement `delete socket`: nothing for the null pointer, otherwise one channel less. -/
def Heap.delete (heap : Heap) (socket : Option FGfdmSocket) : Heap :=
  match socket with
  | none => heap
  | some _ => { heap with live := heap.live - 1 }

/-- Modelled from the spec: the constructor of `FGfdmSocket` is not part of the sources here;
the spec gives it as `create(host, port, protocol)`, with a connected state that can be
queried. Whether the destination is reached is decided by the network, the parameter
`connect`; nothing has been sent on a new channel. -/
def FGfdmSocket.create (connect : List Char → Int → ProtocolType → Bool)
    (host : List Char) (port : Int) (proto : ProtocolType) : FGfdmSocket :=
  { host := host, port := port, proto := proto, connected := connect host port proto,
    sent := [] }

/-- The expression `new FGfdmSocket(...)`: the pointer to the new channel, never null, and
one live channel more. -/
def Heap.new (heap : Heap) (channel : FGfdmSocket) : Option FGfdmSocket × Heap :=
  (some channel, { live := heap.live + 1, peak := max heap.peak (heap.live + 1) })

/-- The member function `PrintHeaders`, whose body is commented out in the source. -/
def PrintHeaders (self : FGOutputJsonSocket) : FGOutputJsonSocket := self

/-- The member function `InitModel`. The base-class `FGOutputType::InitModel` is not part of
the sources here and its result is the parameter `baseOk`. When it succeeds the held channel is
deleted and a new one is created from `SockName`, `SockPort` and `SockProtocol`; the result is
`false` for a null pointer or a channel that is not connected. -/
def InitModel (baseOk : Bool) (connect : List Char → Int → ProtocolType → Bool)
    (self : FGOutputJsonSocket) (heap : Heap) : Bool × FGOutputJsonSocket × Heap :=
  if baseOk then
    let heap := heap.delete self.socket
    let r := heap.new (FGfdmSocket.create connect self.SockName self.SockPort self.SockProtocol)
    let self := { self with socket := r.1 }
    let heap := r.2
    match self.socket with
    | none => (false, self, heap)
    | some socket =>
      if !socket.GetConnectStatus then (false, self, heap)
      else (true, PrintHeaders self, heap)
  else
    (false, self, heap)

/-- The destructor `~FGOutputJsonSocket`: `delete socket`. -/
def destroy (self : FGOutputJsonSocket) (heap : Heap) : Heap :=
  heap.delete self.socket

/-- The emitter together with the free store; `alive` is false once the destructor has run. -/
structure World where
  self : FGOutputJsonSocket
  heap : Heap
  alive : Bool

/-- The state right after construction: no channel exists. -/
def World.init (SubSystems : Nat) (port0 : Int) : World :=
  { self := FGOutputJsonSocket.new SubSystems port0, heap := { live := 0, peak := 0 },
    alive := true }

/-- The calls that a client can make on the emitter, each with what its surroundings supply:
the outcome of the base-class `Load` (success and the inherited members `Name` and
`SubSystems` that it leaves; the base class cannot reach the members of the derived class),
the outcome of the base-class `InitModel` and the network, the stream and the readings. -/
inductive Op (α : Type) where
  | SetOutputName (fname : List Char)
  | Load (baseOk : Bool) (baseName : List Char) (baseSubSystems : Nat) (el : Element)
  | InitModel (baseOk : Bool) (connect : List Char → Int → ProtocolType → Bool)
  | Print (io : NumStream α) (m : Models α)
  | Destroy

/-- One call on the emitter; after the destructor no call has an object to act on. -/
def step {α : Type} (w : Nat) (wd : World) (op : Op α) : World :=
  if !wd.alive then wd
  else
    match op with
    | .SetOutputName fname =>
      match SetOutputName w wd.self fname with
      | some self => { wd with self := self }
      | none => wd
    | .Load baseOk baseName baseSubSystems el =>
      match Load w (fun _ s => (baseOk, { s with Name := baseName, SubSystems := baseSubSystems }))
          wd.self el with
      | some r => { wd with self := r.2 }
      | none => wd
    | .InitModel baseOk connect =>
      let r := InitModel baseOk connect wd.self wd.heap
      { wd with self := r.2.1, heap := r.2.2 }
    | .Print io m => { wd with self := Print io m wd.self }
    | .Destroy => { wd with heap := destroy wd.self wd.heap, alive := false }

/-- A sequence of calls, from left to right. -/
def run {α : Type} (w : Nat) (wd : World) (ops : List (Op α)) : World :=
  ops.foldl (step w) wd

/-- The invariant of the lifecycle: never more than one channel has been live at a time, the
live channels are exactly the one that a living emitter holds, and the protocol is UDP. -/
def World.Inv (wd : World) : Prop :=
  wd.heap.peak ≤ 1 ∧
  wd.heap.live = (if wd.alive = true ∧ wd.self.socket.isSome = true then 1 else 0) ∧
  wd.self.SockProtocol = ProtocolType.ptUDP

/-! ## Numbers in the output stream

`json << x` for a `double` uses the defaults of the stream, which `Print` never changes:
precision 6, no fixed or scientific flag, the classic locale. The text is that of the C
conversion `%g`. A finite `double` is a rational number; infinities and NaN are outside the
embedding. -/

/-- The character of a decimal digit. -/
def digitChar (d : Nat) : Char :=
  match d % 10 with
  | 0 => '0'
  | 1 => '1'
  | 2 => '2'
  | 3 => '3'
  | 4 => '4'
  | 5 => '5'
  | 6 => '6'
  | 7 => '7'
  | 8 => '8'
  | _ => '9'

/-- The `k` lowest decimal digits of `m`, most significant first. -/
def fixedDigits : Nat → Nat → List Char
  | 0, _ => []
  | k + 1, m => digitChar (m / 10 ^ k) :: fixedDigits k m

/-- Search upwards for the largest `e` with `d * 10 ^ e ≤ n`, starting from one that holds. -/
def expUp : Nat → Nat → Nat → Nat → Nat
  | 0, _, _, e => e
  | fuel + 1, n, d, e => if d * 10 ^ (e + 1) ≤ n then expUp fuel n d (e + 1) else e

/-- Search upwards for the smallest `k` with `d ≤ n * 10 ^ k`. -/
def expDown : Nat → Nat → Nat → Nat → Nat
  | 0, _, _, k => k
  | fuel + 1, n, d, k => if d ≤ n * 10 ^ k then k else expDown fuel n d (k + 1)

/-- The decimal exponent of the positive number `n / d`: the `e` with
`10 ^ e ≤ n / d < 10 ^ (e + 1)`. -/
def decimalExponent (n d : Nat) : Int :=
  if d ≤ n then (expUp n n d 0 : Int) else -(expDown d n d 1 : Int)

/-- The quotient `N / D` rounded to the nearest natural number, ties to the even one. -/
def roundHalfEven (N D : Nat) : Nat :=
  if 2 * (N % D) < D then N / D
  else if D < 2 * (N % D) then N / D + 1
  else if (N / D) % 2 = 0 then N / D else N / D + 1

/-- A number with six significant decimal digits: sign, the digits as a number `m` with
`10 ^ 5 ≤ m < 10 ^ 6`, and the decimal exponent `X` of the first digit. -/
structure Decimal6 where
  neg : Bool
  m : Nat
  X : Int
  deriving DecidableEq, Repr

/-- The number that six significant digits stand for. -/
def Decimal6.value (D : Decimal6) : ℚ :=
  (if D.neg then -1 else 1) * (D.m : ℚ) * (10 : ℚ) ^ (D.X - 5)

/-- A non-zero number rounded to six significant decimal digits, as the conversion does
before it lays out the text; a round-up to seven digits moves to the next exponent. -/
def toDecimal6 (v : ℚ) : Decimal6 :=
  if roundHalfEven (v.num.natAbs * 10 ^ (5 - decimalExponent v.num.natAbs v.den).toNat)
      (v.den * 10 ^ (decimalExponent v.num.natAbs v.den - 5).toNat) = 10 ^ 6 then
    { neg := decide (v.num < 0), m := 10 ^ 5, X := decimalExponent v.num.natAbs v.den + 1 }
  else
    { neg := decide (v.num < 0),
      m := roundHalfEven (v.num.natAbs * 10 ^ (5 - decimalExponent v.num.natAbs v.den).toNat)
        (v.den * 10 ^ (decimalExponent v.num.natAbs v.den - 5).toNat),
      X := decimalExponent v.num.natAbs v.den }

/-- Trailing zeros removed. -/
def stripZeros (ds : List Char) : List Char :=
  (ds.reverse.dropWhile (fun c => c == '0')).reverse

/-- The fraction of a numeral: nothing when no digit is left, else the point and the digits. -/
def fracPart (fp : List Char) : List Char :=
  match fp with
  | [] => []
  | c :: cs => '.' :: c :: cs

/-- The number of decimal digits of a natural number. -/
def numDigits (n : Nat) : Nat := if n = 0 then 1 else expUp n n 1 0 + 1

/-- The exponent of the scientific layout: sign and at least two digits. -/
def expDigits (X : Int) : List Char :=
  (if X < 0 then '-' else '+') :: fixedDigits (max 2 (numDigits X.natAbs)) X.natAbs

/-- The layout of the conversion `%g` with precision 6: scientific when the exponent is below
-4 or at least 6, fixed otherwise, trailing zeros and a bare point removed. -/
def formatG (D : Decimal6) : List Char :=
  let body :=
    if D.X < -4 ∨ 6 ≤ D.X then
      (fixedDigits 6 D.m).take 1 ++ fracPart (stripZeros ((fixedDigits 6 D.m).drop 1)) ++
        'e' :: expDigits D.X
    else if 0 ≤ D.X then
      (fixedDigits 6 D.m).take (D.X.toNat + 1) ++
        fracPart (stripZeros ((fixedDigits 6 D.m).drop (D.X.toNat + 1)))
    else
      '0' :: fracPart (List.replicate ((-D.X).toNat - 1) '0' ++ stripZeros (fixedDigits 6 D.m))
  if D.neg then '-' :: body else body

/-- The text that `json << x` appends for the finite `double` with value `v`. -/
def putDouble (v : ℚ) : List Char :=
  if v = 0 then ['0'] else formatG (toDecimal6 v)

/-- The number `mant * 10 ^ e`. -/
def scale10 (mant e : Int) : ℚ :=
  if 0 ≤ e then ((mant * 10 ^ e.toNat : Int) : ℚ) else mkRat mant (10 ^ (-e).toNat)

/-- The exponent part of a decimal numeral, `0` when there is none. -/
def parseExp (s : List Char) : Int :=
  match s with
  | 'e' :: '-' :: t => -(decimalValue (t.takeWhile isdigit) : Int)
  | 'e' :: '+' :: t => (decimalValue (t.takeWhile isdigit) : Int)
  | 'e' :: t => (decimalValue (t.takeWhile isdigit) : Int)
  | _ => 0

/-- The number that an unsigned decimal numeral denotes: digits, an optional point with
digits, an optional exponent. -/
def parseDecimal (neg : Bool) (s : List Char) : ℚ :=
  scale10
    ((if neg then -1 else 1) *
      (decimalValue (s.takeWhile isdigit ++
        (match s.dropWhile isdigit with
          | '.' :: t => t.takeWhile isdigit
          | _ => [])) : Int))
    (parseExp
        (match s.dropWhile isdigit with
          | '.' :: t => t.dropWhile isdigit
          | _ => s.dropWhile isdigit) -
      ((match s.dropWhile isdigit with
          | '.' :: t => t.takeWhile isdigit
          | _ => []).length : Int))

/-- The number that a decimal text denotes, read as the C function `strtod` and the parsers of
structured data read a decimal numeral: leading white space, an optional sign, digits, an
optional fraction and an optional exponent. The result is the exact number, before it is
rounded to a `double`. -/
def strtod (s : List Char) : ℚ :=
  match s.dropWhile isspace with
  | '-' :: t => parseDecimal true t
  | '+' :: t => parseDecimal false t
  | t => parseDecimal false t

/-- Search upwards for the largest `e` with `d * 2 ^ e ≤ n`, starting from one that holds. -/
def binUp : Nat → Nat → Nat → Nat → Nat
  | 0, _, _, e => e
  | fuel + 1, n, d, e => if d * 2 ^ (e + 1) ≤ n then binUp fuel n d (e + 1) else e

/-- Search upwards for the smallest `k` with `d ≤ n * 2 ^ k`. -/
def binDown : Nat → Nat → Nat → Nat → Nat
  | 0, _, _, k => k
  | fuel + 1, n, d, k => if d ≤ n * 2 ^ k then k else binDown fuel n d (k + 1)

/-- The binary exponent of the positive number `n / d`: the `e` with
`2 ^ e ≤ n / d < 2 ^ (e + 1)`. -/
def binaryExponent (n d : Nat) : Int :=
  if d ≤ n then (binUp n n d 0 : Int) else -(binDown d n d 1 : Int)

/-- The number `mant * 2 ^ e`. -/
def scale2 (mant e : Int) : ℚ :=
  if 0 ≤ e then ((mant * 2 ^ e.toNat : Int) : ℚ) else mkRat mant (2 ^ (-e).toNat)

/-- The `double` nearest to `num / den`, ties to even, for results in the normal range: the
rounding of a floating-point operation. -/
def roundToDouble (num : Int) (den : Nat) : ℚ :=
  if num = 0 then 0
  else
    scale2
      ((if num < 0 then -1 else 1) *
        (roundHalfEven (num.natAbs * 2 ^ (52 - binaryExponent num.natAbs den).toNat)
          (den * 2 ^ (binaryExponent num.natAbs den - 52).toNat) : Int))
      (binaryExponent num.natAbs den - 52)

/-- Modelled from the spec: the constant `radtodeg` is declared in a base class that is not
part of the sources here; rates and angles are unit-converted to degrees with it, so it is
the `double` nearest to 180/π, which is 1007958012753983 / 2 ^ 44. -/
def radtodeg : ℚ := mkRat 1007958012753983 17592186044416

/-- The output stream of `Print` on `double` values: the text of `putDouble`, the constant
`radtodeg` and the floating-point product. -/
def NumStream.double : NumStream ℚ :=
  { put := putDouble,
    radtodeg := JSBSim.radtodeg,
    mul := fun a b => roundToDouble (a.num * b.num) (a.den * b.den) }

/-- The characters that the text of a number can hold: digits, the point, the signs and the
exponent letter. -/
def numChar (c : Char) : Bool :=
  isdigit c || c == '.' || c == '-' || c == '+' || c == 'e'

/-! ## Lemmas on words and strings -/

theorem two_pow_pos_w (w : Nat) : 0 < 2 ^ w := Nat.two_pow_pos w

theorem npos_add_one (w : Nat) : npos w + 1 = 2 ^ w := by
  have := two_pow_pos_w w
  unfold npos; omega

theorem addW_of_lt (w a : Nat) (h : a < npos w) : addW w a 1 = a + 1 := by
  have := npos_add_one w
  unfold addW
  exact Nat.mod_eq_of_lt (by omega)

theorem addW_npos (w : Nat) : addW w (npos w) 1 = 0 := by
  unfold addW
  rw [npos_add_one, Nat.mod_self]

theorem addW_le (w a : Nat) : addW w a 1 ≤ a + 1 := Nat.mod_le _ _

theorem subW_of_le (w a b : Nat) (hba : b ≤ a) (ha : a < 2 ^ w) : subW w a b = a - b := by
  unfold subW
  have e : a + 2 ^ w - b = (a - b) + 2 ^ w := by omega
  rw [e, Nat.add_mod_right]
  exact Nat.mod_eq_of_lt (by omega)

theorem subW_of_lt (w a b : Nat) (hab : a < b) (hb : b < 2 ^ w) :
    subW w a b = a + 2 ^ w - b := by
  unfold subW
  exact Nat.mod_eq_of_lt (by omega)

theorem findFrom_eq (w : Nat) (c : Char) (s : List Char) (i : Nat) :
    findFrom w c s i = if c ∈ s then i + (s.takeWhile (fun x => x != c)).length else npos w := by
  induction s generalizing i with
  | nil => simp [findFrom]
  | cons x xs ih =>
    by_cases hx : x = c
    · subst hx; simp [findFrom]
    · have hx2 : ¬ c = x := fun h => hx h.symm
      simp [findFrom, hx, hx2, ih, List.takeWhile_cons]
      split <;> omega

theorem find_of_mem (w : Nat) (c : Char) (s : List Char) (h : c ∈ s) :
    find w s c = (s.takeWhile (fun x => x != c)).length := by
  simp [find, findFrom_eq, h]

theorem find_of_not_mem (w : Nat) (c : Char) (s : List Char) (h : c ∉ s) :
    find w s c = npos w := by
  simp [find, findFrom_eq, h]

theorem takeWhile_length_lt (c : Char) (s : List Char) (h : c ∈ s) :
    (s.takeWhile (fun x => x != c)).length < s.length := by
  induction s with
  | nil => simp at h
  | cons x xs ih =>
    by_cases hx : x = c
    · subst hx; simp
    · have hm : c ∈ xs := by
        rcases List.mem_cons.mp h with h1 | h1
        · exact absurd h1.symm hx
        · exact h1
      simp [List.takeWhile_cons, hx, ih hm]

theorem take_takeWhile_length (c : Char) (s : List Char) :
    s.take (s.takeWhile (fun x => x != c)).length = s.takeWhile (fun x => x != c) := by
  induction s with
  | nil => simp
  | cons x xs ih =>
    by_cases hx : x = c
    · subst hx; simp
    · simp [List.takeWhile_cons, hx, ih]

theorem drop_takeWhile_length (c : Char) (s : List Char) :
    s.drop (s.takeWhile (fun x => x != c)).length = s.dropWhile (fun x => x != c) := by
  induction s with
  | nil => simp
  | cons x xs ih =>
    by_cases hx : x = c
    · subst hx; simp
    · simp [List.takeWhile_cons, List.dropWhile_cons, hx, ih]

theorem takeWhile_of_not_mem (c : Char) (s : List Char) (h : c ∉ s) :
    s.takeWhile (fun x => x != c) = s := by
  induction s with
  | nil => simp
  | cons x xs ih =>
    have hx : ¬ x = c := fun e => h (by simp [e])
    have hm : c ∉ xs := fun e => h (List.mem_cons_of_mem _ e)
    simp [List.takeWhile_cons, hx, ih hm]

theorem substr_zero (s : List Char) (n : Nat) : substr s 0 n = some (s.take n) := by
  simp [substr]

theorem substr_of_le (s : List Char) (pos n : Nat) (h : pos ≤ s.length) :
    substr s pos n = some ((s.drop pos).take n) := by
  simp [substr, Nat.not_lt.mpr h]

theorem dot_pos_of_mem (w : Nat) (fname : List Char) (h : ':' ∈ fname) :
    dot_pos w fname = (fname.takeWhile (fun x => x != ':')).length := find_of_mem w _ _ h

theorem dot_pos_of_not_mem (w : Nat) (fname : List Char) (h : ':' ∉ fname) :
    dot_pos w fname = npos w := find_of_not_mem w _ _ h

theorem slash_pos_of_mem (w : Nat) (fname : List Char) (h : '/' ∈ fname) :
    slash_pos w fname = (fname.takeWhile (fun x => x != '/')).length := find_of_mem w _ _ h

theorem slash_pos_of_not_mem (w : Nat) (fname : List Char) (h : '/' ∉ fname) :
    slash_pos w fname = npos w := find_of_not_mem w _ _ h

/-- The start position of the protocol extraction never exceeds the length of the input. -/
theorem proto_start_le (w : Nat) (fname : List Char) :
    addW w (dot_pos w fname) 1 ≤ fname.length := by
  by_cases h : ':' ∈ fname
  · have h1 := takeWhile_length_lt ':' fname h
    have h2 := addW_le w (dot_pos w fname)
    rw [dot_pos_of_mem w fname h] at h2 ⊢
    omega
  · rw [dot_pos_of_not_mem w fname h, addW_npos]
    exact Nat.zero_le _

/-- When the port is extracted, its start position never exceeds the length of the input. -/
theorem port_start_le (w : Nat) (fname : List Char) (hx : portExtracted w fname = true) :
    addW w (slash_pos w fname) 1 ≤ fname.length := by
  by_cases h : '/' ∈ fname
  · have h1 := takeWhile_length_lt '/' fname h
    have h2 := addW_le w (slash_pos w fname)
    rw [slash_pos_of_mem w fname h] at h2 ⊢
    omega
  · simp [portExtracted, slash_pos_of_not_mem w fname h] at hx

/-- The outcome of `tokenize` in terms of its three extractions, none of which is out of range. -/
theorem tokenize_some (w : Nat) (fname : List Char) :
    tokenize w fname = some
      { name := fname.take (dot_pos w fname),
        proto := if protoExtracted w fname then
            (fname.drop (addW w (dot_pos w fname) 1)).take
              (subW w (subW w (slash_pos w fname) (dot_pos w fname)) 1)
          else ['U', 'D', 'P'],
        port := if portExtracted w fname then
            (fname.drop (addW w (slash_pos w fname) 1)).take (npos w)
          else ['1', '1', '3', '8'] } := by
  unfold tokenize
  rw [substr_zero]
  by_cases hp : protoExtracted w fname = true
  · rw [if_pos hp, if_pos hp, substr_of_le _ _ _ (proto_start_le w fname)]
    by_cases hq : portExtracted w fname = true
    · rw [if_pos hq, if_pos hq, substr_of_le _ _ _ (port_start_le w fname hq)]
      rfl
    · rw [if_neg hq, if_neg hq]
      rfl
  · rw [if_neg hp, if_neg hp]
    by_cases hq : portExtracted w fname = true
    · rw [if_pos hq, if_pos hq, substr_of_le _ _ _ (port_start_le w fname hq)]
      rfl
    · rw [if_neg hq, if_neg hq]
      rfl

/-- The host token is the text before the first colon (all of the input without a colon). -/
theorem name_token_eq (w : Nat) (fname : List Char) (hlen : fname.length < npos w) :
    fname.take (dot_pos w fname) = fname.takeWhile (fun x => x != ':') := by
  by_cases h : ':' ∈ fname
  · rw [dot_pos_of_mem w fname h, take_takeWhile_length]
  · rw [dot_pos_of_not_mem w fname h, takeWhile_of_not_mem _ _ h]
    exact List.take_of_length_le (Nat.le_of_lt hlen)

/-- The port token is the text after the first slash, or the default without a slash. -/
theorem port_token_eq (w : Nat) (fname : List Char) (hlen : fname.length < npos w) :
    (if portExtracted w fname then
        (fname.drop (addW w (slash_pos w fname) 1)).take (npos w)
      else ['1', '1', '3', '8']) =
    if '/' ∈ fname then (fname.dropWhile (fun x => x != '/')).tail else ['1', '1', '3', '8'] := by
  by_cases h : '/' ∈ fname
  · have h1 := takeWhile_length_lt '/' fname h
    have hx : portExtracted w fname = true := by
      simp only [portExtracted, slash_pos_of_mem w fname h, decide_eq_true_eq]
      omega
    rw [if_pos hx, if_pos h, slash_pos_of_mem w fname h, addW_of_lt w _ (by omega),
      ← drop_takeWhile_length, List.tail_drop]
    apply List.take_of_length_le
    simp only [List.length_drop]
    omega
  · have hx : ¬ portExtracted w fname = true := by
      simp [portExtracted, slash_pos_of_not_mem w fname h]
    rw [if_neg hx, if_neg h]

/-- The state that `SetOutputName` leaves, given the tokens. -/
theorem SetOutputName_of_tokenize (w : Nat) (self : FGOutputJsonSocket) (fname : List Char)
    (t : Tokens) (ht : tokenize w fname = some t) :
    SetOutputName w self fname = some
      { self with
        Name := t.name ++ [':'] ++ t.port ++ ['/'] ++ t.proto,
        SockName := t.name,
        SockPort := atoi t.port,
        SockProtocol :=
          if to_upper t.proto = ['U', 'D', 'P'] then ProtocolType.ptUDP
          else self.SockProtocol } := by
  unfold SetOutputName
  rw [ht]
  simp only [Option.bind_eq_bind, Option.some_bind]
  by_cases hu : to_upper t.proto = ['U', 'D', 'P']
  · rw [if_pos hu, if_pos hu]; rfl
  · rw [if_neg hu, if_neg hu]; rfl

theorem takeWhile_append_cons (c : Char) (a b : List Char) (h : c ∉ a) :
    (a ++ c :: b).takeWhile (fun x => x != c) = a := by
  induction a with
  | nil => simp
  | cons x xs ih =>
    have hx : ¬ x = c := fun e => h (by simp [e])
    have hm : c ∉ xs := fun e => h (List.mem_cons_of_mem _ e)
    simp [List.takeWhile_cons, hx, ih hm]

theorem dropWhile_append_cons (c : Char) (a b : List Char) (h : c ∉ a) :
    (a ++ c :: b).dropWhile (fun x => x != c) = c :: b := by
  induction a with
  | nil => simp
  | cons x xs ih =>
    have hx : ¬ x = c := fun e => h (by simp [e])
    have hm : c ∉ xs := fun e => h (List.mem_cons_of_mem _ e)
    simp [List.dropWhile_cons, hx, ih hm]

theorem atoiDigits_eq (p : List Char) (hp : ∀ c ∈ p, isdigit c = true) (acc : Nat) :
    atoiDigits acc p = acc * 10 ^ p.length + decimalValue p := by
  induction p generalizing acc with
  | nil => simp [atoiDigits, decimalValue]
  | cons c cs ih =>
    have hc : isdigit c = true := hp c (by simp)
    have hcs : ∀ d ∈ cs, isdigit d = true := fun d hd => hp d (List.mem_cons_of_mem _ hd)
    simp only [atoiDigits, hc, if_true, ih hcs, decimalValue, List.length_cons]
    ring

theorem isspace_of_isdigit (c : Char) (hc : isdigit c = true) : isspace c = false := by
  simp only [isdigit, Bool.and_eq_true, decide_eq_true_eq] at hc
  have h32 : c ≠ ' ' := by
    intro e
    rw [e] at hc
    exact absurd hc.1 (by decide)
  simp only [isspace, h32, decide_False, Bool.false_or, Bool.and_eq_false_iff,
    decide_eq_false_iff_not]
  right
  omega

/-- On a non-empty string of digits the value read is the value of the numeral. -/
theorem numeralValue_of_digits (p : List Char) (hp0 : p ≠ [])
    (hp : ∀ c ∈ p, isdigit c = true) : numeralValue p = (decimalValue p : Int) := by
  cases p with
  | nil => exact absurd rfl hp0
  | cons c cs =>
    have hc : isdigit c = true := hp c (by simp)
    have hs := isspace_of_isdigit c hc
    have hminus : c ≠ '-' := by
      intro e; rw [e] at hc; exact absurd hc (by decide)
    have hplus : c ≠ '+' := by
      intro e; rw [e] at hc; exact absurd hc (by decide)
    have hd : (c :: cs).dropWhile isspace = c :: cs := by
      simp [List.dropWhile_cons, hs]
    unfold numeralValue
    rw [hd]
    split
    · rename_i heq
      exact absurd (List.cons.inj heq).1 hminus
    · rename_i heq
      exact absurd (List.cons.inj heq).1 hplus
    · rw [atoiDigits_eq _ hp]
      simp

/-- A value in the range of `int` passes through `strtol` and the conversion unchanged. -/
theorem toInt32_strtol_of_range (s : List Char)
    (h1 : -(2 ^ 31) ≤ numeralValue s) (h2 : numeralValue s < 2 ^ 31) :
    atoi s = numeralValue s := by
  unfold atoi strtol toInt32
  have e1 : ¬ numeralValue s < -(2 ^ 63) := by omega
  have e2 : ¬ (2 ^ 63 - 1 < numeralValue s) := by omega
  rw [if_neg e1, if_neg e2]
  omega

/-- The result of `atoi` is a 32-bit signed integer. -/
theorem atoi_range (s : List Char) : -(2 ^ 31) ≤ atoi s ∧ atoi s < 2 ^ 31 := by
  unfold atoi toInt32
  constructor <;> omega

/-- On a non-empty string of digits whose value fits a 32-bit signed integer `atoi` returns
the value of the numeral. -/
theorem atoi_of_digits (p : List Char) (hp0 : p ≠ []) (hp : ∀ c ∈ p, isdigit c = true)
    (hfit : decimalValue p < 2 ^ 31) : atoi p = (decimalValue p : Int) := by
  have hv := numeralValue_of_digits p hp0 hp
  rw [toInt32_strtol_of_range p (by rw [hv]; omega) (by rw [hv]; omega), hv]

/-- The tokens of an input `h:PROTO/p`: the host is `h` and the port token is `p`. -/
theorem tokenize_form (w : Nat) (h PROTO p : List Char)
    (hh1 : ':' ∉ h) (hh2 : '/' ∉ h) (hP : '/' ∉ PROTO)
    (hlen : (h ++ ':' :: (PROTO ++ '/' :: p)).length < npos w) :
    ∃ t, tokenize w (h ++ ':' :: (PROTO ++ '/' :: p)) = some t ∧ t.name = h ∧ t.port = p := by
  refine ⟨_, tokenize_some w _, ?_, ?_⟩
  · show List.take _ _ = h
    rw [name_token_eq w _ hlen, takeWhile_append_cons ':' h _ hh1]
  · show (if _ then _ else _) = p
    rw [port_token_eq w _ hlen]
    have e : h ++ ':' :: (PROTO ++ '/' :: p) = (h ++ ':' :: PROTO) ++ '/' :: p := by simp
    have hm : '/' ∉ h ++ ':' :: PROTO := by
      simp only [List.mem_append, List.mem_cons, not_or]
      exact ⟨hh2, by decide, hP⟩
    have hin : '/' ∈ h ++ ':' :: (PROTO ++ '/' :: p) := by simp
    rw [if_pos hin, e, dropWhile_append_cons '/' _ _ hm]
    rfl

/-- The protocol token of an input `h:PROTO/p`: `PROTO`, or the default when `PROTO` is empty. -/
theorem tokenize_form_proto (w : Nat) (h PROTO p : List Char)
    (hh1 : ':' ∉ h) (hh2 : '/' ∉ h) (hP : '/' ∉ PROTO)
    (hlen : (h ++ ':' :: (PROTO ++ '/' :: p)).length < npos w) :
    ∃ t, tokenize w (h ++ ':' :: (PROTO ++ '/' :: p)) = some t ∧
      t.proto = if PROTO = [] then ['U', 'D', 'P'] else PROTO := by
  refine ⟨_, tokenize_some w _, ?_⟩
  show (if _ then _ else _) = _
  have hN := npos_add_one w
  have e : h ++ ':' :: (PROTO ++ '/' :: p) = (h ++ ':' :: PROTO) ++ '/' :: p := by simp
  have hm : '/' ∉ h ++ ':' :: PROTO := by
    simp only [List.mem_append, List.mem_cons, not_or]
    exact ⟨hh2, by decide, hP⟩
  have hdot : dot_pos w (h ++ ':' :: (PROTO ++ '/' :: p)) = h.length := by
    rw [dot_pos_of_mem w _ (by simp), takeWhile_append_cons ':' h _ hh1]
  have hslash : slash_pos w (h ++ ':' :: (PROTO ++ '/' :: p)) = h.length + 1 + PROTO.length := by
    rw [slash_pos_of_mem w _ (by simp), e, takeWhile_append_cons '/' _ _ hm]
    simp only [List.length_append, List.length_cons]
    omega
  have hl : (h ++ ':' :: (PROTO ++ '/' :: p)).length
      = h.length + 1 + PROTO.length + 1 + p.length := by
    simp; omega
  rw [hl] at hlen
  have hadd : addW w h.length 1 = h.length + 1 := addW_of_lt w _ (by omega)
  by_cases hPe : PROTO = []
  · subst hPe
    have hx : ¬ protoExtracted w (h ++ ':' :: ([] ++ '/' :: p)) = true := by
      simp only [protoExtracted, hdot, hslash, hadd, decide_eq_true_eq]
      simp
    rw [if_neg hx]
    simp
  · have hpos : 0 < PROTO.length := List.length_pos.mpr hPe
    have hx : protoExtracted w (h ++ ':' :: (PROTO ++ '/' :: p)) = true := by
      simp only [protoExtracted, hdot, hslash, hadd, decide_eq_true_eq]
      omega
    have hs1 : subW w (h.length + 1 + PROTO.length) h.length = 1 + PROTO.length := by
      rw [subW_of_le w _ _ (by omega) (by omega)]; omega
    have hs2 : subW w (1 + PROTO.length) 1 = PROTO.length := by
      rw [subW_of_le w _ _ (by omega) (by omega)]; omega
    rw [if_pos hx, if_neg hPe, hdot, hslash, hadd, hs1, hs2]
    have e2 : h ++ ':' :: (PROTO ++ '/' :: p) = (h ++ [':']) ++ (PROTO ++ '/' :: p) := by simp
    have e3 : h.length + 1 = (h ++ [':']).length := by simp
    rw [e2, e3, List.drop_left, List.take_left]

/-- On an emitter whose protocol is UDP, `SetOutputName` succeeds and leaves it UDP. -/
theorem SetOutputName_protocol_UDP (w : Nat) (self : FGOutputJsonSocket) (fname : List Char)
    (hs : self.SockProtocol = ProtocolType.ptUDP) :
    (SetOutputName w self fname).map (fun r => r.SockProtocol) = some ProtocolType.ptUDP := by
  rw [SetOutputName_of_tokenize w self fname _ (tokenize_some w fname)]
  simp only [Option.map_some', hs, ite_self]

/-- Without digits at the start of the numeral, `atoiDigits` returns its accumulator. -/
theorem atoiDigits_not_digit (acc : Nat) (c : Char) (cs : List Char) (hc : isdigit c = false) :
    atoiDigits acc (c :: cs) = acc := by
  simp [atoiDigits, hc]

/-- Without a colon `dot_pos + 1` wraps to zero, so the protocol token is extracted from the
start of the input: it is the text before the first slash. -/
theorem tokenize_proto_no_colon (w : Nat) (fname : List Char)
    (hc : ':' ∉ fname) (hhead : fname.head? ≠ some '/') (hlen : fname.length < npos w) :
    ∃ t, tokenize w fname = some t ∧ protoExtracted w fname = true ∧
      t.proto = fname.takeWhile (fun x => x != '/') := by
  have hN := npos_add_one w
  have hdot := dot_pos_of_not_mem w fname hc
  by_cases hs : '/' ∈ fname
  · have hslash := slash_pos_of_mem w fname hs
    have hlt := takeWhile_length_lt '/' fname hs
    have hpos : 0 < (fname.takeWhile (fun x => x != '/')).length := by
      cases fname with
      | nil => simp at hs
      | cons c cs =>
        have hne : ¬ c = '/' := fun e => hhead (by simp [e])
        simp [List.takeWhile_cons, hne]
    have hx : protoExtracted w fname = true := by
      simp only [protoExtracted, hdot, hslash, addW_npos, decide_eq_true_eq]
      exact hpos
    refine ⟨_, tokenize_some w fname, hx, ?_⟩
    show (if _ then _ else _) = _
    have hs1 : subW w (fname.takeWhile (fun x => x != '/')).length (npos w)
        = (fname.takeWhile (fun x => x != '/')).length + 1 := by
      rw [subW_of_lt w _ _ (by omega) (by omega)]; omega
    have hs2 : subW w ((fname.takeWhile (fun x => x != '/')).length + 1) 1
        = (fname.takeWhile (fun x => x != '/')).length := by
      rw [subW_of_le w _ _ (by omega) (by omega)]; omega
    rw [if_pos hx, hdot, hslash, addW_npos, hs1, hs2, List.drop_zero, take_takeWhile_length]
  · have hslash := slash_pos_of_not_mem w fname hs
    have hx : protoExtracted w fname = true := by
      simp only [protoExtracted, hdot, hslash, addW_npos, decide_eq_true_eq]
      omega
    refine ⟨_, tokenize_some w fname, hx, ?_⟩
    show (if _ then _ else _) = _
    have hs1 : subW w (npos w) (npos w) = 0 := by
      rw [subW_of_le w _ _ (Nat.le_refl _) (by omega)]; omega
    have hs2 : subW w 0 1 = npos w := by
      rw [subW_of_lt w _ _ (by omega) (by omega)]; omega
    rw [if_pos hx, hdot, hslash, addW_npos, hs1, hs2, List.drop_zero,
      takeWhile_of_not_mem '/' fname hs]
    exact List.take_of_length_le (Nat.le_of_lt hlen)

/-- A port token that does not start as a numeral is read as zero. -/
theorem numeralValue_of_not_numericStart (s : List Char) (h : numericStart s = false) :
    numeralValue s = 0 := by
  unfold numericStart at h
  unfold numeralValue
  cases hd : s.dropWhile isspace with
  | nil => simp [atoiDigits]
  | cons c cs =>
    rw [hd] at h
    simp only at h
    by_cases hm : c = '-'
    · subst hm
      simp only [true_or, or_true, if_true] at h
      cases cs with
      | nil => simp [atoiDigits]
      | cons d ds =>
        simp only at h
        simp [atoiDigits_not_digit 0 d ds h]
    · by_cases hpl : c = '+'
      · subst hpl
        simp only [true_or, or_true, if_true] at h
        cases cs with
        | nil => simp [atoiDigits]
        | cons d ds =>
          simp only at h
          simp [atoiDigits_not_digit 0 d ds h]
      · have hor : ¬ (c = '+' ∨ c = '-') := fun e => e.elim hpl hm
        rw [if_neg hor] at h
        split
        · rename_i heq
          exact absurd (List.cons.inj heq).1 hm
        · rename_i heq
          exact absurd (List.cons.inj heq).1 hpl
        · simp [atoiDigits_not_digit 0 c cs h]

/-- A port token that does not start as a numeral is read as zero by `atoi`. -/
theorem atoi_of_not_numericStart (s : List Char) (h : numericStart s = false) : atoi s = 0 := by
  have hv := numeralValue_of_not_numericStart s h
  rw [toInt32_strtol_of_range s (by rw [hv]; decide) (by rw [hv]; decide), hv]

/-- The three tokens of an input `h:PROTO/p`. -/
theorem tokenize_form_eq (w : Nat) (h PROTO p : List Char)
    (hh1 : ':' ∉ h) (hh2 : '/' ∉ h) (hP : '/' ∉ PROTO)
    (hlen : (h ++ ':' :: (PROTO ++ '/' :: p)).length < npos w) :
    tokenize w (h ++ ':' :: (PROTO ++ '/' :: p)) = some
      { name := h, proto := if PROTO = [] then ['U', 'D', 'P'] else PROTO, port := p } := by
  obtain ⟨t, ht, hn, hpo⟩ := tokenize_form w h PROTO p hh1 hh2 hP hlen
  obtain ⟨t2, ht2, hpr⟩ := tokenize_form_proto w h PROTO p hh1 hh2 hP hlen
  have e : t2 = t := Option.some.inj (ht2.symm.trans ht)
  subst e
  rw [ht2, ← hn, ← hpo, ← hpr]

/-! ## Lemmas on the document -/

theorem Print_Aerosurfaces_append {α : Type} (io : NumStream α) (m : Models α) (json : List Char) :
    Print_Aerosurfaces io m json = json ++ Print_Aerosurfaces io m [] := by
  simp only [Print_Aerosurfaces, List.nil_append, List.append_assoc]

theorem Print_Rates_append {α : Type} (io : NumStream α) (m : Models α) (json : List Char) :
    Print_Rates io m json = json ++ Print_Rates io m [] := by
  simp only [Print_Rates, List.nil_append, List.append_assoc]

theorem Print_Velocities_append {α : Type} (io : NumStream α) (m : Models α) (json : List Char) :
    Print_Velocities io m json = json ++ Print_Velocities io m [] := by
  simp only [Print_Velocities, List.nil_append, List.append_assoc]

theorem Print_Forces_append {α : Type} (io : NumStream α) (m : Models α) (json : List Char) :
    Print_Forces io m json = json ++ Print_Forces io m [] := by
  simp only [Print_Forces, List.nil_append, List.append_assoc]

theorem Print_Moments_append {α : Type} (io : NumStream α) (m : Models α) (json : List Char) :
    Print_Moments io m json = json ++ Print_Moments io m [] := by
  simp only [Print_Moments, List.nil_append, List.append_assoc]

theorem Print_Atmosphere_append {α : Type} (io : NumStream α) (m : Models α) (json : List Char) :
    Print_Atmosphere io m json = json ++ Print_Atmosphere io m [] := by
  simp only [Print_Atmosphere, List.nil_append, List.append_assoc]

theorem Print_MassProps_append {α : Type} (io : NumStream α) (m : Models α) (json : List Char) :
    Print_MassProps io m json = json ++ Print_MassProps io m [] := by
  simp only [Print_MassProps, List.nil_append, List.append_assoc]

theorem Print_Propagate_append {α : Type} (io : NumStream α) (m : Models α) (json : List Char) :
    Print_Propagate io m json = json ++ Print_Propagate io m [] := by
  simp only [Print_Propagate, List.nil_append, List.append_assoc]

theorem flatMap_filter_cons {β γ : Type} (p : β → Bool) (f : β → List γ) (a : β) (l : List β) :
    ((a :: l).filter p).flatMap f = (if p a = true then f a else []) ++ (l.filter p).flatMap f := by
  by_cases h : p a = true
  · simp [List.filter_cons, h]
  · simp [List.filter_cons, h]

theorem appendIf_eq {γ : Type} (c : Prop) [Decidable c] (json t : List γ) :
    (if c then json ++ t else json) = json ++ (if decide c = true then t else []) := by
  by_cases h : c
  · simp [h]
  · simp [h]

/-- The assembled text is the header, then the texts of the enabled sections in the fixed
order, then the closing braces. -/
theorem Print_json_eq {α : Type} (io : NumStream α) (m : Models α) (SubSystems : Nat) :
    Print_json io m SubSystems =
      Print_header io m [] ++
        ((sectionOrder.filter (Subsystem.enabled SubSystems)).flatMap (sectionText io m)) ++
        "\n\x7d\n\x7d".toList := by
  unfold Print_json
  simp only []
  rw [Print_Aerosurfaces_append, Print_Rates_append, Print_Velocities_append,
    Print_Forces_append, Print_Moments_append, Print_Atmosphere_append,
    Print_MassProps_append, Print_Propagate_append]
  simp only [appendIf_eq]
  simp only [sectionOrder, flatMap_filter_cons, List.filter_nil, List.flatMap_nil, List.append_nil,
    Subsystem.enabled, Subsystem.bit, sectionText, List.append_assoc]

/-- The text of a section is the separator followed by its object. -/
theorem sectionText_eq {α : Type} (io : NumStream α) (m : Models α) (s : Subsystem) :
    sectionText io m s = ",\n".toList ++ sectionObject io m s := by
  cases s
  · simp only [sectionObject, sectionText, Print_Aerosurfaces, List.nil_append, List.append_assoc]
    rfl
  · simp only [sectionObject, sectionText, Print_Rates, List.nil_append, List.append_assoc]
    rfl
  · simp only [sectionObject, sectionText, Print_Velocities, List.nil_append, List.append_assoc]
    rfl
  · simp only [sectionObject, sectionText, Print_Forces, List.nil_append, List.append_assoc]
    rfl
  · simp only [sectionObject, sectionText, Print_Moments, List.nil_append, List.append_assoc]
    rfl
  · simp only [sectionObject, sectionText, Print_Atmosphere, List.nil_append, List.append_assoc]
    rfl
  · simp only [sectionObject, sectionText, Print_MassProps, List.nil_append, List.append_assoc]
    rfl
  · simp only [sectionObject, sectionText, Print_Propagate, List.nil_append, List.append_assoc]
    rfl

theorem drop_separator (l : List Char) : List.drop 2 (",\n".toList ++ l) = l := rfl

/-- The object of a section does not start with a comma. -/
theorem sectionObject_head {α : Type} (io : NumStream α) (m : Models α) (s : Subsystem) :
    ∃ c, (sectionObject io m s).head? = some c ∧ c ≠ ',' := by
  cases s
  · simp only [sectionObject, sectionText, Print_Aerosurfaces, List.nil_append, List.append_assoc]
    rw [drop_separator, List.head?_append_of_ne_nil _ (by decide)]
    exact ⟨_, rfl, by decide⟩
  · simp only [sectionObject, sectionText, Print_Rates, List.nil_append, List.append_assoc]
    rw [drop_separator, List.head?_append_of_ne_nil _ (by decide)]
    exact ⟨_, rfl, by decide⟩
  · simp only [sectionObject, sectionText, Print_Velocities, List.nil_append, List.append_assoc]
    rw [drop_separator, List.head?_append_of_ne_nil _ (by decide)]
    exact ⟨_, rfl, by decide⟩
  · simp only [sectionObject, sectionText, Print_Forces, List.nil_append, List.append_assoc]
    rw [drop_separator, List.head?_append_of_ne_nil _ (by decide)]
    exact ⟨_, rfl, by decide⟩
  · simp only [sectionObject, sectionText, Print_Moments, List.nil_append, List.append_assoc]
    rw [drop_separator, List.head?_append_of_ne_nil _ (by decide)]
    exact ⟨_, rfl, by decide⟩
  · simp only [sectionObject, sectionText, Print_Atmosphere, List.nil_append, List.append_assoc]
    rw [drop_separator, List.head?_append_of_ne_nil _ (by decide)]
    exact ⟨_, rfl, by decide⟩
  · simp only [sectionObject, sectionText, Print_MassProps, List.nil_append, List.append_assoc]
    rw [drop_separator, List.head?_append_of_ne_nil _ (by decide)]
    exact ⟨_, rfl, by decide⟩
  · simp only [sectionObject, sectionText, Print_Propagate, List.nil_append, List.append_assoc]
    rw [drop_separator, List.head?_append_of_ne_nil _ (by decide)]
    exact ⟨_, rfl, by decide⟩

/-- The text of a section ends with a closing brace. -/
theorem sectionText_last {α : Type} (io : NumStream α) (m : Models α) (s : Subsystem) :
    (sectionText io m s).getLast? = some closeBrace := by
  cases s
  · simp only [sectionText, Print_Aerosurfaces, List.nil_append]
    rw [List.getLast?_append_of_ne_nil _ (by decide)]
    rfl
  · simp only [sectionText, Print_Rates, List.nil_append]
    rw [List.getLast?_append_of_ne_nil _ (by decide)]
    rfl
  · simp only [sectionText, Print_Velocities, List.nil_append]
    rw [List.getLast?_append_of_ne_nil _ (by decide)]
    rfl
  · simp only [sectionText, Print_Forces, List.nil_append]
    rw [List.getLast?_append_of_ne_nil _ (by decide)]
    rfl
  · simp only [sectionText, Print_Moments, List.nil_append]
    rw [List.getLast?_append_of_ne_nil _ (by decide)]
    rfl
  · simp only [sectionText, Print_Atmosphere, List.nil_append]
    rw [List.getLast?_append_of_ne_nil _ (by decide)]
    rfl
  · simp only [sectionText, Print_MassProps, List.nil_append]
    rw [List.getLast?_append_of_ne_nil _ (by decide)]
    rfl
  · simp only [sectionText, Print_Propagate, List.nil_append]
    rw [List.getLast?_append_of_ne_nil _ (by decide)]
    rfl

/-- The object of a section does not start with a comma and ends with a closing brace. -/
theorem sectionObject_ends {α : Type} (io : NumStream α) (m : Models α) (s : Subsystem) :
    (sectionObject io m s).head? ≠ some ',' ∧
      (sectionObject io m s).getLast? = some closeBrace := by
  obtain ⟨c, hc, hne⟩ := sectionObject_head io m s
  constructor
  · rw [hc]
    exact fun h => hne (Option.some.inj h)
  · have hnil : sectionObject io m s ≠ [] := by
      intro e
      rw [e] at hc
      exact absurd hc (by simp)
    rw [← sectionText_last io m s, sectionText_eq, List.getLast?_append_of_ne_nil _ hnil]

/-- Each section holds exactly one opening and one closing brace when the renderings of the
numbers hold none. -/
theorem sectionText_braces {α : Type} (io : NumStream α) (m : Models α) (s : Subsystem)
    (c : Char) (hc : c = openBrace ∨ c = closeBrace) (hput : ∀ x, List.count c (io.put x) = 0) :
    List.count c (sectionText io m s) = 1 := by
  rcases hc with hc | hc <;> subst hc <;> cases s
  · simp only [sectionText, Print_Aerosurfaces, List.nil_append, List.count_append, hput]
    rfl
  · simp only [sectionText, Print_Rates, List.nil_append, List.count_append, hput]
    rfl
  · simp only [sectionText, Print_Velocities, List.nil_append, List.count_append, hput]
    rfl
  · simp only [sectionText, Print_Forces, List.nil_append, List.count_append, hput]
    rfl
  · simp only [sectionText, Print_Moments, List.nil_append, List.count_append, hput]
    rfl
  · simp only [sectionText, Print_Atmosphere, List.nil_append, List.count_append, hput]
    rfl
  · simp only [sectionText, Print_MassProps, List.nil_append, List.count_append, hput]
    rfl
  · simp only [sectionText, Print_Propagate, List.nil_append, List.count_append, hput]
    rfl
  · simp only [sectionText, Print_Aerosurfaces, List.nil_append, List.count_append, hput]
    rfl
  · simp only [sectionText, Print_Rates, List.nil_append, List.count_append, hput]
    rfl
  · simp only [sectionText, Print_Velocities, List.nil_append, List.count_append, hput]
    rfl
  · simp only [sectionText, Print_Forces, List.nil_append, List.count_append, hput]
    rfl
  · simp only [sectionText, Print_Moments, List.nil_append, List.count_append, hput]
    rfl
  · simp only [sectionText, Print_Atmosphere, List.nil_append, List.count_append, hput]
    rfl
  · simp only [sectionText, Print_MassProps, List.nil_append, List.count_append, hput]
    rfl
  · simp only [sectionText, Print_Propagate, List.nil_append, List.count_append, hput]
    rfl

theorem count_flatMap_const {β : Type} (c : Char) (f : β → List Char) (l : List β)
    (h : ∀ b, List.count c (f b) = 1) : List.count c (l.flatMap f) = l.length := by
  induction l with
  | nil => rfl
  | cons b bs ih =>
    rw [List.flatMap_cons, List.count_append, h b, ih, List.length_cons]
    omega

/-- Masks that agree on the eight section flags enable the same sections. -/
theorem enabled_congr (S1 S2 : Nat) (h : S1 &&& sectionBits = S2 &&& sectionBits)
    (s : Subsystem) : Subsystem.enabled S1 s = Subsystem.enabled S2 s := by
  have hb : sectionBits &&& s.bit = s.bit := by cases s <;> decide
  have h1 : S1 &&& s.bit = S2 &&& s.bit := by
    rw [← hb, ← Nat.land_assoc, ← Nat.land_assoc, h]
  simp only [Subsystem.enabled, h1]

theorem sectionOrder_nodup : sectionOrder.Nodup := by decide

theorem mem_sectionOrder (s : Subsystem) : s ∈ sectionOrder := by
  cases s <;> decide

theorem sectionText_items {α : Type} (io : NumStream α) (m : Models α) (s : Subsystem) :
    sectionText io m s = (sectionItems io m s).flatMap (Item.text io) := by
  cases s <;>
    simp only [sectionText, sectionItems, Print_Aerosurfaces, Print_Rates, Print_Velocities,
      Print_Forces, Print_Moments, Print_Atmosphere, Print_MassProps, Print_Propagate,
      List.flatMap_cons, List.flatMap_nil, Item.text, List.nil_append, List.append_assoc,
      List.append_nil]

theorem lexAux_append (a b : List Char) : ∀ st : Option (List Char),
    lexAux st (a ++ b) = lexAux st a ++ lexAux (lexEnd st a) b := by
  induction a with
  | nil => intro st; cases st <;> simp [lexAux, lexEnd]
  | cons c cs ih =>
    intro st
    cases st with
    | none =>
      simp only [List.cons_append, lexAux, lexEnd]
      split_ifs <;> simp [ih]
    | some acc =>
      simp only [List.cons_append, lexAux, lexEnd]
      split_ifs <;> simp [ih]

theorem lexAux_plain (a : List Char) (h : plain a) :
    lexAux none a = [] ∧ lexEnd none a = none := by
  induction a with
  | nil => exact ⟨rfl, rfl⟩
  | cons c cs ih =>
    have hc := h c (List.mem_cons_self _ _)
    have := ih (fun x hx => h x (List.mem_cons_of_mem _ hx))
    simp only [lexAux, lexEnd, if_neg hc.1, if_neg hc.2.1, if_neg hc.2.2]
    exact this

theorem lexAux_quoted (a : List Char) (h : Char.ofNat 34 ∉ a) : ∀ acc : List Char,
    lexAux (some acc) a = [] ∧ lexEnd (some acc) a = some (a.reverse ++ acc) := by
  induction a with
  | nil => intro acc; exact ⟨rfl, rfl⟩
  | cons c cs ih =>
    intro acc
    have hc : c ≠ Char.ofNat 34 := fun e => h (e ▸ List.mem_cons_self _ _)
    have := ih (fun hx => h (List.mem_cons_of_mem _ hx)) (c :: acc)
    simp only [lexAux, lexEnd, if_neg hc, List.reverse_cons, List.append_assoc,
      List.singleton_append]
    exact this

theorem lexAux_items {α : Type} (io : NumStream α) (hput : ∀ x, plain (io.put x))
    (items : List (Item α)) (rest : List Char) (hc : items.all Item.closed = true) :
    lexAux none (items.flatMap (Item.text io) ++ rest) =
      items.flatMap Item.toks ++ lexAux none rest := by
  induction items with
  | nil => rfl
  | cons it its ih =>
    rw [List.all_cons, Bool.and_eq_true] at hc
    rw [List.flatMap_cons, List.flatMap_cons, List.append_assoc, lexAux_append,
      List.append_assoc]
    cases it with
    | lit s =>
      have : lexEnd none s = none := by
        have := hc.1
        simp only [Item.closed, Option.isNone_iff_eq_none] at this
        exact this
      simp only [Item.text, Item.toks, this, ih hc.2]
    | num x =>
      simp only [Item.text, Item.toks, (lexAux_plain _ (hput x)).1,
        (lexAux_plain _ (hput x)).2, ih hc.2]

theorem sectionItems_closed {α : Type} (io : NumStream α) (m : Models α) (s : Subsystem) :
    (sectionItems io m s).all Item.closed = true := by
  cases s <;> rfl

theorem sectionItems_toks {α : Type} (io : NumStream α) (m : Models α) (s : Subsystem) :
    (sectionItems io m s).flatMap Item.toks = sectionTokens s := by
  cases s <;> rfl

theorem lexAux_sectionText {α : Type} (io : NumStream α) (m : Models α)
    (hput : ∀ x, plain (io.put x)) (s : Subsystem) (rest : List Char) :
    lexAux none (sectionText io m s ++ rest) = sectionTokens s ++ lexAux none rest := by
  rw [sectionText_items, lexAux_items io hput _ _ (sectionItems_closed io m s),
    sectionItems_toks]

theorem lexAux_sections {α : Type} (io : NumStream α) (m : Models α)
    (hput : ∀ x, plain (io.put x)) (l : List Subsystem) (rest : List Char) :
    lexAux none (l.flatMap (sectionText io m) ++ rest) =
      l.flatMap sectionTokens ++ lexAux none rest := by
  induction l with
  | nil => rfl
  | cons s l ih =>
    rw [List.flatMap_cons, List.flatMap_cons, List.append_assoc, lexAux_sectionText io m hput,
      ih, List.append_assoc]

theorem lexAux_header {α : Type} (io : NumStream α) (m : Models α)
    (hname : Char.ofNat 34 ∉ m.Aircraft.GetName) (hput : ∀ x, plain (io.put x))
    (rest : List Char) :
    lexAux none (Print_header io m [] ++ rest) =
      [Tok.lbrace, Tok.str ("JSBSim_".toList ++ m.Aircraft.GetName), Tok.lbrace,
        Tok.str "timestamp".toList] ++ lexAux none rest := by
  have h0 : Print_header io m [] ++ rest =
      "\x7b\n \"JSBSim_".toList ++ (m.Aircraft.GetName ++
        ("\": \x7b\n\"timestamp\" : ".toList ++ (io.put m.GetSimTime ++ rest))) := by
    simp only [Print_header, List.nil_append, List.append_assoc]
    rfl
  have h1 : lexAux none "\x7b\n \"JSBSim_".toList = [Tok.lbrace] := by decide
  have h2 : lexEnd none "\x7b\n \"JSBSim_".toList = some "JSBSim_".toList.reverse := by decide
  have h3 := lexAux_quoted _ hname "JSBSim_".toList.reverse
  have h4 : ∀ acc : List Char, lexAux (some acc) "\": \x7b\n\"timestamp\" : ".toList =
      [Tok.str acc.reverse, Tok.lbrace, Tok.str "timestamp".toList] := fun acc => rfl
  have h5 : ∀ acc : List Char, lexEnd (some acc) "\": \x7b\n\"timestamp\" : ".toList =
      none := fun acc => rfl
  have h6 := lexAux_plain _ (hput m.GetSimTime)
  rw [h0, lexAux_append, h1, h2, lexAux_append, h3.1, h3.2, lexAux_append, h4, h5,
    lexAux_append, h6.1, h6.2]
  simp only [List.reverse_append, List.reverse_reverse, List.nil_append, List.cons_append,
    List.append_nil]

/-- The tokens of the document: the opening of the root and its object, the time stamp, the
tokens of the enabled sections in the fixed order, the two closing braces. -/
theorem tokens_Print_json {α : Type} (io : NumStream α) (m : Models α) (SubSystems : Nat)
    (hname : Char.ofNat 34 ∉ m.Aircraft.GetName) (hput : ∀ x, plain (io.put x)) :
    tokens (Print_json io m SubSystems) =
      [Tok.lbrace, Tok.str ("JSBSim_".toList ++ m.Aircraft.GetName), Tok.lbrace,
        Tok.str "timestamp".toList] ++
      (sectionOrder.filter (Subsystem.enabled SubSystems)).flatMap sectionTokens ++
      [Tok.rbrace, Tok.rbrace] := by
  unfold tokens
  rw [Print_json_eq, List.append_assoc, lexAux_header io m hname hput,
    lexAux_sections io m hput, List.append_assoc]
  rfl

theorem objectKeys_sectionTokens (s : Subsystem) (rest : List Tok) :
    objectKeys (sectionTokens s ++ rest) = s.key :: objectKeys rest := by
  cases s <;> rfl

theorem objectKeys_sections (l : List Subsystem) (rest : List Tok) :
    objectKeys (l.flatMap sectionTokens ++ rest) = l.map Subsystem.key ++ objectKeys rest := by
  induction l with
  | nil => rfl
  | cons s l ih =>
    rw [List.flatMap_cons, List.append_assoc, objectKeys_sectionTokens, ih]
    rfl

theorem key_injective : Function.Injective Subsystem.key := by
  intro a b h
  cases a <;> cases b <;> first | rfl | exact absurd h (by decide)

theorem names_disjoint (s t : Subsystem) (n : List Char) (hs : n ∈ s.names) (ht : n ∈ t.names) :
    s = t := by
  by_contra hne
  have : ∀ x ∈ s.names, x ∉ t.names := by
    cases s <;> cases t <;> first | exact absurd rfl hne | decide
  exact this n hs ht

theorem names_head (s : Subsystem) : ∀ n ∈ s.names,
    n.head? ≠ some 'J' ∧ n ≠ "timestamp".toList := by
  cases s <;> decide

theorem mem_sectionTokens (s : Subsystem) (n : List Char) (h : Tok.str n ∈ sectionTokens s) :
    n ∈ s.names := by
  simp only [sectionTokens, List.mem_cons, List.mem_append, List.mem_map, List.mem_singleton,
    Tok.str.injEq, false_or, or_false, reduceCtorEq, List.not_mem_nil] at h
  rcases h with h | ⟨a, ha, rfl⟩
  · rw [h]; exact List.mem_cons_self _ _
  · exact List.mem_cons_of_mem _ ha

theorem count_sectionTokens_self (s : Subsystem) :
    ∀ n ∈ s.names, (sectionTokens s).count (Tok.str n) = 1 := by
  cases s <;> decide

theorem count_sectionTokens (s t : Subsystem) (n : List Char) (hn : n ∈ s.names) :
    (sectionTokens t).count (Tok.str n) = if t = s then 1 else 0 := by
  by_cases h : t = s
  · rw [if_pos h, h]; exact count_sectionTokens_self s n hn
  · rw [if_neg h, List.count_eq_zero]
    intro hm
    exact h (names_disjoint t s n (mem_sectionTokens t n hm) hn)

theorem count_sections (s : Subsystem) (n : List Char) (hn : n ∈ s.names)
    (l : List Subsystem) (hl : l.Nodup) :
    (l.flatMap sectionTokens).count (Tok.str n) = if s ∈ l then 1 else 0 := by
  induction l with
  | nil => rfl
  | cons t l ih =>
    rw [List.nodup_cons] at hl
    rw [List.flatMap_cons, List.count_append, count_sectionTokens s t n hn, ih hl.2]
    by_cases h : t = s
    · have : s ∉ l := h ▸ hl.1
      simp [h, this]
    · have h2 : ¬ s = t := fun e => h e.symm
      simp [h, h2]

/-- Each name of a section occurs once among the tokens of the document when the section is
enabled and not at all when it is not. -/
theorem count_tokens_Print_json {α : Type} (io : NumStream α) (m : Models α) (SubSystems : Nat)
    (hname : Char.ofNat 34 ∉ m.Aircraft.GetName) (hput : ∀ x, plain (io.put x))
    (s : Subsystem) (n : List Char) (hn : n ∈ s.names) :
    (tokens (Print_json io m SubSystems)).count (Tok.str n) =
      if Subsystem.enabled SubSystems s = true then 1 else 0 := by
  have hh := names_head s n hn
  have h1 : n ≠ "JSBSim_".toList ++ m.Aircraft.GetName := by
    intro e
    apply hh.1
    rw [e]
    rfl
  rw [tokens_Print_json io m SubSystems hname hput, List.count_append, List.count_append,
    count_sections s n hn _ (sectionOrder_nodup.filter _)]
  have h3 : List.count (Tok.str n) [Tok.lbrace, Tok.str ("JSBSim_".toList ++ m.Aircraft.GetName),
      Tok.lbrace, Tok.str "timestamp".toList] = 0 := by
    rw [List.count_eq_zero]
    intro hm
    simp only [List.mem_cons, reduceCtorEq, Tok.str.injEq, false_or, List.not_mem_nil,
      or_false] at hm
    rcases hm with hm | hm
    · exact h1 hm
    · exact hh.2 hm
  have h4 : List.count (Tok.str n) [Tok.rbrace, Tok.rbrace] = 0 := by
    rw [List.count_eq_zero]
    intro hm
    simp only [List.mem_cons, reduceCtorEq, List.not_mem_nil, or_false] at hm
  rw [h3, h4]
  simp only [List.mem_filter, mem_sectionOrder, true_and, Nat.zero_add, Nat.add_zero]

theorem objectKeys_tokens_Print_json {α : Type} (io : NumStream α) (m : Models α)
    (SubSystems : Nat)
    (hname : Char.ofNat 34 ∉ m.Aircraft.GetName) (hput : ∀ x, plain (io.put x)) :
    objectKeys (tokens (Print_json io m SubSystems)) =
      ("JSBSim_".toList ++ m.Aircraft.GetName) ::
        (sectionOrder.filter (Subsystem.enabled SubSystems)).map Subsystem.key := by
  rw [tokens_Print_json io m SubSystems hname hput, List.append_assoc]
  show objectKeys (Tok.lbrace :: Tok.str ("JSBSim_".toList ++ m.Aircraft.GetName) :: Tok.lbrace ::
    Tok.str "timestamp".toList :: (_ ++ _)) = _
  have h1 : ∀ (k : List Char) (r : List Tok),
      objectKeys (Tok.lbrace :: Tok.str k :: Tok.lbrace :: r) = k :: objectKeys r :=
    fun _ _ => rfl
  have h2 : ∀ (l : List Subsystem),
      objectKeys (Tok.str "timestamp".toList :: (l.flatMap sectionTokens ++
        [Tok.rbrace, Tok.rbrace])) = l.map Subsystem.key := by
    intro l
    cases l with
    | nil => rfl
    | cons t l =>
      have : objectKeys (Tok.str "timestamp".toList :: ((t :: l).flatMap sectionTokens ++
          [Tok.rbrace, Tok.rbrace])) = objectKeys ((t :: l).flatMap sectionTokens ++
          [Tok.rbrace, Tok.rbrace]) := by
        cases t <;> rfl
      rw [this, objectKeys_sections]
      simp [objectKeys]
  rw [h1, List.nil_append, h2]

/-! ## Lemmas on the channel lifecycle -/

/-- The state that `SetOutputName` returns differs from the one it was given only in the
display name and the three socket parameters. -/
theorem SetOutputName_frame (w : Nat) (self r : FGOutputJsonSocket) (fname : List Char)
    (h : SetOutputName w self fname = some r) :
    r.socket = self.socket ∧ r.SubSystems = self.SubSystems ∧
      (self.SockProtocol = ProtocolType.ptUDP → r.SockProtocol = ProtocolType.ptUDP) := by
  rw [SetOutputName_of_tokenize w self fname _ (tokenize_some w fname)] at h
  have e := Option.some.inj h
  subst e
  refine ⟨rfl, rfl, ?_⟩
  intro hs
  simp only [hs, ite_self]

/-- `Load`, with a base class that reaches the inherited members only, keeps the channel and
keeps the protocol UDP. -/
theorem Load_frame (w : Nat) (baseOk : Bool) (baseName : List Char) (baseSubSystems : Nat)
    (self : FGOutputJsonSocket) (el : Element) (r : Bool × FGOutputJsonSocket)
    (h : Load w (fun _ s => (baseOk, { s with Name := baseName, SubSystems := baseSubSystems }))
      self el = some r) :
    r.2.socket = self.socket ∧
      (self.SockProtocol = ProtocolType.ptUDP → r.2.SockProtocol = ProtocolType.ptUDP) := by
  unfold Load at h
  cases baseOk with
  | false =>
    simp only [Bool.not_false, if_true] at h
    have e := Option.some.inj h
    subst e
    exact ⟨rfl, fun hs => hs⟩
  | true =>
    simp only [Bool.not_true, Bool.false_eq_true, if_false] at h
    cases hS : SetOutputName w { self with Name := baseName, SubSystems := baseSubSystems }
        (el.GetAttributeValue "name".toList ++ [':'] ++
          el.GetAttributeValue "protocol".toList ++ ['/'] ++
          el.GetAttributeValue "port".toList) with
    | none =>
      rw [hS] at h
      exact absurd h (by simp)
    | some r2 =>
      rw [hS] at h
      have e : (true, r2) = r := Option.some.inj h
      subst e
      obtain ⟨h1, _, h3⟩ := SetOutputName_frame w _ r2 _ hS
      exact ⟨h1, fun hs => h3 hs⟩

/-- `Print` touches nothing but the log of the channel. -/
theorem Print_frame {α : Type} (io : NumStream α) (m : Models α) (self : FGOutputJsonSocket) :
    (Print io m self).SockProtocol = self.SockProtocol ∧
      (Print io m self).socket.isSome = self.socket.isSome := by
  unfold Print
  cases hs : self.socket with
  | none => simp [hs]
  | some c =>
    simp only
    split
    · simp [hs]
    · split
      · simp [hs]
      · simp

/-- The outcome of `InitModel` when the base-class initialization succeeds. -/
theorem InitModel_base_ok (connect : List Char → Int → ProtocolType → Bool)
    (self : FGOutputJsonSocket) (heap : Heap) :
    InitModel true connect self heap =
      ((FGfdmSocket.create connect self.SockName self.SockPort self.SockProtocol).connected,
        { self with
          socket := some (FGfdmSocket.create connect self.SockName self.SockPort
            self.SockProtocol) },
        ((heap.delete self.socket).new
          (FGfdmSocket.create connect self.SockName self.SockPort self.SockProtocol)).2) := by
  unfold InitModel
  simp only [if_true, Heap.new, FGfdmSocket.GetConnectStatus, PrintHeaders]
  cases hc : (FGfdmSocket.create connect self.SockName self.SockPort self.SockProtocol).connected
  · simp
  · simp

/-- The outcome of `InitModel` when the base-class initialization fails: nothing changes. -/
theorem InitModel_base_fail (connect : List Char → Int → ProtocolType → Bool)
    (self : FGOutputJsonSocket) (heap : Heap) :
    InitModel false connect self heap = (false, self, heap) := by
  simp [InitModel]

theorem World.Inv_init (SubSystems : Nat) (port0 : Int) :
    (World.init SubSystems port0).Inv := by
  simp [World.Inv, World.init, FGOutputJsonSocket.new]

theorem step_dead {α : Type} (w : Nat) (wd : World) (op : Op α) (ha : wd.alive = false) :
    step w wd op = wd := by
  simp [step, ha]

theorem step_SetOutputName {α : Type} (w : Nat) (wd : World) (fname : List Char)
    (ha : wd.alive = true) :
    step (α := α) w wd (Op.SetOutputName fname) =
      match SetOutputName w wd.self fname with
      | some self => { wd with self := self }
      | none => wd := by
  simp [step, ha]

theorem step_Load {α : Type} (w : Nat) (wd : World) (baseOk : Bool) (baseName : List Char)
    (baseSubSystems : Nat) (el : Element) (ha : wd.alive = true) :
    step (α := α) w wd (Op.Load baseOk baseName baseSubSystems el) =
      match Load w
          (fun _ s => (baseOk, { s with Name := baseName, SubSystems := baseSubSystems }))
          wd.self el with
      | some r => { wd with self := r.2 }
      | none => wd := by
  simp [step, ha]

theorem step_InitModel {α : Type} (w : Nat) (wd : World) (baseOk : Bool)
    (connect : List Char → Int → ProtocolType → Bool) (ha : wd.alive = true) :
    step (α := α) w wd (Op.InitModel baseOk connect) =
      { wd with self := (InitModel baseOk connect wd.self wd.heap).2.1,
                heap := (InitModel baseOk connect wd.self wd.heap).2.2 } := by
  simp [step, ha]

theorem step_Print {α : Type} (w : Nat) (wd : World) (io : NumStream α) (m : Models α)
    (ha : wd.alive = true) :
    step w wd (Op.Print io m) = { wd with self := Print io m wd.self } := by
  simp [step, ha]

theorem step_Destroy {α : Type} (w : Nat) (wd : World) (ha : wd.alive = true) :
    step (α := α) w wd Op.Destroy =
      { wd with heap := destroy wd.self wd.heap, alive := false } := by
  simp [step, ha]

theorem Heap.delete_live (heap : Heap) (socket : Option FGfdmSocket)
    (h : heap.live = if socket.isSome = true then 1 else 0) :
    (heap.delete socket).live = 0 ∧ (heap.delete socket).peak = heap.peak := by
  cases socket with
  | none => exact ⟨by simpa [Heap.delete] using h, rfl⟩
  | some c =>
    have h1 : heap.live = 1 := by simpa using h
    exact ⟨by simp [Heap.delete, h1], rfl⟩

/-- Every call preserves the invariant. -/
theorem World.Inv_step {α : Type} (w : Nat) (wd : World) (op : Op α) (h : wd.Inv) :
    (step w wd op).Inv := by
  by_cases ha : wd.alive = true
  · obtain ⟨hpeak, hlive, hproto⟩ := h
    have hlive1 : wd.heap.live = if wd.self.socket.isSome = true then 1 else 0 := by
      simpa [ha] using hlive
    cases op with
    | SetOutputName fname =>
      rw [step_SetOutputName w wd fname ha]
      cases hS : SetOutputName w wd.self fname with
      | none => exact ⟨hpeak, hlive, hproto⟩
      | some r =>
        obtain ⟨h1, _, h3⟩ := SetOutputName_frame w wd.self r fname hS
        exact ⟨hpeak, by simpa [ha, h1] using hlive1, h3 hproto⟩
    | Load baseOk baseName baseSubSystems el =>
      rw [step_Load w wd baseOk baseName baseSubSystems el ha]
      cases hL : Load w
          (fun _ s => (baseOk, { s with Name := baseName, SubSystems := baseSubSystems }))
          wd.self el with
      | none => exact ⟨hpeak, hlive, hproto⟩
      | some r =>
        obtain ⟨h1, h3⟩ := Load_frame w baseOk baseName baseSubSystems wd.self el r hL
        exact ⟨hpeak, by simpa [ha, h1] using hlive1, h3 hproto⟩
    | InitModel baseOk connect =>
      rw [step_InitModel w wd baseOk connect ha]
      cases baseOk with
      | false =>
        rw [InitModel_base_fail]
        exact ⟨hpeak, hlive, hproto⟩
      | true =>
        rw [InitModel_base_ok]
        obtain ⟨hdel, hdp⟩ := Heap.delete_live wd.heap wd.self.socket hlive1
        refine ⟨?_, ?_, hproto⟩
        · simp only [Heap.new, hdel, hdp]
          omega
        · simp [Heap.new, hdel, ha]
    | Print io m =>
      rw [step_Print w wd io m ha]
      obtain ⟨h1, h2⟩ := Print_frame io m wd.self
      exact ⟨hpeak, by simpa [ha, h2] using hlive1, by rw [h1]; exact hproto⟩
    | Destroy =>
      rw [step_Destroy w wd ha]
      obtain ⟨hdel, hdp⟩ := Heap.delete_live wd.heap wd.self.socket hlive1
      exact ⟨by simp only [destroy, hdp]; exact hpeak, by simp [destroy, hdel], hproto⟩
  · rw [step_dead w wd op (by simpa using ha)]
    exact h

/-- Every sequence of calls preserves the invariant. -/
theorem World.Inv_run {α : Type} (w : Nat) (ops : List (Op α)) (wd : World) (h : wd.Inv) :
    (run w wd ops).Inv := by
  induction ops generalizing wd with
  | nil => exact h
  | cons op ops ih => exact ih (step w wd op) (World.Inv_step w wd op h)

theorem run_append {α : Type} (w : Nat) (wd : World) (ops1 ops2 : List (Op α)) :
    run w wd (ops1 ++ ops2) = run w (run w wd ops1) ops2 := by
  simp [run, List.foldl_append]

/-- After a call of `InitModel` a living emitter holds a channel if the base class succeeded
or if it held one before. -/
theorem step_InitModel_socket {α : Type} (w : Nat) (wd : World) (baseOk : Bool)
    (connect : List Char → Int → ProtocolType → Bool) (ha : wd.alive = true) :
    (step (α := α) w wd (Op.InitModel baseOk connect)).alive = true ∧
      (step (α := α) w wd (Op.InitModel baseOk connect)).self.socket.isSome =
        (baseOk || wd.self.socket.isSome) := by
  rw [step_InitModel w wd baseOk connect ha]
  cases baseOk with
  | false => rw [InitModel_base_fail]; exact ⟨ha, by simp⟩
  | true => rw [InitModel_base_ok]; exact ⟨ha, by simp⟩

/-- After the destructor the emitter is not alive. -/
theorem step_Destroy_alive {α : Type} (w : Nat) (wd : World) :
    (step (α := α) w wd Op.Destroy).alive = false := by
  by_cases ha : wd.alive = true
  · rw [step_Destroy w wd ha]
  · rw [step_dead w wd _ (by simpa using ha)]
    simpa using ha

/-- `Print` leaves an emitter unchanged whose channel is not connected. -/
theorem Print_not_connected {α : Type} (io : NumStream α) (m : Models α)
    (self : FGOutputJsonSocket) (c : FGfdmSocket) (hs : self.socket = some c)
    (hc : c.GetConnectStatus = false) : Print io m self = self := by
  unfold Print
  rw [hs]
  simp only [hc, Bool.not_false, if_true]

/-! ## Lemmas on numbers in the stream -/

theorem digitChar_spec (d : Nat) :
    isdigit (digitChar d) = true ∧ (digitChar d).toNat - 48 = d % 10 ∧
      (digitChar d = '0' ↔ d % 10 = 0) := by
  have h : d % 10 < 10 := Nat.mod_lt _ (by decide)
  unfold digitChar
  generalize d % 10 = r at h
  interval_cases r <;> decide

theorem fixedDigits_length (k m : Nat) : (fixedDigits k m).length = k := by
  induction k with
  | zero => rfl
  | succ k ih => simp [fixedDigits, ih]

theorem fixedDigits_isdigit (k m : Nat) : ∀ c ∈ fixedDigits k m, isdigit c = true := by
  induction k with
  | zero => intro c hc; simp [fixedDigits] at hc
  | succ k ih =>
    intro c hc
    simp only [fixedDigits, List.mem_cons] at hc
    rcases hc with hc | hc
    · rw [hc]; exact (digitChar_spec _).1
    · exact ih c hc

theorem decimalValue_fixedDigits (k m : Nat) : decimalValue (fixedDigits k m) = m % 10 ^ k := by
  induction k with
  | zero => simp [fixedDigits, decimalValue, Nat.mod_one]
  | succ k ih =>
    simp only [fixedDigits, decimalValue, fixedDigits_length, ih, (digitChar_spec _).2.1]
    rw [Nat.mod_pow_succ]
    ring

theorem decimalValue_append (a b : List Char) :
    decimalValue (a ++ b) = decimalValue a * 10 ^ b.length + decimalValue b := by
  induction a with
  | nil => simp [decimalValue]
  | cons c cs ih =>
    show (c.toNat - 48) * 10 ^ (cs ++ b).length + decimalValue (cs ++ b) = _
    rw [ih, List.length_append, decimalValue]
    ring

theorem decimalValue_zeros (j : Nat) : decimalValue (List.replicate j '0') = 0 := by
  induction j with
  | zero => rfl
  | succ j ih => simp [List.replicate_succ, decimalValue, ih]

theorem takeWhile_zero_eq_replicate (l : List Char) :
    l.takeWhile (fun c => c == '0') =
      List.replicate (l.takeWhile (fun c => c == '0')).length '0' := by
  induction l with
  | nil => rfl
  | cons c cs ih =>
    by_cases hc : c = '0'
    · subst hc
      simp only [List.takeWhile_cons, beq_self_eq_true, if_true, List.length_cons,
        List.replicate_succ]
      rw [← ih]
    · simp [List.takeWhile_cons, hc]

/-- Stripping removes a run of zeros at the end and nothing else. -/
theorem stripZeros_spec (ds : List Char) :
    ∃ j, ds = stripZeros ds ++ List.replicate j '0' := by
  refine ⟨(ds.reverse.takeWhile (fun c => c == '0')).length, ?_⟩
  have h := List.takeWhile_append_dropWhile (fun c => c == '0') ds.reverse
  have h2 : ds = (ds.reverse.dropWhile (fun c => c == '0')).reverse ++
      (ds.reverse.takeWhile (fun c => c == '0')).reverse := by
    rw [← List.reverse_append, h, List.reverse_reverse]
  have h3 : (ds.reverse.takeWhile (fun c => c == '0')).reverse =
      List.replicate (ds.reverse.takeWhile (fun c => c == '0')).length '0' := by
    rw [takeWhile_zero_eq_replicate ds.reverse, List.reverse_replicate, List.length_replicate]
  rw [← h3]
  exact h2

theorem stripZeros_subset (ds : List Char) : ∀ c ∈ stripZeros ds, c ∈ ds := by
  intro c hc
  obtain ⟨j, hj⟩ := stripZeros_spec ds
  rw [hj]
  exact List.mem_append_left _ hc

/-- The digits before the first other character. -/
theorem span_digits (ds rest : List Char) (hds : ∀ c ∈ ds, isdigit c = true)
    (hrest : ∀ c ∈ rest.head?, isdigit c = false) :
    (ds ++ rest).takeWhile isdigit = ds ∧ (ds ++ rest).dropWhile isdigit = rest := by
  induction ds with
  | nil =>
    cases rest with
    | nil => simp
    | cons c t =>
      have hc : isdigit c = false := hrest c (by simp)
      simp [List.takeWhile_cons, List.dropWhile_cons, hc]
  | cons d ds ih =>
    have hd : isdigit d = true := hds d (by simp)
    have ih' := ih (fun c hc => hds c (List.mem_cons_of_mem _ hc))
    simp [List.takeWhile_cons, List.dropWhile_cons, hd, ih'.1, ih'.2]

theorem scale10_eq (mant e : Int) : scale10 mant e = (mant : ℚ) * (10 : ℚ) ^ e := by
  unfold scale10
  by_cases h : 0 ≤ e
  · rw [if_pos h]
    have he : e = (e.toNat : Int) := (Int.toNat_of_nonneg h).symm
    rw [he, zpow_natCast, Int.toNat_natCast]
    push_cast
    ring
  · rw [if_neg h]
    have hn : 0 ≤ -e := by omega
    have he : e = -((-e).toNat : Int) := by rw [Int.toNat_of_nonneg hn]; ring
    rw [Rat.mkRat_eq_div]
    conv_rhs => rw [he, zpow_neg, zpow_natCast]
    push_cast
    rw [div_eq_mul_inv]

theorem expUp_spec (fuel n d : Nat) : ∀ e : Nat, d * 10 ^ e ≤ n → n < d * 10 ^ (e + fuel) →
    d * 10 ^ (expUp fuel n d e) ≤ n ∧ n < d * 10 ^ (expUp fuel n d e + 1) := by
  induction fuel with
  | zero =>
    intro e h0 hf
    simp only [Nat.add_zero] at hf
    omega
  | succ fuel ih =>
    intro e h0 hf
    unfold expUp
    by_cases h : d * 10 ^ (e + 1) ≤ n
    · rw [if_pos h]
      exact ih (e + 1) h (by rw [show e + 1 + fuel = e + (fuel + 1) by omega]; exact hf)
    · rw [if_neg h]
      exact ⟨h0, by omega⟩

theorem expDown_spec (fuel n d : Nat) : ∀ k : Nat, 1 ≤ k →
    (∀ j, j < k → ¬ d ≤ n * 10 ^ j) → d ≤ n * 10 ^ (k + fuel) →
    d ≤ n * 10 ^ (expDown fuel n d k) ∧ 1 ≤ expDown fuel n d k ∧
      ¬ d ≤ n * 10 ^ (expDown fuel n d k - 1) := by
  induction fuel with
  | zero =>
    intro k hk hlow hf
    simp only [Nat.add_zero] at hf
    exact ⟨hf, hk, hlow (k - 1) (by omega)⟩
  | succ fuel ih =>
    intro k hk hlow hf
    unfold expDown
    by_cases h : d ≤ n * 10 ^ k
    · rw [if_pos h]
      exact ⟨h, hk, hlow (k - 1) (by omega)⟩
    · rw [if_neg h]
      refine ih (k + 1) (by omega) ?_
        (by rw [show k + 1 + fuel = k + (fuel + 1) by omega]; exact hf)
      intro j hj
      by_cases hjk : j < k
      · exact hlow j hjk
      · have : j = k := by omega
        rw [this]; exact h

theorem zpow_ten_split (z : Int) :
    (10 : ℚ) ^ z = (10 : ℚ) ^ z.toNat / (10 : ℚ) ^ (-z).toNat := by
  by_cases h : 0 ≤ z
  · have h2 : (-z).toNat = 0 := Int.toNat_eq_zero.mpr (by omega)
    rw [h2, pow_zero, div_one]
    conv_lhs => rw [← Int.toNat_of_nonneg h]
    rw [zpow_natCast]
  · have hn : 0 ≤ -z := by omega
    have h2 : z.toNat = 0 := Int.toNat_eq_zero.mpr (by omega)
    rw [h2, pow_zero, one_div]
    have hz : z = -((-z).toNat : Int) := by rw [Int.toNat_of_nonneg hn]; ring
    conv_lhs => rw [hz, zpow_neg, zpow_natCast]

/-- The decimal exponent brackets the number between two powers of ten. -/
theorem decimalExponent_spec (n d : Nat) (hn : 0 < n) (hd : 0 < d) :
    (10 : ℚ) ^ (decimalExponent n d) ≤ (n : ℚ) / d ∧
      (n : ℚ) / d < (10 : ℚ) ^ (decimalExponent n d + 1) := by
  have hdq : (0 : ℚ) < d := by exact_mod_cast hd
  unfold decimalExponent
  by_cases h : d ≤ n
  · rw [if_pos h]
    have hpow : n < d * 10 ^ (0 + n) := by
      have := Nat.lt_pow_self (by decide : 1 < 10) n
      rw [Nat.zero_add]
      nlinarith
    obtain ⟨h1, h2⟩ := expUp_spec n n d 0 (by simpa using h) hpow
    constructor
    · rw [zpow_natCast, le_div_iff₀ hdq]
      have : ((d * 10 ^ expUp n n d 0 : Nat) : ℚ) ≤ (n : ℚ) := by exact_mod_cast h1
      push_cast at this
      linarith
    · have e : ((expUp n n d 0 : Nat) : Int) + 1 = ((expUp n n d 0 + 1 : Nat) : Int) := by
        push_cast; ring
      rw [e, zpow_natCast, div_lt_iff₀ hdq]
      have : (n : ℚ) < ((d * 10 ^ (expUp n n d 0 + 1) : Nat) : ℚ) := by exact_mod_cast h2
      push_cast at this
      linarith
  · rw [if_neg h]
    have hpow : d ≤ n * 10 ^ (1 + d) := by
      have := Nat.lt_pow_self (by decide : 1 < 10) (1 + d)
      nlinarith
    have hlow : ∀ j, j < 1 → ¬ d ≤ n * 10 ^ j := by
      intro j hj
      have : j = 0 := by omega
      rw [this]; simpa using h
    obtain ⟨h1, h2, h3⟩ := expDown_spec d n d 1 (le_refl 1) hlow hpow
    have hk : (0 : ℚ) < (10 : ℚ) ^ (expDown d n d 1) := by positivity
    have hk1 : (0 : ℚ) < (10 : ℚ) ^ (expDown d n d 1 - 1) := by positivity
    constructor
    · rw [zpow_neg, zpow_natCast, le_div_iff₀ hdq, inv_mul_le_iff₀ hk]
      have : ((d : Nat) : ℚ) ≤ ((n * 10 ^ expDown d n d 1 : Nat) : ℚ) := by exact_mod_cast h1
      push_cast at this
      linarith
    · have e : -((expDown d n d 1 : Nat) : Int) + 1 = -((expDown d n d 1 - 1 : Nat) : Int) := by
        omega
      rw [e, zpow_neg, zpow_natCast, div_lt_iff₀ hdq, ← div_eq_inv_mul, lt_div_iff₀ hk1]
      have : ((n * 10 ^ (expDown d n d 1 - 1) : Nat) : ℚ) < ((d : Nat) : ℚ) := by
        exact_mod_cast Nat.lt_of_not_le h3
      push_cast at this
      linarith

/-- Rounding to nearest moves the quotient by at most one half. -/
theorem roundHalfEven_spec (N D : Nat) (hD : 0 < D) :
    |((roundHalfEven N D : Nat) : ℚ) - (N : ℚ) / D| ≤ 1 / 2 := by
  have hDq : (0 : ℚ) < D := by exact_mod_cast hD
  have hr : N % D < D := Nat.mod_lt _ hD
  have hN : (N : ℚ) = (D : ℚ) * ((N / D : Nat) : ℚ) + ((N % D : Nat) : ℚ) := by
    exact_mod_cast (Nat.div_add_mod N D).symm
  have hq : (N : ℚ) / D = ((N / D : Nat) : ℚ) + ((N % D : Nat) : ℚ) / D := by
    rw [hN]; field_simp; ring
  have hx0 : (0 : ℚ) ≤ ((N % D : Nat) : ℚ) / D := by positivity
  rw [hq, abs_le]
  unfold roundHalfEven
  by_cases h1 : 2 * (N % D) < D
  · rw [if_pos h1]
    have : ((N % D : Nat) : ℚ) / D ≤ 1 / 2 := by
      rw [div_le_iff₀ hDq]
      have : ((2 * (N % D) : Nat) : ℚ) < (D : ℚ) := by exact_mod_cast h1
      push_cast at this
      linarith
    constructor <;> linarith
  · rw [if_neg h1]
    have hge : (1 : ℚ) / 2 ≤ ((N % D : Nat) : ℚ) / D := by
      rw [le_div_iff₀ hDq]
      have : ((D : Nat) : ℚ) ≤ ((2 * (N % D) : Nat) : ℚ) := by exact_mod_cast Nat.le_of_not_lt h1
      push_cast at this
      linarith
    have hlt : ((N % D : Nat) : ℚ) / D < 1 := by
      rw [div_lt_one hDq]
      exact_mod_cast hr
    by_cases h2 : D < 2 * (N % D)
    · rw [if_pos h2]
      push_cast
      constructor <;> linarith
    · rw [if_neg h2]
      have heq : ((N % D : Nat) : ℚ) / D = 1 / 2 := by
        have h3 : 2 * (N % D) = D := by omega
        rw [div_eq_iff (ne_of_gt hDq)]
        have : ((2 * (N % D) : Nat) : ℚ) = (D : ℚ) := by exact_mod_cast h3
        push_cast at this
        linarith
      by_cases h4 : (N / D) % 2 = 0
      · rw [if_pos h4]
        constructor <;> linarith
      · rw [if_neg h4]
        push_cast
        constructor <;> linarith

/-- The scaled quotient that is rounded to six digits lies between `10 ^ 5` and `10 ^ 6`. -/
theorem scaled_quotient (n d : Nat) (hn : 0 < n) (hd : 0 < d) :
    ((n * 10 ^ (5 - decimalExponent n d).toNat : Nat) : ℚ) /
        ((d * 10 ^ (decimalExponent n d - 5).toNat : Nat) : ℚ) =
      (n : ℚ) / d * (10 : ℚ) ^ (5 - decimalExponent n d) ∧
    (10 : ℚ) ^ (5 : Nat) ≤ (n : ℚ) / d * (10 : ℚ) ^ (5 - decimalExponent n d) ∧
    (n : ℚ) / d * (10 : ℚ) ^ (5 - decimalExponent n d) < (10 : ℚ) ^ (6 : Nat) := by
  obtain ⟨h1, h2⟩ := decimalExponent_spec n d hn hd
  have hdq : (0 : ℚ) < d := by exact_mod_cast hd
  have hpos : (0 : ℚ) < (10 : ℚ) ^ (5 - decimalExponent n d) := by positivity
  have hne : (10 : ℚ) ≠ 0 := by norm_num
  refine ⟨?_, ?_, ?_⟩
  · rw [zpow_ten_split (5 - decimalExponent n d)]
    have e : -(5 - decimalExponent n d) = decimalExponent n d - 5 := by ring
    rw [e]
    push_cast
    field_simp
  · have : (10 : ℚ) ^ (5 : Nat) =
        (10 : ℚ) ^ (decimalExponent n d) * (10 : ℚ) ^ (5 - decimalExponent n d) := by
      rw [← zpow_add₀ hne, ← zpow_natCast]
      congr 1
      ring
    rw [this]
    exact mul_le_mul_of_nonneg_right h1 (le_of_lt hpos)
  · have : (10 : ℚ) ^ (6 : Nat) =
        (10 : ℚ) ^ (decimalExponent n d + 1) * (10 : ℚ) ^ (5 - decimalExponent n d) := by
      rw [← zpow_add₀ hne, ← zpow_natCast]
      congr 1
      ring
    rw [this]
    exact mul_lt_mul_of_pos_right h2 hpos

/-- The value of `toDecimal6` in terms of the rounded scaled quotient. -/
theorem toDecimal6_value (v : ℚ) :
    (toDecimal6 v).value =
      (if v.num < 0 then -1 else 1) *
        ((roundHalfEven (v.num.natAbs * 10 ^ (5 - decimalExponent v.num.natAbs v.den).toNat)
          (v.den * 10 ^ (decimalExponent v.num.natAbs v.den - 5).toNat) : Nat) : ℚ) *
        (10 : ℚ) ^ (decimalExponent v.num.natAbs v.den - 5) := by
  have hne : (10 : ℚ) ≠ 0 := by norm_num
  unfold toDecimal6 Decimal6.value
  by_cases hq : roundHalfEven
      (v.num.natAbs * 10 ^ (5 - decimalExponent v.num.natAbs v.den).toNat)
      (v.den * 10 ^ (decimalExponent v.num.natAbs v.den - 5).toNat) = 10 ^ 6
  · rw [if_pos hq, hq]
    simp only [decide_eq_true_eq]
    have e : decimalExponent v.num.natAbs v.den + 1 - 5 =
        1 + (decimalExponent v.num.natAbs v.den - 5) := by ring
    rw [e, zpow_add₀ hne]
    push_cast
    ring
  · rw [if_neg hq]
    simp only [decide_eq_true_eq]

/-- Rounding to six significant digits keeps six digits and moves the number by at most half
a unit of the sixth digit, that is by at most `|v| / 200000`. -/
theorem toDecimal6_spec (v : ℚ) (hv : v ≠ 0) :
    10 ^ 5 ≤ (toDecimal6 v).m ∧ (toDecimal6 v).m < 10 ^ 6 ∧
      |(toDecimal6 v).value - v| ≤ |v| / 200000 := by
  have hn : 0 < v.num.natAbs := Int.natAbs_pos.mpr (Rat.num_ne_zero.mpr hv)
  have hd : 0 < v.den := v.den_pos
  have hdq : (0 : ℚ) < v.den := by exact_mod_cast hd
  have hne : (10 : ℚ) ≠ 0 := by norm_num
  obtain ⟨hA, hA1, hA2⟩ := scaled_quotient v.num.natAbs v.den hn hd
  obtain ⟨hE1, _⟩ := decimalExponent_spec v.num.natAbs v.den hn hd
  have hD : 0 < v.den * 10 ^ (decimalExponent v.num.natAbs v.den - 5).toNat :=
    Nat.mul_pos hd (pow_pos (by decide) _)
  have hR := roundHalfEven_spec
    (v.num.natAbs * 10 ^ (5 - decimalExponent v.num.natAbs v.den).toNat)
    (v.den * 10 ^ (decimalExponent v.num.natAbs v.den - 5).toNat) hD
  rw [hA] at hR
  have hval := toDecimal6_value v
  generalize hq : roundHalfEven
    (v.num.natAbs * 10 ^ (5 - decimalExponent v.num.natAbs v.den).toNat)
    (v.den * 10 ^ (decimalExponent v.num.natAbs v.den - 5).toNat) = q at hR hval
  obtain ⟨hR1, hR2⟩ := abs_le.mp hR
  have hq1 : 10 ^ 5 ≤ q := by
    by_contra hc
    have : q ≤ 99999 := by omega
    have : (q : ℚ) ≤ 99999 := by exact_mod_cast this
    norm_num at hA1
    linarith
  have hq2 : q ≤ 10 ^ 6 := by
    by_contra hc
    have : 1000001 ≤ q := by omega
    have : (1000001 : ℚ) ≤ (q : ℚ) := by exact_mod_cast this
    norm_num at hA2
    linarith
  refine ⟨?_, ?_, ?_⟩
  · unfold toDecimal6
    rw [hq]
    by_cases h6 : q = 10 ^ 6
    · rw [if_pos h6]
    · rw [if_neg h6]; exact hq1
  · unfold toDecimal6
    rw [hq]
    by_cases h6 : q = 10 ^ 6
    · rw [if_pos h6]
      show (10 : Nat) ^ 5 < 10 ^ 6
      norm_num
    · rw [if_neg h6]
      show q < 10 ^ 6
      omega
  · rw [hval]
    have hvq : v = (v.num : ℚ) / (v.den : ℚ) := (Rat.num_div_den v).symm
    have hP : (0 : ℚ) < (10 : ℚ) ^ (decimalExponent v.num.natAbs v.den - 5) := by positivity
    have hinv : (10 : ℚ) ^ (5 - decimalExponent v.num.natAbs v.den) *
        (10 : ℚ) ^ (decimalExponent v.num.natAbs v.den - 5) = 1 := by
      rw [← zpow_add₀ hne]
      have : 5 - decimalExponent v.num.natAbs v.den +
          (decimalExponent v.num.natAbs v.den - 5) = 0 := by ring
      rw [this, zpow_zero]
    have hE : (10 : ℚ) ^ (decimalExponent v.num.natAbs v.den) =
        (10 : ℚ) ^ (5 : Nat) * (10 : ℚ) ^ (decimalExponent v.num.natAbs v.den - 5) := by
      rw [← zpow_natCast, ← zpow_add₀ hne]
      congr 1
      ring
    generalize hP' : (10 : ℚ) ^ (decimalExponent v.num.natAbs v.den - 5) = P at hP hinv hE
    generalize hQ' : (10 : ℚ) ^ (5 - decimalExponent v.num.natAbs v.den) = Q at hR1 hR2 hinv
    generalize hE' : (10 : ℚ) ^ (decimalExponent v.num.natAbs v.den) = E at hE1 hE
    have hnd : (v.num.natAbs : ℚ) / v.den = ((v.num.natAbs : ℚ) / v.den * Q) * P := by
      rw [mul_assoc, hinv, mul_one]
    have hsign : v = (if v.num < 0 then -1 else 1) * ((v.num.natAbs : ℚ) / v.den) := by
      by_cases hneg : v.num < 0
      · rw [if_pos hneg]
        have hnum : (v.num : ℚ) = -(v.num.natAbs : ℚ) := by
          have : v.num = -(v.num.natAbs : Int) := by omega
          rw [← Int.cast_natCast, ← Int.cast_neg, ← this]
        calc v = (v.num : ℚ) / (v.den : ℚ) := hvq
          _ = -1 * ((v.num.natAbs : ℚ) / v.den) := by rw [hnum]; ring
      · rw [if_neg hneg]
        have hnum : (v.num : ℚ) = (v.num.natAbs : ℚ) := by
          have : v.num = (v.num.natAbs : Int) := by omega
          rw [← Int.cast_natCast, ← this]
        calc v = (v.num : ℚ) / (v.den : ℚ) := hvq
          _ = 1 * ((v.num.natAbs : ℚ) / v.den) := by rw [hnum]; ring
    have ha0 : (0 : ℚ) ≤ (v.num.natAbs : ℚ) / v.den := by positivity
    generalize ha : (v.num.natAbs : ℚ) / v.den = a at hR1 hR2 hE1 hsign ha0
    generalize hs : (if v.num < 0 then (-1 : ℚ) else 1) = sg at hsign
    have hsg : sg = -1 ∨ sg = 1 := by
      rw [← hs]
      by_cases hneg : v.num < 0
      · rw [if_pos hneg]; exact Or.inl rfl
      · rw [if_neg hneg]; exact Or.inr rfl
    have hnd : a = a * Q * P := by rw [mul_assoc, hinv, mul_one]
    have h1 : |(q : ℚ) - a * Q| ≤ 1 / 2 := abs_le.mpr ⟨hR1, hR2⟩
    have h2 : |(q : ℚ) - a * Q| * P ≤ 1 / 2 * P :=
      mul_le_mul_of_nonneg_right h1 (le_of_lt hP)
    have hkey : sg * (q : ℚ) * P - v = sg * (((q : ℚ) - a * Q) * P) := by
      rw [hsign]
      have := hnd
      linear_combination (-sg) * this
    have habs : |v| = a := by
      rw [hsign, abs_mul, abs_of_nonneg ha0]
      rcases hsg with h | h <;> rw [h] <;> norm_num
    have hsgabs : |sg| = 1 := by
      rcases hsg with h | h <;> rw [h] <;> norm_num
    rw [hkey, habs, abs_mul, hsgabs, one_mul, abs_mul, abs_of_pos hP]
    norm_num at hE
    rw [le_div_iff₀ (by norm_num)]
    linarith

theorem numDigits_spec (n : Nat) : n < 10 ^ numDigits n := by
  unfold numDigits
  by_cases h : n = 0
  · rw [if_pos h, h]; decide
  · rw [if_neg h]
    have hpow : n < 1 * 10 ^ (0 + n) := by
      have := Nat.lt_pow_self (by decide : 1 < 10) n
      rw [Nat.zero_add]; omega
    have := (expUp_spec n n 1 0 (by simp; omega) hpow).2
    omega

theorem takeWhile_all_digits (ds : List Char) (hds : ∀ c ∈ ds, isdigit c = true) :
    ds.takeWhile isdigit = ds := by
  have := (span_digits ds [] hds (by simp)).1
  simpa using this

/-- The exponent that the scientific layout writes is read back. -/
theorem parseExp_expDigits (X : Int) : parseExp ('e' :: expDigits X) = X := by
  have hlt : X.natAbs < 10 ^ (max 2 (numDigits X.natAbs)) :=
    lt_of_lt_of_le (numDigits_spec X.natAbs)
      (Nat.pow_le_pow_right (by decide) (le_max_right _ _))
  have hval : decimalValue ((fixedDigits (max 2 (numDigits X.natAbs)) X.natAbs).takeWhile
      isdigit) = X.natAbs := by
    rw [takeWhile_all_digits _ (fixedDigits_isdigit _ _), decimalValue_fixedDigits,
      Nat.mod_eq_of_lt hlt]
  unfold expDigits
  by_cases h : X < 0
  · rw [if_pos h]
    show -(decimalValue ((fixedDigits (max 2 (numDigits X.natAbs)) X.natAbs).takeWhile
      isdigit) : Int) = X
    rw [hval]; omega
  · rw [if_neg h]
    show (decimalValue ((fixedDigits (max 2 (numDigits X.natAbs)) X.natAbs).takeWhile
      isdigit) : Int) = X
    rw [hval]; omega

theorem parseExp_nil : parseExp [] = 0 := rfl

/-- The reading of a numeral laid out as digits, fraction and exponent part. -/
theorem parseDecimal_layout (neg : Bool) (ip fp xs : List Char)
    (hip : ∀ c ∈ ip, isdigit c = true) (hfp : ∀ c ∈ fp, isdigit c = true)
    (hxs : xs = [] ∨ ∃ t, xs = 'e' :: t) :
    parseDecimal neg (ip ++ (fracPart fp ++ xs)) =
      scale10 ((if neg then -1 else 1) * (decimalValue (ip ++ fp) : Int))
        (parseExp xs - (fp.length : Int)) := by
  have hxs' : ∀ c ∈ xs.head?, isdigit c = false := by
    rcases hxs with h | ⟨t, h⟩
    · rw [h]; simp
    · rw [h]; intro c hc; simp at hc; rw [← hc]; decide
  cases fp with
  | nil =>
    have hsp := span_digits ip xs hip hxs'
    show parseDecimal neg (ip ++ ([] ++ xs)) = _
    rw [List.nil_append]
    unfold parseDecimal
    rw [hsp.1, hsp.2]
    rcases hxs with h | ⟨t, h⟩
    · rw [h]
    · rw [h]; rfl
  | cons c cs =>
    have hsp := span_digits ip ('.' :: (c :: cs ++ xs)) hip
      (by intro d hd; simp at hd; rw [← hd]; decide)
    have hsp2 := span_digits (c :: cs) xs hfp hxs'
    show parseDecimal neg (ip ++ ('.' :: (c :: cs ++ xs))) = _
    unfold parseDecimal
    rw [hsp.1, hsp.2]
    simp only [hsp2.1, hsp2.2]

/-- A text that starts with a digit is read without sign; a minus sign before it negates. -/
theorem strtod_of_digit (c : Char) (t : List Char) (hc : isdigit c = true) :
    strtod (c :: t) = parseDecimal false (c :: t) ∧
      strtod ('-' :: c :: t) = parseDecimal true (c :: t) := by
  have hs := isspace_of_isdigit c hc
  have hminus : c ≠ '-' := by
    intro e; rw [e] at hc; exact absurd hc (by decide)
  have hplus : c ≠ '+' := by
    intro e; rw [e] at hc; exact absurd hc (by decide)
  constructor
  · unfold strtod
    have hd : (c :: t).dropWhile isspace = c :: t := by
      simp [List.dropWhile_cons, hs]
    rw [hd]
    split
    · rename_i heq
      exact absurd (List.cons.inj heq).1 hminus
    · rename_i heq
      exact absurd (List.cons.inj heq).1 hplus
    · rfl
  · unfold strtod
    have hd : ('-' :: c :: t).dropWhile isspace = '-' :: c :: t := by
      have : isspace '-' = false := by decide
      simp [List.dropWhile_cons, this]
    rw [hd]
    rfl

/-- The number read from a laid out numeral whose digits, up to `j` stripped zeros, are those
of `m`, and whose exponent makes up for the stripped zeros. -/
theorem parseDecimal_value (neg : Bool) (ip fp xs : List Char) (m j : Nat) (X : Int)
    (hip : ∀ c ∈ ip, isdigit c = true) (hfp : ∀ c ∈ fp, isdigit c = true)
    (hxs : xs = [] ∨ ∃ t, xs = 'e' :: t)
    (hm : decimalValue (ip ++ fp) * 10 ^ j = m)
    (hX : parseExp xs - (fp.length : Int) = (j : Int) + (X - 5)) :
    parseDecimal neg (ip ++ (fracPart fp ++ xs)) =
      (if neg then -1 else 1) * (m : ℚ) * (10 : ℚ) ^ (X - 5) := by
  have hne : (10 : ℚ) ≠ 0 := by norm_num
  rw [parseDecimal_layout neg ip fp xs hip hfp hxs, scale10_eq, hX, zpow_add₀ hne,
    zpow_natCast, ← hm]
  cases neg
  · simp only [Bool.false_eq_true, if_false]
    push_cast
    ring
  · simp only [if_true]
    push_cast
    ring

/-- The text laid out for six significant digits reads back as the number they stand for. -/
theorem strtod_formatG (D : Decimal6) (h2 : D.m < 10 ^ 6) :
    strtod (formatG D) = D.value := by
  have hds : ∀ c ∈ fixedDigits 6 D.m, isdigit c = true := fixedDigits_isdigit 6 D.m
  have hval : decimalValue (fixedDigits 6 D.m) = D.m := by
    rw [decimalValue_fixedDigits, Nat.mod_eq_of_lt h2]
  have hlen : (fixedDigits 6 D.m).length = 6 := fixedDigits_length 6 D.m
  have hcons : fixedDigits 6 D.m = digitChar (D.m / 10 ^ 5) :: fixedDigits 5 D.m := rfl
  have hd0 : isdigit (digitChar (D.m / 10 ^ 5)) = true := (digitChar_spec _).1
  -- the three layouts
  have hbody : ∃ (ip fp xs : List Char) (j : Nat) (c : Char) (t : List Char),
      (if D.X < -4 ∨ 6 ≤ D.X then
        (fixedDigits 6 D.m).take 1 ++ fracPart (stripZeros ((fixedDigits 6 D.m).drop 1)) ++
          'e' :: expDigits D.X
      else if 0 ≤ D.X then
        (fixedDigits 6 D.m).take (D.X.toNat + 1) ++
          fracPart (stripZeros ((fixedDigits 6 D.m).drop (D.X.toNat + 1)))
      else
        '0' :: fracPart (List.replicate ((-D.X).toNat - 1) '0' ++
          stripZeros (fixedDigits 6 D.m))) = ip ++ (fracPart fp ++ xs) ∧
      ip = c :: t ∧ isdigit c = true ∧
      (∀ c ∈ ip, isdigit c = true) ∧ (∀ c ∈ fp, isdigit c = true) ∧
      (xs = [] ∨ ∃ t, xs = 'e' :: t) ∧
      decimalValue (ip ++ fp) * 10 ^ j = D.m ∧
      parseExp xs - (fp.length : Int) = (j : Int) + (D.X - 5) := by
    by_cases hs : D.X < -4 ∨ 6 ≤ D.X
    · rw [if_pos hs]
      obtain ⟨j, hj⟩ := stripZeros_spec ((fixedDigits 6 D.m).drop 1)
      have hdrop : (fixedDigits 6 D.m).drop 1 = fixedDigits 5 D.m := by rw [hcons]; rfl
      have htake : (fixedDigits 6 D.m).take 1 = [digitChar (D.m / 10 ^ 5)] := by
        rw [hcons]; rfl
      rw [hdrop] at hj
      have hjl : 5 = (stripZeros (fixedDigits 5 D.m)).length + j := by
        have := congrArg List.length hj
        rw [List.length_append, List.length_replicate, fixedDigits_length] at this
        exact this
      refine ⟨[digitChar (D.m / 10 ^ 5)], stripZeros (fixedDigits 5 D.m), 'e' :: expDigits D.X,
        j, digitChar (D.m / 10 ^ 5), [], ?_, rfl, hd0, ?_, ?_, Or.inr ⟨_, rfl⟩, ?_, ?_⟩
      · rw [htake, hdrop, List.append_assoc]
      · intro c hc; simp at hc; rw [hc]; exact hd0
      · intro c hc
        exact fixedDigits_isdigit 5 D.m c (stripZeros_subset _ c hc)
      · have e : fixedDigits 6 D.m =
            ([digitChar (D.m / 10 ^ 5)] ++ stripZeros (fixedDigits 5 D.m)) ++
              List.replicate j '0' := by
          rw [List.append_assoc, ← hj, hcons]; rfl
        have hv2 := hval
        rw [e, decimalValue_append, decimalValue_zeros, List.length_replicate,
          Nat.add_zero] at hv2
        exact hv2
      · rw [parseExp_expDigits]
        omega
    · rw [if_neg hs]
      by_cases h0 : 0 ≤ D.X
      · rw [if_pos h0]
        obtain ⟨j, hj⟩ := stripZeros_spec ((fixedDigits 6 D.m).drop (D.X.toNat + 1))
        have hX5 : D.X.toNat + 1 ≤ 6 := by omega
        have hjl : 6 - (D.X.toNat + 1) =
            (stripZeros ((fixedDigits 6 D.m).drop (D.X.toNat + 1))).length + j := by
          have := congrArg List.length hj
          rw [List.length_append, List.length_replicate, List.length_drop, hlen] at this
          exact this
        have htake : (fixedDigits 6 D.m).take (D.X.toNat + 1) =
            digitChar (D.m / 10 ^ 5) :: (fixedDigits 5 D.m).take D.X.toNat := by
          rw [hcons]; rfl
        refine ⟨(fixedDigits 6 D.m).take (D.X.toNat + 1),
          stripZeros ((fixedDigits 6 D.m).drop (D.X.toNat + 1)), [], j,
          digitChar (D.m / 10 ^ 5), (fixedDigits 5 D.m).take D.X.toNat,
          ?_, htake, hd0, ?_, ?_, Or.inl rfl, ?_, ?_⟩
        · rw [List.append_nil]
        · intro c hc
          exact hds c (List.mem_of_mem_take hc)
        · intro c hc
          exact hds c (List.mem_of_mem_drop (stripZeros_subset _ c hc))
        · have e : fixedDigits 6 D.m =
              ((fixedDigits 6 D.m).take (D.X.toNat + 1) ++
                stripZeros ((fixedDigits 6 D.m).drop (D.X.toNat + 1))) ++
                List.replicate j '0' := by
            rw [List.append_assoc, ← hj, List.take_append_drop]
          have hv2 := hval
          rw [e, decimalValue_append, decimalValue_zeros, List.length_replicate,
            Nat.add_zero] at hv2
          exact hv2
        · rw [parseExp_nil]
          omega
      · rw [if_neg h0]
        obtain ⟨j, hj⟩ := stripZeros_spec (fixedDigits 6 D.m)
        have hjl : 6 = (stripZeros (fixedDigits 6 D.m)).length + j := by
          have := congrArg List.length hj
          rw [List.length_append, List.length_replicate, hlen] at this
          exact this
        refine ⟨['0'], List.replicate ((-D.X).toNat - 1) '0' ++ stripZeros (fixedDigits 6 D.m),
          [], j, '0', [], ?_, rfl, by decide, ?_, ?_, Or.inl rfl, ?_, ?_⟩
        · rw [List.append_nil]; rfl
        · intro c hc; simp at hc; rw [hc]; decide
        · intro c hc
          rcases List.mem_append.mp hc with hc | hc
          · rw [List.eq_of_mem_replicate hc]; decide
          · exact hds c (stripZeros_subset _ c hc)
        · have hv2 := hval
          rw [hj, decimalValue_append, decimalValue_zeros, List.length_replicate,
            Nat.add_zero] at hv2
          have h0' : decimalValue ['0'] = 0 := by decide
          rw [decimalValue_append, decimalValue_append, decimalValue_zeros, h0']
          simpa using hv2
        · rw [parseExp_nil, List.length_append, List.length_replicate]
          push_cast
          omega
  obtain ⟨ip, fp, xs, j, c, t, hb, hipc, hc, hip, hfp, hxs, hm, hX⟩ := hbody
  have hbv := parseDecimal_value D.neg ip fp xs D.m j D.X hip hfp hxs hm hX
  unfold formatG
  simp only [hb]
  unfold Decimal6.value
  rw [← hbv]
  have hshape : ip ++ (fracPart fp ++ xs) = c :: (t ++ (fracPart fp ++ xs)) := by
    rw [hipc]; rfl
  rw [hshape]
  obtain ⟨hs1, hs2⟩ := strtod_of_digit c (t ++ (fracPart fp ++ xs)) hc
  cases hn : D.neg
  · simp only [Bool.false_eq_true, if_false]
    exact hs1
  · simp only [if_true]
    exact hs2

/-- The text of a number reads back as the number rounded to six significant digits. -/
theorem strtod_putDouble (v : ℚ) :
    strtod (putDouble v) = if v = 0 then 0 else (toDecimal6 v).value := by
  unfold putDouble
  by_cases hv : v = 0
  · rw [if_pos hv, if_pos hv]
    have h := (strtod_of_digit '0' [] (by decide)).1
    rw [h]
    have h2 := parseDecimal_layout false ['0'] [] [] (by decide) (by simp) (Or.inl rfl)
    simp only [fracPart, List.append_nil] at h2
    rw [h2, scale10_eq]
    simp [decimalValue]
  · rw [if_neg hv, if_neg hv]
    exact strtod_formatG _ (toDecimal6_spec v hv).2.1

theorem mem_fracPart (fp : List Char) (c : Char) (h : c ∈ fracPart fp) : c = '.' ∨ c ∈ fp := by
  cases fp with
  | nil => simp [fracPart] at h
  | cons d ds =>
    simp only [fracPart, List.mem_cons] at h
    rcases h with h | h | h
    · exact Or.inl h
    · exact Or.inr (by simp [h])
    · exact Or.inr (by simp [h])

theorem numChar_of_isdigit (c : Char) (h : isdigit c = true) : numChar c = true := by
  simp [numChar, h]

theorem numChar_expDigits (X : Int) : ∀ c ∈ expDigits X, numChar c = true := by
  intro c hc
  unfold expDigits at hc
  rcases List.mem_cons.mp hc with h | h
  · rw [h]
    by_cases hx : X < 0
    · rw [if_pos hx]; decide
    · rw [if_neg hx]; decide
  · exact numChar_of_isdigit c (fixedDigits_isdigit _ _ c h)

/-- The text of a number holds only digits, the point, the signs and the exponent letter. -/
theorem numChar_putDouble (v : ℚ) : ∀ c ∈ putDouble v, numChar c = true := by
  intro c hc
  unfold putDouble at hc
  by_cases hv : v = 0
  · rw [if_pos hv] at hc
    simp at hc
    rw [hc]; decide
  · rw [if_neg hv] at hc
    have hds : ∀ c ∈ fixedDigits 6 (toDecimal6 v).m, numChar c = true :=
      fun c h => numChar_of_isdigit c (fixedDigits_isdigit _ _ c h)
    have hfrac : ∀ (l : List Char), (∀ c ∈ l, numChar c = true) →
        ∀ c ∈ fracPart l, numChar c = true := by
      intro l hl c h
      rcases mem_fracPart l c h with h | h
      · rw [h]; decide
      · exact hl c h
    have hbody : ∀ c ∈
        (if (toDecimal6 v).X < -4 ∨ 6 ≤ (toDecimal6 v).X then
          (fixedDigits 6 (toDecimal6 v).m).take 1 ++
            fracPart (stripZeros ((fixedDigits 6 (toDecimal6 v).m).drop 1)) ++
            'e' :: expDigits (toDecimal6 v).X
        else if 0 ≤ (toDecimal6 v).X then
          (fixedDigits 6 (toDecimal6 v).m).take ((toDecimal6 v).X.toNat + 1) ++
            fracPart (stripZeros ((fixedDigits 6 (toDecimal6 v).m).drop
              ((toDecimal6 v).X.toNat + 1)))
        else
          '0' :: fracPart (List.replicate ((-(toDecimal6 v).X).toNat - 1) '0' ++
            stripZeros (fixedDigits 6 (toDecimal6 v).m))), numChar c = true := by
      intro c hc
      split at hc
      · rcases List.mem_append.mp hc with h | h
        · rcases List.mem_append.mp h with h | h
          · exact hds c (List.mem_of_mem_take h)
          · exact hfrac _ (fun c h => hds c (List.mem_of_mem_drop (stripZeros_subset _ c h))) c h
        · rcases List.mem_cons.mp h with h | h
          · rw [h]; decide
          · exact numChar_expDigits _ c h
      · split at hc
        · rcases List.mem_append.mp hc with h | h
          · exact hds c (List.mem_of_mem_take h)
          · exact hfrac _ (fun c h => hds c (List.mem_of_mem_drop (stripZeros_subset _ c h))) c h
        · rcases List.mem_cons.mp hc with h | h
          · rw [h]; decide
          · refine hfrac _ ?_ c h
            intro c h
            rcases List.mem_append.mp h with h | h
            · rw [List.eq_of_mem_replicate h]; decide
            · exact hds c (stripZeros_subset _ c h)
    unfold formatG at hc
    simp only at hc
    split at hc
    · rcases List.mem_cons.mp hc with h | h
      · rw [h]; decide
      · exact hbody c h
    · exact hbody c hc

/-- The text of a number parses back to within `|v| / 200000` of the number. -/
theorem putDouble_roundtrip (v : ℚ) : |strtod (putDouble v) - v| ≤ |v| / 200000 := by
  rw [strtod_putDouble]
  by_cases hv : v = 0
  · rw [if_pos hv, hv]; norm_num
  · rw [if_neg hv]
    exact (toDecimal6_spec v hv).2.2

theorem plain_putDouble (v : ℚ) : plain (putDouble v) := by
  intro c hc
  have h := numChar_putDouble v c hc
  refine ⟨?_, ?_, ?_⟩ <;> (intro e; rw [e] at h; revert h; decide)

/-! ## The claims -/

/-- C1. For every configuration string `h:PROTO/p`, where `h` has neither a colon nor a slash,
`PROTO` has no slash and `p` is a non-empty string of decimal digits whose value fits a 32-bit
signed integer, `SetOutputName` succeeds and sets `SockName` to `h` and `SockPort` to the
value of the numeral `p`. -/
theorem C1_SetOutputName_host_port (w : Nat) (self : FGOutputJsonSocket) (h PROTO p : List Char)
    (hh1 : ':' ∉ h) (hh2 : '/' ∉ h) (hP : '/' ∉ PROTO)
    (hp0 : p ≠ []) (hp : ∀ c ∈ p, isdigit c = true) (hfit : decimalValue p < 2 ^ 31)
    (hlen : (h ++ ':' :: (PROTO ++ '/' :: p)).length < npos w) :
    (SetOutputName w self (h ++ ':' :: (PROTO ++ '/' :: p))).map
      (fun r => (r.SockName, r.SockPort)) = some (h, (decimalValue p : Int)) := by
  obtain ⟨t, ht, hn, hpo⟩ := tokenize_form w h PROTO p hh1 hh2 hP hlen
  rw [SetOutputName_of_tokenize w self _ t ht]
  simp only [Option.map_some', hn, hpo, atoi_of_digits p hp0 hp hfit]

/-- C1 at the input `localhost:UDP/5000` with 64-bit positions: host `localhost`, port 5000. -/
theorem C1_SetOutputName_host_port_witness :
    (SetOutputName 64 (FGOutputJsonSocket.new 0 0) "localhost:UDP/5000".toList).map
      (fun r => (r.SockName, r.SockPort)) = some ("localhost".toList, (5000 : Int)) :=
  C1_SetOutputName_host_port 64 (FGOutputJsonSocket.new 0 0)
    "localhost".toList "UDP".toList "5000".toList
    (by decide) (by decide) (by decide) (by decide) (by decide) (by decide) (by decide)

/-- C2, at one input: on a fresh emitter `localhost:TCP/5000` yields the protocol UDP although
`TCP` does not equal `UDP` in upper case, so "UDP only if the token matches" fails. -/
theorem C2_protocol_iff_counterexample :
    (SetOutputName 64 (FGOutputJsonSocket.new 0 0) "localhost:TCP/5000".toList).map
        (fun r => r.SockProtocol) = some ProtocolType.ptUDP ∧
      to_upper "TCP".toList ≠ "UDP".toList := by
  decide

/-- C2, amended. For every configuration string `h:PROTO/p` parsed by a freshly constructed
emitter, `SetOutputName` succeeds and the protocol is UDP, whatever `PROTO` is: a token that
does not match `UDP` leaves the value set by the constructor. -/
theorem C2_protocol_fresh_UDP (w SubSystems : Nat) (port0 : Int) (h PROTO p : List Char) :
    (SetOutputName w (FGOutputJsonSocket.new SubSystems port0)
        (h ++ ':' :: (PROTO ++ '/' :: p))).map (fun r => r.SockProtocol)
      = some ProtocolType.ptUDP :=
  SetOutputName_protocol_UDP w _ _ rfl

/-- C3. For every configuration string without a colon, `SetOutputName` on a freshly
constructed emitter succeeds with the whole input as host, protocol UDP, and as port the
32-bit integer that `atoi` reads from the text after the first slash, 1138 when there is no
slash. When that text is a non-empty string of digits whose value fits a 32-bit signed
integer, the port is the value of the numeral. -/
theorem C3_no_colon (w SubSystems : Nat) (port0 : Int) (fname : List Char)
    (hc : ':' ∉ fname) (hlen : fname.length < npos w) :
    (SetOutputName w (FGOutputJsonSocket.new SubSystems port0) fname).map
        (fun r => (r.SockName, r.SockProtocol, r.SockPort)) =
      some (fname, ProtocolType.ptUDP,
        if '/' ∈ fname then atoi (fname.dropWhile (fun x => x != '/')).tail else 1138) ∧
    ('/' ∈ fname → (fname.dropWhile (fun x => x != '/')).tail ≠ [] →
      (∀ c ∈ (fname.dropWhile (fun x => x != '/')).tail, isdigit c = true) →
      decimalValue (fname.dropWhile (fun x => x != '/')).tail < 2 ^ 31 →
      (SetOutputName w (FGOutputJsonSocket.new SubSystems port0) fname).map
          (fun r => r.SockPort) =
        some (decimalValue (fname.dropWhile (fun x => x != '/')).tail : Int)) := by
  rw [SetOutputName_of_tokenize w _ fname _ (tokenize_some w fname)]
  simp only [Option.map_some', FGOutputJsonSocket.new, ite_self, name_token_eq w fname hlen,
    port_token_eq w fname hlen, takeWhile_of_not_mem ':' fname hc]
  constructor
  · by_cases hs : '/' ∈ fname
    · simp only [if_pos hs]
    · simp only [if_neg hs]
      have e : atoi ['1', '1', '3', '8'] = 1138 := by decide
      rw [e]
  · intro hs h0 hd hfit
    simp only [if_pos hs, atoi_of_digits _ h0 hd hfit]

/-- C3 at `localhost/5000` (port 5000), at `localhost` (port 1138) and at
`localhost/99999999999` and `localhost/2147483648`, whose port texts do not fit (ports
1215752191 and -2147483648), 64-bit positions. -/
theorem C3_no_colon_witness :
    (SetOutputName 64 (FGOutputJsonSocket.new 0 0) "localhost/5000".toList).map
        (fun r => (r.SockName, r.SockProtocol, r.SockPort)) =
      some ("localhost/5000".toList, ProtocolType.ptUDP, (5000 : Int)) ∧
    (SetOutputName 64 (FGOutputJsonSocket.new 0 0) "localhost".toList).map
        (fun r => (r.SockName, r.SockProtocol, r.SockPort)) =
      some ("localhost".toList, ProtocolType.ptUDP, (1138 : Int)) ∧
    (SetOutputName 64 (FGOutputJsonSocket.new 0 0) "localhost/99999999999".toList).map
        (fun r => (r.SockName, r.SockProtocol, r.SockPort)) =
      some ("localhost/99999999999".toList, ProtocolType.ptUDP, (1215752191 : Int)) ∧
    (SetOutputName 64 (FGOutputJsonSocket.new 0 0) "localhost/2147483648".toList).map
        (fun r => (r.SockName, r.SockProtocol, r.SockPort)) =
      some ("localhost/2147483648".toList, ProtocolType.ptUDP, (-2147483648 : Int)) ∧
    (SetOutputName 64 (FGOutputJsonSocket.new 0 0) "localhost/5000".toList).map
        (fun r => r.SockPort) = some (5000 : Int) :=
  ⟨(C3_no_colon 64 0 0 "localhost/5000".toList (by decide) (by decide)).1,
   (C3_no_colon 64 0 0 "localhost".toList (by decide) (by decide)).1,
   (C3_no_colon 64 0 0 "localhost/99999999999".toList (by decide) (by decide)).1,
   (C3_no_colon 64 0 0 "localhost/2147483648".toList (by decide) (by decide)).1,
   (C3_no_colon 64 0 0 "localhost/5000".toList (by decide) (by decide)).2
     (by decide) (by decide) (by decide) (by decide)⟩

/-- C4, what the code does. For every word size and every input without a colon that does not
start with a slash, the wrapped test `dot_pos + 1 < slash_pos` holds and the protocol token is
extracted: it is the text before the first slash, not the default `UDP`. -/
theorem C4_proto_token_no_colon (w : Nat) (fname : List Char)
    (hc : ':' ∉ fname) (hhead : fname.head? ≠ some '/') (hlen : fname.length < npos w) :
    protoExtracted w fname = true ∧
      (tokenize w fname).map (fun t => t.proto) = some (fname.takeWhile (fun x => x != '/')) := by
  obtain ⟨t, ht, hx, hp⟩ := tokenize_proto_no_colon w fname hc hhead hlen
  exact ⟨hx, by rw [ht, Option.map_some', hp]⟩

/-- C4 at `localhost` and `localhost/5000`, 64-bit positions: the protocol token is
`localhost` for both, and it ends the display name. -/
theorem C4_proto_token_no_colon_witness :
    (tokenize 64 "localhost".toList).map (fun t => t.proto) = some "localhost".toList ∧
    (tokenize 64 "localhost/5000".toList).map (fun t => t.proto) = some "localhost".toList ∧
    (SetOutputName 64 (FGOutputJsonSocket.new 0 0) "localhost".toList).map (fun r => r.Name)
      = some "localhost:1138/localhost".toList :=
  ⟨(C4_proto_token_no_colon 64 "localhost".toList (by decide) (by decide) (by decide)).2,
   (C4_proto_token_no_colon 64 "localhost/5000".toList (by decide) (by decide) (by decide)).2,
   by decide⟩

/-- C5. `SetOutputName` never fails: whatever the input and the word size, the three
substring extractions start at a position that is at most the length of the input (position
zero for the host, `dot_pos + 1` for the protocol, and `slash_pos + 1` for the port whenever
the port is extracted), and a resulting state, with host, port and display name, exists. -/
theorem C5_SetOutputName_total (w : Nat) (self : FGOutputJsonSocket) (fname : List Char) :
    0 ≤ fname.length ∧
    addW w (dot_pos w fname) 1 ≤ fname.length ∧
    (portExtracted w fname = false ∨ addW w (slash_pos w fname) 1 ≤ fname.length) ∧
    (tokenize w fname).isSome = true ∧
    (SetOutputName w self fname).isSome = true := by
  refine ⟨Nat.zero_le _, proto_start_le w fname, ?_, ?_, ?_⟩
  · by_cases hx : portExtracted w fname = true
    · exact Or.inr (port_start_le w fname hx)
    · exact Or.inl (by simpa using hx)
  · rw [tokenize_some]; rfl
  · rw [SetOutputName_of_tokenize w self fname _ (tokenize_some w fname)]; rfl

/-- C6, what the code does. `Load` always joins the three attributes with `:` and `/`, so the
port token is extracted even when the port attribute is empty: for every host name without
colon or slash and every protocol attribute without slash, an unspecified port gives port 0
(not 1138), and an unspecified protocol gives UDP. -/
theorem C6_Load_unspecified (w : Nat)
    (baseLoad : Element → FGOutputJsonSocket → Bool × FGOutputJsonSocket)
    (self : FGOutputJsonSocket) (el : Element)
    (hok : (baseLoad el self).1 = true)
    (hn1 : ':' ∉ el.GetAttributeValue "name".toList)
    (hn2 : '/' ∉ el.GetAttributeValue "name".toList)
    (hP : '/' ∉ el.GetAttributeValue "protocol".toList)
    (hlen : (el.GetAttributeValue "name".toList ++ ':' ::
      (el.GetAttributeValue "protocol".toList ++ '/' ::
        el.GetAttributeValue "port".toList)).length < npos w) :
    (el.GetAttributeValue "port".toList = [] →
      (Load w baseLoad self el).map (fun r => (r.1, r.2.SockPort)) = some (true, 0)) ∧
    (el.GetAttributeValue "protocol".toList = [] →
      (Load w baseLoad self el).map (fun r => (r.1, r.2.SockProtocol))
        = some (true, ProtocolType.ptUDP)) := by
  have hf : el.GetAttributeValue "name".toList ++ [':'] ++
      el.GetAttributeValue "protocol".toList ++ ['/'] ++ el.GetAttributeValue "port".toList
      = el.GetAttributeValue "name".toList ++ ':' ::
        (el.GetAttributeValue "protocol".toList ++ '/' :: el.GetAttributeValue "port".toList) := by
    simp
  have hL : Load w baseLoad self el =
      (SetOutputName w (baseLoad el self).2
        (el.GetAttributeValue "name".toList ++ ':' ::
          (el.GetAttributeValue "protocol".toList ++ '/' ::
            el.GetAttributeValue "port".toList))).bind (fun r => some (true, r)) := by
    unfold Load
    simp only [hok, Bool.not_true, Bool.false_eq_true, if_false, hf]
    rfl
  rw [hL, SetOutputName_of_tokenize w _ _ _ (tokenize_form_eq w _ _ _ hn1 hn2 hP hlen)]
  constructor
  · intro hport
    simp only [Option.some_bind, Option.map_some', hport]
    rfl
  · intro hproto
    simp only [Option.some_bind, Option.map_some', hproto, if_true]
    rfl

/-- C6 at an element that gives only `name="localhost"`, 64-bit positions: port 0, UDP. -/
theorem C6_Load_unspecified_witness :
    (Load 64 (fun _ s => (true, s)) (FGOutputJsonSocket.new 0 0)
        { attributes := [("name".toList, "localhost".toList)] }).map
      (fun r => (r.1, r.2.SockPort)) = some (true, 0) ∧
    (Load 64 (fun _ s => (true, s)) (FGOutputJsonSocket.new 0 0)
        { attributes := [("name".toList, "localhost".toList)] }).map
      (fun r => (r.1, r.2.SockProtocol)) = some (true, ProtocolType.ptUDP) :=
  ⟨(C6_Load_unspecified 64 (fun _ s => (true, s)) (FGOutputJsonSocket.new 0 0)
      { attributes := [("name".toList, "localhost".toList)] }
      rfl (by decide) (by decide) (by decide) (by decide)).1 (by decide),
   (C6_Load_unspecified 64 (fun _ s => (true, s)) (FGOutputJsonSocket.new 0 0)
      { attributes := [("name".toList, "localhost".toList)] }
      rfl (by decide) (by decide) (by decide) (by decide)).2 (by decide)⟩

/-- C7. For every configuration string with a slash, if the text after the first slash does
not start, after optional white space and an optional sign, with a decimal digit, then
`SetOutputName` succeeds and sets the port to 0. -/
theorem C7_non_numeric_port (w : Nat) (self : FGOutputJsonSocket) (fname : List Char)
    (hs : '/' ∈ fname) (hlen : fname.length < npos w)
    (hnum : numericStart (fname.dropWhile (fun x => x != '/')).tail = false) :
    (SetOutputName w self fname).map (fun r => r.SockPort) = some 0 := by
  rw [SetOutputName_of_tokenize w self fname _ (tokenize_some w fname)]
  simp only [Option.map_some', port_token_eq w fname hlen, if_pos hs,
    atoi_of_not_numericStart _ hnum]

/-- C7 at an empty port token and at the port token `abc`, 64-bit positions. -/
theorem C7_non_numeric_port_witness :
    (SetOutputName 64 (FGOutputJsonSocket.new 0 7) "localhost:UDP/".toList).map
        (fun r => r.SockPort) = some 0 ∧
    (SetOutputName 64 (FGOutputJsonSocket.new 0 7) "localhost:UDP/abc".toList).map
        (fun r => r.SockPort) = some 0 :=
  ⟨C7_non_numeric_port 64 (FGOutputJsonSocket.new 0 7) "localhost:UDP/".toList
      (by decide) (by decide) (by decide),
   C7_non_numeric_port 64 (FGOutputJsonSocket.new 0 7) "localhost:UDP/abc".toList
      (by decide) (by decide) (by decide)⟩

/-- C8. For every configuration string the display name is the parsed host, a colon, the port
token, a slash and the protocol token, in this order; the host is the text before the first
colon, the port token is the text after the first slash or `1138` when no port is extracted,
and the protocol token is `UDP` when no protocol is extracted. -/
theorem C8_display_name (w : Nat) (self : FGOutputJsonSocket) (fname : List Char)
    (hlen : fname.length < npos w) :
    ∃ t, tokenize w fname = some t ∧
      (SetOutputName w self fname).map (fun r => (r.Name, r.SockName)) =
        some (t.name ++ [':'] ++ t.port ++ ['/'] ++ t.proto, t.name) ∧
      t.name = fname.takeWhile (fun x => x != ':') ∧
      t.port = (if '/' ∈ fname then (fname.dropWhile (fun x => x != '/')).tail
        else ['1', '1', '3', '8']) ∧
      (portExtracted w fname = false → t.port = ['1', '1', '3', '8']) ∧
      (protoExtracted w fname = false → t.proto = ['U', 'D', 'P']) := by
  refine ⟨_, tokenize_some w fname, ?_, name_token_eq w fname hlen,
    port_token_eq w fname hlen, ?_, ?_⟩
  · rw [SetOutputName_of_tokenize w self fname _ (tokenize_some w fname)]
    rfl
  · intro hx
    show (if _ then _ else _) = _
    rw [hx]; rfl
  · intro hx
    show (if _ then _ else _) = _
    rw [hx]; rfl

/-- C8 at `localhost:UDP/5000`, 64-bit positions: the display name is `localhost:5000/UDP`. -/
theorem C8_display_name_witness :
    (SetOutputName 64 (FGOutputJsonSocket.new 0 0) "localhost:UDP/5000".toList).map
      (fun r => (r.Name, r.SockName)) =
        some ("localhost:5000/UDP".toList, "localhost".toList) := by
  obtain ⟨t, ht, hr, _, _, _, _⟩ :=
    C8_display_name 64 (FGOutputJsonSocket.new 0 0) "localhost:UDP/5000".toList (by decide)
  have e : t = { name := "localhost".toList, proto := "UDP".toList, port := "5000".toList } :=
    Option.some.inj (ht.symm.trans (by decide))
  rw [hr, e]
  rfl

/-- C9. For every emitter state, mask and readings: when a channel is held, it reports
connected and the simulation is not in trim state, `Print` makes exactly one transmission (of
the assembled document) and changes nothing else; when there is no channel, or the channel is
not connected, or the trim state is active, `Print` makes no transmission and leaves the
emitter as it was. -/
theorem C9_Print_guards {α : Type} (io : NumStream α) (m : Models α)
    (self : FGOutputJsonSocket) :
    (∀ s, self.socket = some s → s.GetConnectStatus = true → m.FCS.GetTrimStatus = false →
      Print io m self =
          { self with
            socket := some { s with sent := s.sent ++ [Print_json io m self.SubSystems] } } ∧
        transmissions (Print io m self) = transmissions self + 1) ∧
    ((self.socket = none ∨ (∃ s, self.socket = some s ∧ s.GetConnectStatus = false) ∨
        m.FCS.GetTrimStatus = true) →
      Print io m self = self ∧ transmissions (Print io m self) = transmissions self) := by
  constructor
  · intro s hs hc ht
    have hP : Print io m self =
        { self with
          socket := some { s with sent := s.sent ++ [Print_json io m self.SubSystems] } } := by
      unfold Print
      rw [hs]
      simp only [hc, ht, Bool.not_true, Bool.false_eq_true, if_false]
      rfl
    refine ⟨hP, ?_⟩
    rw [hP]
    simp [transmissions, hs]
  · intro h
    have hP : Print io m self = self := by
      unfold Print
      rcases h with h | ⟨s, hs, hc⟩ | h
      · rw [h]
      · rw [hs]
        simp only [hc, Bool.not_false, if_true]
      · cases hs : self.socket with
        | none => rfl
        | some s =>
          simp only [h, if_true, ite_self]
    exact ⟨hP, by rw [hP]⟩

/-- C9 on examples: a connected channel out of trim gets one transmission; no channel, a
channel that is not connected, and the trim state each leave the emitter unchanged. -/
theorem C9_Print_guards_witness :
    transmissions (Print NumStream.decimal (Models.const "c172".toList false 3)
      { FGOutputJsonSocket.new ssRates 5000 with
        socket := some ⟨"localhost".toList, 5000, ProtocolType.ptUDP, true, []⟩ }) = 0 + 1 ∧
    Print NumStream.decimal (Models.const "c172".toList false 3)
      (FGOutputJsonSocket.new ssRates 5000) = FGOutputJsonSocket.new ssRates 5000 ∧
    Print NumStream.decimal (Models.const "c172".toList false 3)
      { FGOutputJsonSocket.new ssRates 5000 with
        socket := some ⟨"localhost".toList, 5000, ProtocolType.ptUDP, false, []⟩ } =
      { FGOutputJsonSocket.new ssRates 5000 with
        socket := some ⟨"localhost".toList, 5000, ProtocolType.ptUDP, false, []⟩ } ∧
    Print NumStream.decimal (Models.const "c172".toList true 3)
      { FGOutputJsonSocket.new ssRates 5000 with
        socket := some ⟨"localhost".toList, 5000, ProtocolType.ptUDP, true, []⟩ } =
      { FGOutputJsonSocket.new ssRates 5000 with
        socket := some ⟨"localhost".toList, 5000, ProtocolType.ptUDP, true, []⟩ } :=
  ⟨((C9_Print_guards NumStream.decimal (Models.const "c172".toList false 3) _).1
      ⟨"localhost".toList, 5000, ProtocolType.ptUDP, true, []⟩ rfl rfl rfl).2,
   ((C9_Print_guards NumStream.decimal (Models.const "c172".toList false 3) _).2
      (Or.inl rfl)).1,
   ((C9_Print_guards NumStream.decimal (Models.const "c172".toList false 3) _).2
      (Or.inr (Or.inl ⟨⟨"localhost".toList, 5000, ProtocolType.ptUDP, false, []⟩, rfl, rfl⟩))).1,
   ((C9_Print_guards NumStream.decimal (Models.const "c172".toList true 3) _).2
      (Or.inr (Or.inr rfl))).1⟩

/-- C10. For every mask, the document that `Print` sends when the guards pass is the header,
then the sections of exactly those subsystems of the fixed order whose bit is set, each once
and in that order, then the closing braces. Read as JSON text, with an aircraft name that
holds no double quote and numbers written without quote or brace, the document consists of
the tokens of the root, of the time stamp and of the enabled sections in the fixed order, each
section being its key, an opening brace, its field names and a closing brace; the keys of
its objects are the root key and then the keys of the enabled sections; and every name of a
section, key or field, occurs once when the bit of the section is set and not at all when it
is not. For the mask of Rates and Forces the sections are those two, with keys `Rates` and
`Forces` and their fields, in this order. -/
theorem C10_sections_in_order {α : Type} (io : NumStream α) (m : Models α) (SubSystems : Nat) :
    (∀ (self : FGOutputJsonSocket) (s : FGfdmSocket), self.SubSystems = SubSystems →
      self.socket = some s → s.GetConnectStatus = true → m.FCS.GetTrimStatus = false →
      (Print io m self).socket.map (fun c => c.sent) = some (s.sent ++
        [Print_header io m [] ++
          ((sectionOrder.filter (Subsystem.enabled SubSystems)).flatMap (sectionText io m)) ++
          "\n\x7d\n\x7d".toList])) ∧
    Print_json io m SubSystems =
      Print_header io m [] ++
        ((sectionOrder.filter (Subsystem.enabled SubSystems)).flatMap (sectionText io m)) ++
        "\n\x7d\n\x7d".toList ∧
    (sectionOrder.filter (Subsystem.enabled SubSystems)).Sublist sectionOrder ∧
    (sectionOrder.filter (Subsystem.enabled SubSystems)).Nodup ∧
    (∀ s, s ∈ sectionOrder.filter (Subsystem.enabled SubSystems) ↔
      SubSystems &&& s.bit ≠ 0) ∧
    sectionOrder.filter (Subsystem.enabled (ssRates ||| ssForces))
      = [Subsystem.Rates, Subsystem.Forces] ∧
    (sectionOrder.filter (Subsystem.enabled (ssRates ||| ssForces))).map
        (fun s => sectionKey (sectionText io m s)) = ["Rates".toList, "Forces".toList] ∧
    Print_json io m (ssRates ||| ssForces) =
      Print_header io m [] ++ (sectionText io m Subsystem.Rates ++
        sectionText io m Subsystem.Forces) ++ "\n\x7d\n\x7d".toList ∧
    (Char.ofNat 34 ∉ m.Aircraft.GetName → (∀ x, plain (io.put x)) →
      tokens (Print_json io m SubSystems) =
        [Tok.lbrace, Tok.str ("JSBSim_".toList ++ m.Aircraft.GetName), Tok.lbrace,
          Tok.str "timestamp".toList] ++
        (sectionOrder.filter (Subsystem.enabled SubSystems)).flatMap sectionTokens ++
        [Tok.rbrace, Tok.rbrace] ∧
      objectKeys (tokens (Print_json io m SubSystems)) =
        ("JSBSim_".toList ++ m.Aircraft.GetName) ::
          (sectionOrder.filter (Subsystem.enabled SubSystems)).map Subsystem.key ∧
      (∀ (s : Subsystem) (n : List Char), n ∈ s.names →
        (tokens (Print_json io m SubSystems)).count (Tok.str n) =
          if SubSystems &&& s.bit ≠ 0 then 1 else 0) ∧
      tokens (Print_json io m (ssRates ||| ssForces)) =
        [Tok.lbrace, Tok.str ("JSBSim_".toList ++ m.Aircraft.GetName), Tok.lbrace,
          Tok.str "timestamp".toList,
          Tok.str "Rates".toList, Tok.lbrace, Tok.str "P".toList, Tok.str "Q".toList,
          Tok.str "R".toList, Tok.str "PDot".toList, Tok.str "QDot".toList,
          Tok.str "RDot".toList, Tok.rbrace,
          Tok.str "Forces".toList, Tok.lbrace, Tok.str "F_Drag".toList,
          Tok.str "F_Side".toList, Tok.str "F_Lift".toList, Tok.str "LoD".toList,
          Tok.str "Fx".toList, Tok.str "Fy".toList, Tok.str "Fz".toList, Tok.rbrace,
          Tok.rbrace, Tok.rbrace]) := by
  have hRF : sectionOrder.filter (Subsystem.enabled (ssRates ||| ssForces))
      = [Subsystem.Rates, Subsystem.Forces] := by decide
  refine ⟨?_, Print_json_eq io m SubSystems, List.filter_sublist _,
    sectionOrder_nodup.filter _, ?_, hRF, ?_, ?_, ?_⟩
  · intro self s hS hs hc ht
    unfold Print
    rw [hs]
    simp only [hc, ht, Bool.not_true, Bool.false_eq_true, if_false, Option.map_some',
      FGfdmSocket.Send, hS, Print_json_eq]
  · intro s
    simp only [List.mem_filter, mem_sectionOrder, true_and, Subsystem.enabled,
      decide_eq_true_eq]
  · rw [hRF]
    simp [sectionKey, sectionText, Print_Rates, Print_Forces]
  · rw [Print_json_eq, hRF]
    simp
  · intro hname hput
    refine ⟨tokens_Print_json io m SubSystems hname hput,
      objectKeys_tokens_Print_json io m SubSystems hname hput, ?_, ?_⟩
    · intro s n hn
      rw [count_tokens_Print_json io m SubSystems hname hput s n hn]
      simp only [Subsystem.enabled, decide_eq_true_eq]
    · rw [tokens_Print_json io m _ hname hput, hRF]
      rfl

/-- C10 on an example: the document for the mask of Rates and Forces, aircraft `c172`, every
reading equal to 1.5 and numbers written as the stream writes a `double`: its text, its
tokens, the keys of its objects, and the number of times the keys `Rates`, `Forces` and
`Velocities` and the field `QBar` of Velocities occur. -/
theorem C10_sections_in_order_witness :
    Print_json NumStream.double (Models.const "c172".toList false (mkRat 3 2))
        (ssRates ||| ssForces) =
      ("\x7b\n \"JSBSim_c172\": \x7b\n\"timestamp\" : 1.5" ++
       ",\n\"Rates\": \x7b \"P\": 85.9437, \"Q\": 85.9437, \"R\": 85.9437, " ++
       "\"PDot\": 85.9437, \"QDot\": 85.9437, \"RDot\": 85.9437 \x7d" ++
       ",\n\"Forces\": \x7b \"F_Drag\": 1.5, \"F_Side\": 1.5, \"F_Lift\": 1.5, \"LoD\": 1.5, " ++
       "\"Fx\": 1.5, \"Fy\": 1.5, \"Fz\": 1.5 \x7d" ++
       "\n\x7d\n\x7d").toList ∧
    tokens (Print_json NumStream.double (Models.const "c172".toList false (mkRat 3 2))
        (ssRates ||| ssForces)) =
      [Tok.lbrace, Tok.str "JSBSim_c172".toList, Tok.lbrace, Tok.str "timestamp".toList,
        Tok.str "Rates".toList, Tok.lbrace, Tok.str "P".toList, Tok.str "Q".toList,
        Tok.str "R".toList, Tok.str "PDot".toList, Tok.str "QDot".toList,
        Tok.str "RDot".toList, Tok.rbrace,
        Tok.str "Forces".toList, Tok.lbrace, Tok.str "F_Drag".toList,
        Tok.str "F_Side".toList, Tok.str "F_Lift".toList, Tok.str "LoD".toList,
        Tok.str "Fx".toList, Tok.str "Fy".toList, Tok.str "Fz".toList, Tok.rbrace,
        Tok.rbrace, Tok.rbrace] ∧
    objectKeys (tokens (Print_json NumStream.double
        (Models.const "c172".toList false (mkRat 3 2)) (ssRates ||| ssForces))) =
      ["JSBSim_c172".toList, "Rates".toList, "Forces".toList] ∧
    (tokens (Print_json NumStream.double (Models.const "c172".toList false (mkRat 3 2))
        (ssRates ||| ssForces))).count (Tok.str "Rates".toList) = 1 ∧
    (tokens (Print_json NumStream.double (Models.const "c172".toList false (mkRat 3 2))
        (ssRates ||| ssForces))).count (Tok.str "Forces".toList) = 1 ∧
    (tokens (Print_json NumStream.double (Models.const "c172".toList false (mkRat 3 2))
        (ssRates ||| ssForces))).count (Tok.str "Velocities".toList) = 0 ∧
    (tokens (Print_json NumStream.double (Models.const "c172".toList false (mkRat 3 2))
        (ssRates ||| ssForces))).count (Tok.str "QBar".toList) = 0 :=
  ⟨((C10_sections_in_order NumStream.double (Models.const "c172".toList false (mkRat 3 2))
      (ssRates ||| ssForces)).2.1).trans (by set_option maxRecDepth 100000 in decide),
   ((C10_sections_in_order NumStream.double (Models.const "c172".toList false (mkRat 3 2))
      (ssRates ||| ssForces)).2.2.2.2.2.2.2.2 (by decide) plain_putDouble).1.trans
      (by decide),
   ((C10_sections_in_order NumStream.double (Models.const "c172".toList false (mkRat 3 2))
      (ssRates ||| ssForces)).2.2.2.2.2.2.2.2 (by decide) plain_putDouble).2.1.trans
      (by decide),
   ((C10_sections_in_order NumStream.double (Models.const "c172".toList false (mkRat 3 2))
      (ssRates ||| ssForces)).2.2.2.2.2.2.2.2 (by decide) plain_putDouble).2.2.1
      Subsystem.Rates "Rates".toList (by decide),
   ((C10_sections_in_order NumStream.double (Models.const "c172".toList false (mkRat 3 2))
      (ssRates ||| ssForces)).2.2.2.2.2.2.2.2 (by decide) plain_putDouble).2.2.1
      Subsystem.Forces "Forces".toList (by decide),
   ((C10_sections_in_order NumStream.double (Models.const "c172".toList false (mkRat 3 2))
      (ssRates ||| ssForces)).2.2.2.2.2.2.2.2 (by decide) plain_putDouble).2.2.1
      Subsystem.Velocities "Velocities".toList (by decide),
   ((C10_sections_in_order NumStream.double (Models.const "c172".toList false (mkRat 3 2))
      (ssRates ||| ssForces)).2.2.2.2.2.2.2.2 (by decide) plain_putDouble).2.2.1
      Subsystem.Velocities "QBar".toList (by decide)⟩

/-- C11, at one section: the section gated by the Aerosurfaces bit is keyed `ControlSurfaces`,
which is not the name `Aerosurfaces` of its subsystem. -/
theorem C11_section_key_counterexample :
    sectionKey (sectionText NumStream.decimal (Models.const "c172".toList false 3)
      Subsystem.Aerosurfaces) = "ControlSurfaces".toList ∧
    sectionKey (sectionText NumStream.decimal (Models.const "c172".toList false 3)
      Subsystem.Aerosurfaces) ≠ Subsystem.specName Subsystem.Aerosurfaces := by
  decide

/-- C11, amended. For every stream and all readings, the section of each subsystem other than
Aerosurfaces is keyed by the name of the subsystem (`Rates`, `Velocities`, `Forces`,
`Moments`, `Atmosphere`, `MassProperties`, `Propagate`), and the section gated by the
Aerosurfaces bit is keyed `ControlSurfaces`. -/
theorem C11_section_keys {α : Type} (io : NumStream α) (m : Models α) (s : Subsystem) :
    sectionKey (sectionText io m s) =
      if s = Subsystem.Aerosurfaces then "ControlSurfaces".toList else s.specName := by
  cases s
  · set_option maxRecDepth 8000 in
    simp [sectionKey, sectionText, Print_Aerosurfaces]
  · set_option maxRecDepth 8000 in
    simp [sectionKey, sectionText, Print_Rates, Subsystem.specName]
  · set_option maxRecDepth 8000 in
    simp [sectionKey, sectionText, Print_Velocities, Subsystem.specName]
  · set_option maxRecDepth 8000 in
    simp [sectionKey, sectionText, Print_Forces, Subsystem.specName]
  · set_option maxRecDepth 8000 in
    simp [sectionKey, sectionText, Print_Moments, Subsystem.specName]
  · set_option maxRecDepth 8000 in
    simp [sectionKey, sectionText, Print_Atmosphere, Subsystem.specName]
  · set_option maxRecDepth 8000 in
    simp [sectionKey, sectionText, Print_MassProps, Subsystem.specName]
  · set_option maxRecDepth 8000 in
    simp [sectionKey, sectionText, Print_Propagate, Subsystem.specName]

/-- C12. For every mask, the document that `Print` sends when the guards pass starts with the
opening brace of the root object, its key `JSBSim_` followed by the aircraft name, the opening
brace of the nested object and, as first member, `timestamp` with the text of the current
simulation time; the sections follow and the two closing braces end it. With the empty mask
the text is exactly header, time stamp and closing braces. -/
theorem C12_root_and_timestamp {α : Type} (io : NumStream α) (m : Models α)
    (SubSystems : Nat) :
    (∀ (self : FGOutputJsonSocket) (s : FGfdmSocket), self.SubSystems = SubSystems →
      self.socket = some s → s.GetConnectStatus = true → m.FCS.GetTrimStatus = false →
      (Print io m self).socket.map (fun c => c.sent) =
        some (s.sent ++ [Print_json io m SubSystems])) ∧
    Print_json io m SubSystems =
      "\x7b\n \"JSBSim_".toList ++ m.Aircraft.GetName ++ "\": \x7b\n".toList ++
        "\"timestamp\" : ".toList ++ io.put m.GetSimTime ++
        (sectionOrder.filter (Subsystem.enabled SubSystems)).flatMap (sectionText io m) ++
        "\n\x7d\n\x7d".toList ∧
    Print_json io m 0 =
      "\x7b\n \"JSBSim_".toList ++ m.Aircraft.GetName ++ "\": \x7b\n".toList ++
        "\"timestamp\" : ".toList ++ io.put m.GetSimTime ++ "\n\x7d\n\x7d".toList := by
  refine ⟨?_, ?_, ?_⟩
  · intro self s hS hs hc ht
    unfold Print
    rw [hs]
    simp only [hc, ht, Bool.not_true, Bool.false_eq_true, if_false, Option.map_some',
      FGfdmSocket.Send, hS]
  · rw [Print_json_eq]
    simp only [Print_header, List.nil_append, List.append_assoc]
  · have h0 : sectionOrder.filter (Subsystem.enabled 0) = [] := by decide
    rw [Print_json_eq, h0]
    simp only [Print_header, List.nil_append, List.append_assoc, List.flatMap_nil]

/-- C12 on an example: the document for the empty mask, aircraft `c172`, time 3. -/
theorem C12_root_and_timestamp_witness :
    Print_json NumStream.decimal (Models.const "c172".toList false 3) 0 =
      "\x7b\n \"JSBSim_c172\": \x7b\n\"timestamp\" : 3\n\x7d\n\x7d".toList := by
  rw [(C12_root_and_timestamp NumStream.decimal (Models.const "c172".toList false 3) 0).2.2]
  rfl

/-- C13. `InitModel` creates the new channel with exactly the host, port and protocol of the
current descriptor (the channel held afterwards is that new channel when the base-class
initialization succeeds and the one held before otherwise); given that the base-class
initialization succeeds it returns true if and only if the new channel reports connected; and
whenever it returns true the emitter holds a channel that is connected. -/
theorem C13_InitModel_result (baseOk : Bool)
    (connect : List Char → Int → ProtocolType → Bool)
    (self : FGOutputJsonSocket) (heap : Heap) :
    (InitModel baseOk connect self heap).2.1.socket =
      (if baseOk = true then
        some (FGfdmSocket.create connect self.SockName self.SockPort self.SockProtocol)
      else self.socket) ∧
    (FGfdmSocket.create connect self.SockName self.SockPort self.SockProtocol).host
      = self.SockName ∧
    (FGfdmSocket.create connect self.SockName self.SockPort self.SockProtocol).port
      = self.SockPort ∧
    (FGfdmSocket.create connect self.SockName self.SockPort self.SockProtocol).proto
      = self.SockProtocol ∧
    (baseOk = true →
      ((InitModel baseOk connect self heap).1 = true ↔
        (FGfdmSocket.create connect self.SockName self.SockPort
          self.SockProtocol).GetConnectStatus = true)) ∧
    ((InitModel baseOk connect self heap).1 = true →
      ∃ c, (InitModel baseOk connect self heap).2.1.socket = some c ∧
        c.GetConnectStatus = true) := by
  cases baseOk with
  | false =>
    rw [InitModel_base_fail]
    refine ⟨by simp, rfl, rfl, rfl, ?_, ?_⟩
    · intro h; exact absurd h Bool.false_ne_true
    · intro h; exact absurd h Bool.false_ne_true
  | true =>
    rw [InitModel_base_ok]
    refine ⟨by simp, rfl, rfl, rfl, ?_, ?_⟩
    · intro _; exact Iff.rfl
    · intro h; exact ⟨_, rfl, h⟩

/-- C13 on examples: a destination that is reached gives true and a connected channel with
the host, port and protocol of the descriptor; one that is not reached gives false. -/
theorem C13_InitModel_result_witness :
    (InitModel true (fun _ _ _ => true)
      { FGOutputJsonSocket.new 0 0 with SockName := "localhost".toList, SockPort := 5000 }
      { live := 0, peak := 0 }).1 = true ∧
    (InitModel true (fun _ _ _ => true)
      { FGOutputJsonSocket.new 0 0 with SockName := "localhost".toList, SockPort := 5000 }
      { live := 0, peak := 0 }).2.1.socket =
        some ⟨"localhost".toList, 5000, ProtocolType.ptUDP, true, []⟩ ∧
    (InitModel true (fun _ _ _ => false)
      { FGOutputJsonSocket.new 0 0 with SockName := "localhost".toList, SockPort := 5000 }
      { live := 0, peak := 0 }).1 = false :=
  ⟨((C13_InitModel_result true (fun _ _ _ => true)
      { FGOutputJsonSocket.new 0 0 with SockName := "localhost".toList, SockPort := 5000 }
      { live := 0, peak := 0 }).2.2.2.2.1 rfl).2 rfl,
   (C13_InitModel_result true (fun _ _ _ => true)
      { FGOutputJsonSocket.new 0 0 with SockName := "localhost".toList, SockPort := 5000 }
      { live := 0, peak := 0 }).1,
   by decide⟩

/-- C14, at one input: on a fresh emitter two calls of `InitModel` whose base-class
initialization fails create no channel, so none is live afterwards, not exactly one. -/
theorem C14_two_InitModel_counterexample :
    (run (α := Nat) 64 (World.init 0 0)
      [Op.InitModel false (fun _ _ _ => true), Op.InitModel false (fun _ _ _ => true)]).heap.live
        = 0 ∧
    (run (α := Nat) 64 (World.init 0 0)
      [Op.InitModel false (fun _ _ _ => true), Op.InitModel false (fun _ _ _ => true)]).heap.live
        ≠ 1 := by
  decide

/-- C14, amended. In every state reached from construction by any sequence of calls
(`InitModel`, `Print`, destruction, and also `SetOutputName` and `Load`) at most one channel is
live, never more than one has been live at a time, and the live channels are exactly the one
held by a living emitter. After two further calls of `InitModel` in succession on a living
emitter exactly one channel is live provided the base-class initialization succeeded in one of
them or a channel was held before. After destruction none is live, also when no channel was
ever created. -/
theorem C14_channel_resources {α : Type} (w SubSystems : Nat) (port0 : Int)
    (ops : List (Op α)) :
    (run w (World.init SubSystems port0) ops).heap.live ≤ 1 ∧
    (run w (World.init SubSystems port0) ops).heap.peak ≤ 1 ∧
    (run w (World.init SubSystems port0) ops).heap.live =
      (if (run w (World.init SubSystems port0) ops).alive = true ∧
          (run w (World.init SubSystems port0) ops).self.socket.isSome = true
        then 1 else 0) ∧
    (∀ (b1 b2 : Bool) (c1 c2 : List Char → Int → ProtocolType → Bool),
      (run w (World.init SubSystems port0) ops).alive = true →
      (b1 = true ∨ b2 = true ∨
        (run w (World.init SubSystems port0) ops).self.socket.isSome = true) →
      (run w (World.init SubSystems port0)
        (ops ++ [Op.InitModel b1 c1, Op.InitModel b2 c2])).heap.live = 1) ∧
    (run w (World.init SubSystems port0) (ops ++ [Op.Destroy])).heap.live = 0 ∧
    (run (α := α) w (World.init SubSystems port0) [Op.Destroy]).heap.live = 0 := by
  have hinv := World.Inv_run w ops _ (World.Inv_init SubSystems port0)
  have hdestroy : ∀ wd : World, wd.Inv → (step (α := α) w wd Op.Destroy).heap.live = 0 := by
    intro wd hwd
    have h2 := (World.Inv_step (α := α) w wd Op.Destroy hwd).2.1
    rw [step_Destroy_alive] at h2
    simpa using h2
  refine ⟨?_, hinv.1, hinv.2.1, ?_, ?_, ?_⟩
  · rw [hinv.2.1]
    split <;> omega
  · intro b1 b2 c1 c2 ha hsome
    rw [run_append]
    show (step (α := α) w
      (step (α := α) w (run w (World.init SubSystems port0) ops) (Op.InitModel b1 c1))
      (Op.InitModel b2 c2)).heap.live = 1
    obtain ⟨ha1, hs1⟩ :=
      step_InitModel_socket (α := α) w (run w (World.init SubSystems port0) ops) b1 c1 ha
    obtain ⟨ha2, hs2⟩ := step_InitModel_socket (α := α) w _ b2 c2 ha1
    have hinv2 := World.Inv_step (α := α) w _ (Op.InitModel b2 c2)
      (World.Inv_step (α := α) w _ (Op.InitModel b1 c1) hinv)
    rw [hinv2.2.1, ha2, hs2, hs1]
    have hb : (b2 || (b1 || (run w (World.init SubSystems port0) ops).self.socket.isSome))
        = true := by
      rcases hsome with h | h | h <;> simp [h]
    simp [hb]
  · rw [run_append]
    exact hdestroy _ hinv
  · exact hdestroy _ (World.Inv_init SubSystems port0)

/-- C14 on an example: two calls of `InitModel` that both create a channel, then one `Print`,
leave one live channel and never had two; destruction then leaves none. -/
theorem C14_channel_resources_witness :
    (run (α := Nat) 64 (World.init ssRates 0)
      ([Op.InitModel true (fun _ _ _ => true)] ++
        [Op.InitModel true (fun _ _ _ => true),
         Op.InitModel true (fun _ _ _ => false)])).heap.live = 1 ∧
    (run 64 (World.init ssRates 0)
      [Op.InitModel true (fun _ _ _ => true), Op.InitModel true (fun _ _ _ => true),
       Op.Print NumStream.decimal (Models.const "c172".toList false 3)]).heap.peak ≤ 1 ∧
    (run 64 (World.init ssRates 0)
      ([Op.InitModel true (fun _ _ _ => true), Op.InitModel true (fun _ _ _ => true),
        Op.Print NumStream.decimal (Models.const "c172".toList false 3)] ++
        [Op.Destroy])).heap.live = 0 :=
  ⟨(C14_channel_resources (α := Nat) 64 ssRates 0
      [Op.InitModel true (fun _ _ _ => true)]).2.2.2.1 true true _ _ rfl (Or.inl rfl),
   (C14_channel_resources 64 ssRates 0
      [Op.InitModel true (fun _ _ _ => true), Op.InitModel true (fun _ _ _ => true),
       Op.Print NumStream.decimal (Models.const "c172".toList false 3)]).2.1,
   (C14_channel_resources 64 ssRates 0
      [Op.InitModel true (fun _ _ _ => true), Op.InitModel true (fun _ _ _ => true),
       Op.Print NumStream.decimal (Models.const "c172".toList false 3)]).2.2.2.2.1⟩

/-- C15, at one input: an emitter that holds a connected channel keeps it when `InitModel`
fails in the base-class initialization, and the next `Print` transmits on it. -/
theorem C15_failed_InitModel_counterexample :
    (InitModel false (fun _ _ _ => true)
      { FGOutputJsonSocket.new ssRates 5000 with
        socket := some ⟨"localhost".toList, 5000, ProtocolType.ptUDP, true, []⟩ }
      { live := 1, peak := 1 }).1 = false ∧
    transmissions (Print NumStream.decimal (Models.const "c172".toList false 3)
      (InitModel false (fun _ _ _ => true)
        { FGOutputJsonSocket.new ssRates 5000 with
          socket := some ⟨"localhost".toList, 5000, ProtocolType.ptUDP, true, []⟩ }
        { live := 1, peak := 1 }).2.1) = 1 := by
  decide

/-- C15, amended. Whenever `InitModel` returns failure after the base-class initialization has
succeeded, the emitter holds a channel that is not connected, and every `Print` made then, and
every sequence of them, transmits nothing and leaves the emitter as it is. When `InitModel`
fails because the base-class initialization fails, the emitter and its channel are left as
they were. -/
theorem C15_failed_InitModel {α : Type} (baseOk : Bool)
    (connect : List Char → Int → ProtocolType → Bool)
    (self : FGOutputJsonSocket) (heap : Heap)
    (hfail : (InitModel baseOk connect self heap).1 = false) :
    (baseOk = true →
      (∃ c, (InitModel baseOk connect self heap).2.1.socket = some c ∧
        c.GetConnectStatus = false) ∧
      (∀ (io : NumStream α) (m : Models α),
        Print io m (InitModel baseOk connect self heap).2.1 =
          (InitModel baseOk connect self heap).2.1) ∧
      (∀ prints : List (NumStream α × Models α),
        prints.foldl (fun s p => Print p.1 p.2 s) (InitModel baseOk connect self heap).2.1 =
          (InitModel baseOk connect self heap).2.1)) ∧
    (baseOk = false →
      (InitModel baseOk connect self heap).2.1 = self ∧
      (InitModel baseOk connect self heap).2.2 = heap) := by
  cases baseOk with
  | false =>
    rw [InitModel_base_fail]
    exact ⟨fun h => absurd h Bool.false_ne_true, fun _ => ⟨rfl, rfl⟩⟩
  | true =>
    rw [InitModel_base_ok] at hfail ⊢
    have hc : (FGfdmSocket.create connect self.SockName self.SockPort
        self.SockProtocol).GetConnectStatus = false := hfail
    have hP : ∀ (io : NumStream α) (m : Models α),
        Print io m { self with socket := some (FGfdmSocket.create connect self.SockName
          self.SockPort self.SockProtocol) } =
        { self with socket := some (FGfdmSocket.create connect self.SockName
          self.SockPort self.SockProtocol) } :=
      fun io m => Print_not_connected io m _ _ rfl hc
    refine ⟨fun _ => ⟨⟨_, rfl, hc⟩, hP, ?_⟩, fun h => absurd h.symm Bool.false_ne_true⟩
    intro prints
    induction prints with
    | nil => rfl
    | cons p ps ih =>
      simp only [List.foldl_cons]
      rw [hP p.1 p.2]
      exact ih

/-- C15 on an example: an emitter with a connected channel re-initialized towards a
destination that is not reached returns failure, and the next `Print` transmits nothing. -/
theorem C15_failed_InitModel_witness :
    transmissions (Print NumStream.decimal (Models.const "c172".toList false 3)
      (InitModel true (fun _ _ _ => false)
        { FGOutputJsonSocket.new ssRates 5000 with
          socket := some ⟨"localhost".toList, 5000, ProtocolType.ptUDP, true, []⟩ }
        { live := 1, peak := 1 }).2.1) = 0 := by
  rw [((C15_failed_InitModel (α := Nat) true (fun _ _ _ => false)
        { FGOutputJsonSocket.new ssRates 5000 with
          socket := some ⟨"localhost".toList, 5000, ProtocolType.ptUDP, true, []⟩ }
        { live := 1, peak := 1 } (by decide)).1 rfl).2.1]
  decide

/-- C16, at one input: the `double` 1234567.875 is written with six significant digits, as
`1.23457e+06`, which denotes 1234570; the difference from the value is above the error of a
floating-point representation, in double precision (relative error `2 ^ -52`) and in single
precision (`2 ^ -24`) alike. The document with this time stamp shows the text. -/
theorem C16_roundtrip_counterexample :
    NumStream.double.put (mkRat 9876543 8) = "1.23457e+06".toList ∧
    strtod (NumStream.double.put (mkRat 9876543 8)) = 1234570 ∧
    ¬ (|strtod (NumStream.double.put (mkRat 9876543 8)) - mkRat 9876543 8|
        ≤ |mkRat 9876543 8| / 2 ^ 52) ∧
    ¬ (|strtod (NumStream.double.put (mkRat 9876543 8)) - mkRat 9876543 8|
        ≤ |mkRat 9876543 8| / 2 ^ 24) ∧
    Print_json NumStream.double (Models.const "c172".toList false (mkRat 9876543 8)) 0 =
      "\x7b\n \"JSBSim_c172\": \x7b\n\"timestamp\" : 1.23457e+06\n\x7d\n\x7d".toList := by
  have h1 : NumStream.double.put (mkRat 9876543 8) = "1.23457e+06".toList := by decide
  have h2 : strtod "1.23457e+06".toList = 1234570 := by
    have : strtod "1.23457e+06".toList = mkRat 1234570 1 := by decide
    rw [this, Rat.mkRat_eq_div]; norm_num
  refine ⟨h1, by rw [h1, h2], ?_, ?_, ?_⟩
  · rw [h1, h2, Rat.mkRat_eq_div]
    norm_num [abs_of_pos]
  · rw [h1, h2, Rat.mkRat_eq_div]
    norm_num [abs_of_pos]
  · have h0 : Print_json NumStream.double (Models.const "c172".toList false (mkRat 9876543 8)) 0 =
        "\x7b\n \"JSBSim_c172\": \x7b\n\"timestamp\" : ".toList ++
          NumStream.double.put (mkRat 9876543 8) ++ "\n\x7d\n\x7d".toList := by
      rfl
    rw [h0, h1]; rfl

/-- C16, amended. Every number of the document is written by `json << x` at the default
precision of the stream, so it round-trips through its text up to six significant digits and
no further: for every finite value `v`, the number that the text of `v` denotes differs from
`v` by at most `|v| / 200000`, half a unit of the sixth significant digit. The text holds
only digits, the point, the signs and the exponent letter, so it uses a decimal point and no
thousands separator. This holds of each number that a section of `Print` writes. -/
theorem C16_roundtrip_six_digits (v : ℚ) :
    NumStream.double.put v = putDouble v ∧
    |strtod (NumStream.double.put v) - v| ≤ |v| / 200000 ∧
    (∀ c ∈ NumStream.double.put v, numChar c = true) ∧
    ',' ∉ NumStream.double.put v ∧
    ' ' ∉ NumStream.double.put v ∧
    (∀ (m : Models ℚ) (s : Subsystem) (x : ℚ), Item.num x ∈ sectionItems NumStream.double m s →
      |strtod (Item.text NumStream.double (Item.num x)) - x| ≤ |x| / 200000 ∧
      ∀ c ∈ Item.text NumStream.double (Item.num x), numChar c = true) ∧
    (∀ m : Models ℚ, Print_header NumStream.double m [] =
      "\x7b\n \"JSBSim_".toList ++ m.Aircraft.GetName ++
        "\": \x7b\n\"timestamp\" : ".toList ++ putDouble m.GetSimTime) := by
  refine ⟨rfl, putDouble_roundtrip v, numChar_putDouble v, ?_, ?_, ?_, ?_⟩
  · intro h
    have := numChar_putDouble v _ h
    revert this
    decide
  · intro h
    have := numChar_putDouble v _ h
    revert this
    decide
  · intro m s x _
    exact ⟨putDouble_roundtrip x, numChar_putDouble x⟩
  · intro m
    simp only [Print_header, List.nil_append, List.append_assoc]
    rfl

/-- C16, amended, on an example: 1234567.875 is written `1.23457e+06`, within the bound of
six significant digits. -/
theorem C16_roundtrip_six_digits_witness :
    NumStream.double.put (mkRat 9876543 8) = "1.23457e+06".toList ∧
    |strtod (NumStream.double.put (mkRat 9876543 8)) - mkRat 9876543 8|
      ≤ |mkRat 9876543 8| / 200000 ∧
    NumStream.double.put (mkRat 1 3) = "0.333333".toList ∧
    |strtod (NumStream.double.put (mkRat 1 3)) - mkRat 1 3| ≤ |mkRat 1 3| / 200000 :=
  ⟨by decide, (C16_roundtrip_six_digits (mkRat 9876543 8)).2.1, by decide,
    (C16_roundtrip_six_digits (mkRat 1 3)).2.1⟩

/-- C17. `SetOutputName` never selects a transport other than UDP: the protocol it leaves is
UDP when the protocol token equals `UDP` in upper case and the previous value otherwise; and
in every state reached from construction by any sequence of `SetOutputName`, `Load`,
`InitModel` and `Print` calls (and destruction) with any inputs the protocol is UDP. -/
theorem C17_protocol_always_UDP {α : Type} (w : Nat) :
    (∀ (self : FGOutputJsonSocket) (fname : List Char),
      (SetOutputName w self fname).map (fun r => r.SockProtocol) =
        (tokenize w fname).map (fun t =>
          if to_upper t.proto = ['U', 'D', 'P'] then ProtocolType.ptUDP
          else self.SockProtocol)) ∧
    (∀ (SubSystems : Nat) (port0 : Int) (ops : List (Op α)),
      (run w (World.init SubSystems port0) ops).self.SockProtocol = ProtocolType.ptUDP) := by
  constructor
  · intro self fname
    rw [SetOutputName_of_tokenize w self fname _ (tokenize_some w fname), tokenize_some]
    rfl
  · intro SubSystems port0 ops
    exact (World.Inv_run w ops _ (World.Inv_init SubSystems port0)).2.2

/-- C18. For every mask the text that `Print` builds is the header, then for each enabled
section in the fixed order the separator `,` with a line break followed by the object of the
section, then the two closing braces. The object of a section does not start with a comma and
ends with a closing brace, so each section is preceded by exactly one comma and none stands
before the closing braces. If the aircraft name and the renderings of the numbers hold no
braces, the text holds as many opening braces as closing ones: two plus the number of
enabled sections. -/
theorem C18_well_formed {α : Type} (io : NumStream α) (m : Models α) (SubSystems : Nat) :
    Print_json io m SubSystems =
      Print_header io m [] ++
        ((sectionOrder.filter (Subsystem.enabled SubSystems)).flatMap
          (fun s => ",\n".toList ++ sectionObject io m s)) ++
        "\n\x7d\n\x7d".toList ∧
    (∀ s, (sectionObject io m s).head? ≠ some ',' ∧
      (sectionObject io m s).getLast? = some closeBrace) ∧
    (openBrace ∉ m.Aircraft.GetName → closeBrace ∉ m.Aircraft.GetName →
      (∀ x, openBrace ∉ io.put x ∧ closeBrace ∉ io.put x) →
      List.count openBrace (Print_json io m SubSystems) =
        2 + (sectionOrder.filter (Subsystem.enabled SubSystems)).length ∧
      List.count closeBrace (Print_json io m SubSystems) =
        2 + (sectionOrder.filter (Subsystem.enabled SubSystems)).length) := by
  refine ⟨?_, sectionObject_ends io m, ?_⟩
  · rw [Print_json_eq]
    have e : (fun s => ",\n".toList ++ sectionObject io m s) = sectionText io m :=
      funext (fun s => (sectionText_eq io m s).symm)
    rw [e]
  · intro hn1 hn2 hput
    have ho : ∀ x, List.count openBrace (io.put x) = 0 :=
      fun x => List.count_eq_zero.mpr (hput x).1
    have hc : ∀ x, List.count closeBrace (io.put x) = 0 :=
      fun x => List.count_eq_zero.mpr (hput x).2
    have hno : List.count openBrace m.Aircraft.GetName = 0 := List.count_eq_zero.mpr hn1
    have hnc : List.count closeBrace m.Aircraft.GetName = 0 := List.count_eq_zero.mpr hn2
    rw [Print_json_eq]
    constructor
    · rw [List.count_append, List.count_append,
        count_flatMap_const openBrace _ _
          (fun s => sectionText_braces io m s openBrace (Or.inl rfl) ho)]
      simp only [Print_header, List.nil_append, List.count_append, ho, hno]
      have e1 : List.count openBrace "\x7b\n \"JSBSim_".toList = 1 := by decide
      have e2 : List.count openBrace "\": \x7b\n".toList = 1 := by decide
      have e3 : List.count openBrace "\"timestamp\" : ".toList = 0 := by decide
      have e4 : List.count openBrace "\n\x7d\n\x7d".toList = 0 := by decide
      rw [e1, e2, e3, e4]
      omega
    · rw [List.count_append, List.count_append,
        count_flatMap_const closeBrace _ _
          (fun s => sectionText_braces io m s closeBrace (Or.inr rfl) hc)]
      simp only [Print_header, List.nil_append, List.count_append, hc, hnc]
      have e1 : List.count closeBrace "\x7b\n \"JSBSim_".toList = 0 := by decide
      have e2 : List.count closeBrace "\": \x7b\n".toList = 0 := by decide
      have e3 : List.count closeBrace "\"timestamp\" : ".toList = 0 := by decide
      have e4 : List.count closeBrace "\n\x7d\n\x7d".toList = 2 := by decide
      rw [e1, e2, e3, e4]
      omega

/-- C18 on an example: with the mask of Rates and Forces, an aircraft name without braces and
numbers written as the digit zero, the text holds four opening and four closing braces. -/
theorem C18_well_formed_witness :
    List.count openBrace
      (Print_json { put := fun _ => ['0'], radtodeg := 0, mul := fun a _ => a }
        (Models.const "c172".toList false (0 : Nat)) (ssRates ||| ssForces)) = 2 + 2 ∧
    List.count closeBrace
      (Print_json { put := fun _ => ['0'], radtodeg := 0, mul := fun a _ => a }
        (Models.const "c172".toList false (0 : Nat)) (ssRates ||| ssForces)) = 2 + 2 :=
  (C18_well_formed { put := fun _ => ['0'], radtodeg := 0, mul := fun a _ => a }
    (Models.const "c172".toList false (0 : Nat)) (ssRates ||| ssForces)).2.2
    (by decide) (by decide)
    (fun _ => (by decide : openBrace ∉ ['0'] ∧ closeBrace ∉ ['0']))

/-- C19. The document depends on the mask only through the eight flags that `Print` tests:
for two masks that agree on these flags and the same readings the assembled text is the same,
and so is what `Print` leaves on the channel. -/
theorem C19_mask_dependence {α : Type} (io : NumStream α) (m : Models α) (S1 S2 : Nat)
    (h : S1 &&& sectionBits = S2 &&& sectionBits) :
    Print_json io m S1 = Print_json io m S2 ∧
    (∀ self : FGOutputJsonSocket,
      (Print io m { self with SubSystems := S1 }).socket =
        (Print io m { self with SubSystems := S2 }).socket) := by
  have hj : Print_json io m S1 = Print_json io m S2 := by
    rw [Print_json_eq, Print_json_eq]
    have e : Subsystem.enabled S1 = Subsystem.enabled S2 :=
      funext (fun s => enabled_congr S1 S2 h s)
    rw [e]
  refine ⟨hj, ?_⟩
  intro self
  unfold Print
  cases hs : self.socket with
  | none => simp [hs]
  | some c =>
    simp only [hs, hj]
    split
    · rfl
    · split <;> rfl

/-- C19 on an example: the mask of Rates and Forces, and the same mask with the Simulation,
AeroFunctions, GroundReactions, FCS and Propulsion flags added, give the same text. -/
theorem C19_mask_dependence_witness :
    Print_json NumStream.decimal (Models.const "c172".toList false 3) (ssRates ||| ssForces) =
      Print_json NumStream.decimal (Models.const "c172".toList false 3)
        (ssRates ||| ssForces ||| ssSimulation ||| ssAeroFunctions ||| ssGroundReactions |||
          ssFCS ||| ssPropulsion) :=
  (C19_mask_dependence NumStream.decimal (Models.const "c172".toList false 3)
    (ssRates ||| ssForces)
    (ssRates ||| ssForces ||| ssSimulation ||| ssAeroFunctions ||| ssGroundReactions |||
      ssFCS ||| ssPropulsion) (by decide)).1

end JSBSim

